import Mathlib

/-!
Device managers of the CPU and Interpreter backends

A shallow embedding of `lib/Backends/CPU/CPUDeviceManager.cpp` and
`lib/Backends/Interpreter/InterpreterDeviceManager.cpp`.

* `uint64_t` values are natural numbers; every addition and subtraction the
  source performs on them is taken modulo `2^64` (`add64`, `sub64`).
* `FunctionMapTy` (a `std::map` from names to `CompiledFunction *`) is a list of
  pairs in iteration order; a `std::map` never holds a key twice, which is the
  predicate `keysDistinct`.
* A `CompiledFunction *` is a record of the pointer identity and of the
  attributes the managers read through it.  Whether the runtime bundle of the
  pointed-to object holds constants is mutable and lives in a `ConstantsHeap`.
* Calls that leave the manager (callbacks, `collectConstants`, `execute`,
  `exportMemoryCounters`, trace events, `assert`, `llvm::errs()`) are recorded in
  order in an effect trace.
* The managers only call `count`, `find`, `emplace` and `erase` on `functions_`,
  so the order of its entries is never observed; `emplace` appends.
* An `assert` is recorded with the value of its condition and execution goes on,
  as in a build with `NDEBUG`; `withAssertions` cuts a trace at the first false
  `assert`, where a build with assertions enabled aborts.
* Callbacks are callable, as the `DCHECK`s of the Interpreter manager require;
  the one test for a callable callback, in `CPUDeviceManager::evictNetworkImpl`,
  is a Boolean argument.
* For the order of writes and calls inside one member function, the Interpreter
  manager also has an event embedding (`addNetworkImplEvents` and its siblings),
  proved to agree with the functions above.
* `createInterpreterDeviceManager` takes the constructor of the manager and the
  value of the option `interpreter-memory` as arguments.
-/

namespace glow

/-! ## 64-bit unsigned arithmetic -/

/-- The number of values of a `uint64_t`. -/
def two64 : Nat := 2 ^ 64

/-- The `uint64_t` addition `a + b`. -/
def add64 (a b : Nat) : Nat := (a + b) % two64

/-- The `uint64_t` subtraction `a - b`. -/
def sub64 (a b : Nat) : Nat := (a + (two64 - b % two64)) % two64

/-! ## Errors -/

/-- The members of `GlowErr::ErrorCode` that the two source files name. -/
inductive ErrorCode where
  | RUNTIME_OUT_OF_DEVICE_MEMORY
  | RUNTIME_NET_NOT_FOUND
  deriving DecidableEq, Repr

/-- The payload built by `MAKE_ERR`: the error code when the call site passes one
(`none` when it passes a message only), the message text or its format string,
and the argument substituted into the format string, if any. -/
structure GlowErr where
  code : Option ErrorCode
  message : String
  arg : Option String
  deriving DecidableEq, Repr

/-- An `llvm::Error`; `none` is `llvm::Error::success()`. -/
abbrev Error := Option GlowErr

/-- The value `llvm::Error::success()`. -/
def Error.success : Error := none

/-- The `ResultCode` handed to the result callback of the CPU manager. -/
inductive ResultCode where
  | Executed
  | Failed
  deriving DecidableEq, Repr

/-! ## Compiled functions and function maps -/

/-- Modelled from the spec: the enumeration `BackendKind` is declared outside the
two source files; the source names its member `CPU`, the spec names the
interpreter and accelerator backends. -/
inductive BackendKind where
  | Interpreter
  | OpenCL
  | CPU
  deriving DecidableEq, Repr

/-- What the managers read through a `CompiledFunction *`: the identity of the
object, `getCompileBackendKind()`, `getCompileBackendName()` and
`getRuntimeBundle().getConstantWeightSize()`. -/
structure CompiledFunction where
  addr : Nat
  compileBackendKind : BackendKind
  compileBackendName : String
  constantWeightSize : Nat
  deriving DecidableEq, Repr

/-- The type `FunctionMapTy`, in iteration order. -/
abbrev FunctionMapTy := List (String × CompiledFunction)

/-- The names bound in a function map. -/
def keys (m : FunctionMapTy) : List String := m.map Prod.fst

/-- A function map holds every name at most once. -/
def keysDistinct (m : FunctionMapTy) : Prop := (keys m).Nodup

instance (m : FunctionMapTy) : Decidable (keysDistinct m) := by
  unfold keysDistinct; infer_instance

/-- The call `m.count(name)`. -/
def count (m : FunctionMapTy) (name : String) : Nat :=
  if name ∈ keys m then 1 else 0

/-- The call `m.find(name)`; `none` is `m.end()`, otherwise the mapped pointer. -/
def find (m : FunctionMapTy) (name : String) : Option CompiledFunction :=
  match m with
  | [] => none
  | (k, f) :: rest => if k = name then some f else find rest name

/-- The call `m.emplace(name, f)`: inserts unless the name is bound already. -/
def emplace (m : FunctionMapTy) (name : String) (f : CompiledFunction) : FunctionMapTy :=
  if count m name = 0 then m ++ [(name, f)] else m

/-- The map left by `m.erase(name)`. -/
def erase (m : FunctionMapTy) (name : String) : FunctionMapTy :=
  m.filter (fun e => decide (e.1 ≠ name))

/-- The addresses of the compiled functions whose runtime bundle holds constants
(`getRuntimeBundle().getConstants() != nullptr`). -/
abbrev ConstantsHeap := List Nat

/-! ## Effects -/

/-- The calls that leave a manager, in the order they are made. -/
inductive Effect where
  /-- The call `readyCB(module, err)`. -/
  | readyCB (module : Nat) (err : Error)
  /-- The call `evictCB(functionName, err)`. -/
  | evictCB (functionName : String) (err : Error)
  /-- The call `resultCB(id, code, context)` of the CPU manager. -/
  | resultCodeCB (id : Nat) (code : ResultCode) (context : Nat)
  /-- The call `resultCB(id, err, context)` of the Interpreter manager. -/
  | resultCB (id : Nat) (err : Error) (context : Nat)
  /-- The call `collectConstants(module)` on a function. -/
  | collectConstants (func : CompiledFunction) (module : Nat)
  /-- The call `func->execute(context.get())`. -/
  | execute (func : CompiledFunction) (context : Nat)
  /-- The call `exportMemoryCounters()`, with `usedMemoryBytes_` as it is then. -/
  | exportMemoryCounters (used : Nat)
  /-- An `assert`, with the value of its condition. -/
  | assertion (holds : Bool)
  /-- Text written to `llvm::errs()`. -/
  | errs (text : String)
  /-- The text `llvm::toString(err)` written to `llvm::errs()`. -/
  | errsError (err : Error)
  /-- The start of the trace scope `dmRun`. -/
  | traceScope (name : String)
  /-- The call `dmRun.addArg(key, value)`. -/
  | traceAddArg (key : String) (value : String)
  /-- The macro `TRACE_EVENT_SCOPE_END_NAMED(dmRun)`. -/
  | traceScopeEnd
  deriving DecidableEq, Repr

/-- A manager, the constants heap and the effects made so far. -/
structure Outcome (σ : Type) where
  dm : σ
  heap : ConstantsHeap
  trace : List Effect
  deriving DecidableEq

/-- Whether an effect is a call of a completion callback. -/
def Effect.isCallback : Effect → Bool
  | .readyCB _ _ => true
  | .evictCB _ _ => true
  | .resultCodeCB _ _ _ => true
  | .resultCB _ _ _ => true
  | _ => false

/-- The calls of completion callbacks in a trace, in order. -/
def callbacks (trace : List Effect) : List Effect := trace.filter Effect.isCallback

/-- The effects of a build with assertions enabled, given those of a build with
`NDEBUG`: an `assert` whose condition is false aborts the program, so that
nothing follows it. -/
def withAssertions : List Effect → List Effect
  | [] => []
  | e :: rest => if e = Effect.assertion false then [e] else e :: withAssertions rest

/-- Whether an effect is a call of `collectConstants` on the function at an address. -/
def Effect.isCollectConstantsOn (addr : Nat) : Effect → Bool
  | .collectConstants func _ => decide (func.addr = addr)
  | _ => false

/-- The number of calls of `collectConstants` on the function at an address. -/
def collectCalls (trace : List Effect) (addr : Nat) : Nat :=
  (trace.filter (Effect.isCollectConstantsOn addr)).length

/-- Whether an effect is a call of `exportMemoryCounters`. -/
def Effect.isExport : Effect → Bool
  | .exportMemoryCounters _ => true
  | _ => false

/-- The number of calls of `exportMemoryCounters` in a trace. -/
def exportCalls (trace : List Effect) : Nat := (trace.filter Effect.isExport).length

/-- Whether an effect is a call of `execute`. -/
def Effect.isExecute : Effect → Bool
  | .execute _ _ => true
  | _ => false

/-- The calls of `execute` in a trace, in order. -/
def executeCalls (trace : List Effect) : List Effect := trace.filter Effect.isExecute

/-- The addresses of the functions of a map. -/
def addrs (m : FunctionMapTy) : List Nat := m.map (fun e => e.2.addr)

/-- Modelled from the spec: `collectConstants` is defined outside the two source
files; resolving the constants of a function leaves its runtime bundle with
constants. -/
def collectConstants (heap : ConstantsHeap) (func : CompiledFunction) : ConstantsHeap :=
  func.addr :: heap

/-- The error built at the `RUNTIME_OUT_OF_DEVICE_MEMORY` call site of both managers. -/
def errNotEnoughMemory : GlowErr :=
  ⟨some ErrorCode.RUNTIME_OUT_OF_DEVICE_MEMORY, "Failed to add network: not enough memory", none⟩

namespace runtime

/-! ## The CPU device manager -/

/-- The data members of `CPUDeviceManager` that the source file uses. -/
structure CPUDeviceManager where
  functions_ : FunctionMapTy
  maxMemoryBytes_ : Nat
  usedMemoryBytes_ : Nat
  functionCost_ : Nat
  deriving DecidableEq, Repr

namespace CPUDeviceManager

/-- A manager with nothing registered and nothing used. -/
def empty (maxMemoryBytes functionCost : Nat) : CPUDeviceManager :=
  ⟨[], maxMemoryBytes, 0, functionCost⟩

/-- The error of lines 49-55: the name is bound already. -/
def errAlreadyHave (name : String) : GlowErr :=
  ⟨none, "Failed to add network: already have a function called \x7b\x7d", some name⟩

/-- The error of lines 60-65: the function was not compiled for the CPU. -/
def errNotCPUFunction (name : String) : GlowErr :=
  ⟨none, "Failed to add network: function \x7b\x7d is not a CPUFunction", some name⟩

/-- The error of lines 98-102: no function of that name to evict. -/
def errNotFound (name : String) : GlowErr :=
  ⟨some ErrorCode.RUNTIME_NET_NOT_FOUND,
    "Could not find function with name \x7b\x7d to evict", some name⟩

/-- The member `getMaximumMemory`. -/
def getMaximumMemory (dm : CPUDeviceManager) : Nat := dm.maxMemoryBytes_

/-- The member `getAvailableMemory`. -/
def getAvailableMemory (dm : CPUDeviceManager) : Nat :=
  sub64 dm.maxMemoryBytes_ dm.usedMemoryBytes_

/-- The member `isMemoryAvailable`. -/
def isMemoryAvailable (dm : CPUDeviceManager) (estimate : Nat) : Bool :=
  decide (dm.maxMemoryBytes_ ≥ add64 dm.usedMemoryBytes_ estimate)

/-- The first loop of `addNetworkImpl` (lines 47-68): the error of the first
function, in iteration order, that fails a check. -/
def checkFunctions (dm : CPUDeviceManager) : FunctionMapTy → Option GlowErr
  | [] => none
  | (name, f) :: rest =>
    if count dm.functions_ name ≠ 0 then some (errAlreadyHave name)
    else if f.compileBackendKind ≠ BackendKind.CPU then some (errNotCPUFunction name)
    else checkFunctions dm rest

/-- One iteration of the second loop of `addNetworkImpl` (lines 78-82). -/
def addFunction (module : Nat) (o : Outcome CPUDeviceManager) (name : String)
    (f : CompiledFunction) : Outcome CPUDeviceManager :=
  let unresolved : Bool := decide (f.addr ∉ o.heap)
  { dm := { o.dm with
              functions_ := emplace o.dm.functions_ name f
              usedMemoryBytes_ := add64 o.dm.usedMemoryBytes_ o.dm.functionCost_ }
    heap := if unresolved then collectConstants o.heap f else o.heap
    trace := if unresolved then o.trace ++ [Effect.collectConstants f module] else o.trace }

/-- The second loop of `addNetworkImpl` (lines 77-83). -/
def addFunctions (module : Nat) :
    FunctionMapTy → Outcome CPUDeviceManager → Outcome CPUDeviceManager
  | [], o => o
  | (name, f) :: rest, o => addFunctions module rest (addFunction module o name f)

/-- The member `addNetworkImpl`.  The `assert` of line 85 is recorded with the
value of its condition and execution goes on, as in a build with `NDEBUG`. -/
def addNetworkImpl (dm : CPUDeviceManager) (heap : ConstantsHeap) (module : Nat)
    (functions : FunctionMapTy) : Outcome CPUDeviceManager :=
  match checkFunctions dm functions with
  | some e => ⟨dm, heap, [Effect.readyCB module (some e)]⟩
  | none =>
    if add64 dm.usedMemoryBytes_ dm.functionCost_ > dm.maxMemoryBytes_ then
      ⟨dm, heap, [Effect.readyCB module (some errNotEnoughMemory)]⟩
    else
      let o := addFunctions module functions ⟨dm, heap, []⟩
      ⟨o.dm, o.heap,
        o.trace ++ [Effect.assertion (decide (o.dm.usedMemoryBytes_ ≤ o.dm.maxMemoryBytes_)),
                    Effect.readyCB module Error.success]⟩

/-- The member `evictNetworkImpl`; `evictCB` tells whether the callback passed is
callable (the test `if (evictCB)` of line 105). -/
def evictNetworkImpl (dm : CPUDeviceManager) (heap : ConstantsHeap) (functionName : String)
    (evictCB : Bool) : Outcome CPUDeviceManager :=
  let erased := count dm.functions_ functionName
  let functions := erase dm.functions_ functionName
  let used := if erased ≠ 0 then sub64 dm.usedMemoryBytes_ dm.functionCost_
              else dm.usedMemoryBytes_
  let err : Error := if erased ≠ 0 then Error.success else some (errNotFound functionName)
  ⟨{ dm with functions_ := functions, usedMemoryBytes_ := used }, heap,
    [if evictCB then Effect.evictCB functionName err else Effect.errsError err]⟩

/-- The member `runFunctionImpl`. -/
def runFunctionImpl (dm : CPUDeviceManager) (heap : ConstantsHeap) (id : Nat)
    (function : String) (context : Nat) : Outcome CPUDeviceManager :=
  match find dm.functions_ function with
  | none =>
    ⟨dm, heap, [Effect.errs ("Failed to run function: name " ++ function ++ " not found.\n"),
                Effect.resultCodeCB id ResultCode.Failed context]⟩
  | some func =>
    ⟨dm, heap, [Effect.execute func context,
                Effect.resultCodeCB id ResultCode.Executed context]⟩

/-- The commands the manager processes. -/
inductive Command where
  | addNetwork (module : Nat) (functions : FunctionMapTy)
  | evictNetwork (functionName : String) (evictCB : Bool)
  | runFunction (id : Nat) (function : String) (context : Nat)
  deriving DecidableEq, Repr

/-- The function maps of a command are maps: no name twice. -/
def Command.wellFormed : Command → Bool
  | .addNetwork _ functions => decide (keysDistinct functions)
  | _ => true

/-- Processing one command; its effects follow those made before. -/
def step (o : Outcome CPUDeviceManager) (c : Command) : Outcome CPUDeviceManager :=
  let r := match c with
    | .addNetwork module functions => addNetworkImpl o.dm o.heap module functions
    | .evictNetwork functionName evictCB => evictNetworkImpl o.dm o.heap functionName evictCB
    | .runFunction id function context => runFunctionImpl o.dm o.heap id function context
  ⟨r.dm, r.heap, o.trace ++ r.trace⟩

/-- Processing a sequence of commands in order. -/
def run (o : Outcome CPUDeviceManager) (cmds : List Command) : Outcome CPUDeviceManager :=
  cmds.foldl step o

/-- The state reached from the empty manager by a sequence of commands. -/
def reached (maxMemoryBytes functionCost : Nat) (cmds : List Command) : CPUDeviceManager :=
  (run ⟨empty maxMemoryBytes functionCost, [], []⟩ cmds).dm

/-- The sum of the reservations of the registered functions. -/
def reserved (dm : CPUDeviceManager) : Nat :=
  dm.functionCost_ * dm.functions_.length

/-- The accounting invariant: the map holds no name twice and
`usedMemoryBytes_` is the sum of the reservations, as a `uint64_t`. -/
def accounted (dm : CPUDeviceManager) : Prop :=
  keysDistinct dm.functions_ ∧ dm.usedMemoryBytes_ = reserved dm % two64

/-- The reservations fit in 64 bits in every state passed through while the
commands are processed. -/
def sumsFit (o : Outcome CPUDeviceManager) : List Command → Bool
  | [] => decide (reserved o.dm < two64)
  | c :: cs => decide (reserved o.dm < two64) && sumsFit (step o c) cs

end CPUDeviceManager

/-! ## The Interpreter device manager -/

/-- Modelled from the spec: `Interpreter::getName()` is defined outside the two
source files; the spec names the backend kind `Interpreter`. -/
def Interpreter.getName : String := "Interpreter"

/-- The data members of `InterpreterDeviceManager` that the source file uses. -/
structure InterpreterDeviceManager where
  functions_ : FunctionMapTy
  maxMemoryBytes_ : Nat
  usedMemoryBytes_ : Nat
  deriving DecidableEq, Repr

namespace InterpreterDeviceManager

/-- A manager with nothing registered and nothing used. -/
def empty (maxMemoryBytes : Nat) : InterpreterDeviceManager :=
  ⟨[], maxMemoryBytes, 0⟩

/-- The error of lines 75-81: the name is bound already. -/
def errAlreadyHave (name : String) : GlowErr :=
  ⟨none, "Failed to add network: already have a function called \x7b0\x7d", some name⟩

/-- The error of lines 86-89: the function was not compiled for the Interpreter. -/
def errNotInterpreterFunction (name : String) : GlowErr :=
  ⟨none, "Failed to add network: function \x7b0\x7d is not a InterpreterFunction", some name⟩

/-- The error of lines 131-133: no function of that name to evict. -/
def errNotFound (name : String) : GlowErr :=
  ⟨some ErrorCode.RUNTIME_NET_NOT_FOUND,
    "Could not find function with name %s to evict", some name⟩

/-- The error of lines 152-153: no function of that name to run. -/
def errRunNotFound (name : String) : GlowErr :=
  ⟨some ErrorCode.RUNTIME_NET_NOT_FOUND, "Function \x7b0\x7d not found", some name⟩

/-- The member `getMaximumMemory`. -/
def getMaximumMemory (dm : InterpreterDeviceManager) : Nat := dm.maxMemoryBytes_

/-- The member `getAvailableMemory`. -/
def getAvailableMemory (dm : InterpreterDeviceManager) : Nat :=
  sub64 dm.maxMemoryBytes_ dm.usedMemoryBytes_

/-- The member `isMemoryAvailable`. -/
def isMemoryAvailable (dm : InterpreterDeviceManager) (estimate : Nat) : Bool :=
  decide (dm.maxMemoryBytes_ ≥ add64 dm.usedMemoryBytes_ estimate)

/-- The first loop of `addNetworkImpl` (lines 73-95), entered with the value of
`allFunctionsMemoryBytes` so far: the error of the first function, in iteration
order, that fails a check, or else the final `allFunctionsMemoryBytes`. -/
def checkFunctions (dm : InterpreterDeviceManager) :
    FunctionMapTy → Nat → Except GlowErr Nat
  | [], allFunctionsMemoryBytes => .ok allFunctionsMemoryBytes
  | (name, f) :: rest, allFunctionsMemoryBytes =>
    if count dm.functions_ name ≠ 0 then .error (errAlreadyHave name)
    else if f.compileBackendName ≠ Interpreter.getName then
      .error (errNotInterpreterFunction name)
    else checkFunctions dm rest (add64 allFunctionsMemoryBytes f.constantWeightSize)

/-- One iteration of the second loop of `addNetworkImpl` (lines 105-108). -/
def addFunction (module : Nat) (o : Outcome InterpreterDeviceManager) (name : String)
    (f : CompiledFunction) : Outcome InterpreterDeviceManager :=
  let unresolved : Bool := decide (f.addr ∉ o.heap)
  { dm := { o.dm with functions_ := emplace o.dm.functions_ name f }
    heap := if unresolved then collectConstants o.heap f else o.heap
    trace := if unresolved then o.trace ++ [Effect.collectConstants f module] else o.trace }

/-- The second loop of `addNetworkImpl` (lines 104-109). -/
def addFunctions (module : Nat) :
    FunctionMapTy → Outcome InterpreterDeviceManager → Outcome InterpreterDeviceManager
  | [], o => o
  | (name, f) :: rest, o => addFunctions module rest (addFunction module o name f)

/-- The member `addNetworkImpl`.  The `assert` of line 112 is recorded with the
value of its condition and execution goes on, as in a build with `NDEBUG`. -/
def addNetworkImpl (dm : InterpreterDeviceManager) (heap : ConstantsHeap) (module : Nat)
    (functions : FunctionMapTy) : Outcome InterpreterDeviceManager :=
  match checkFunctions dm functions 0 with
  | .error e => ⟨dm, heap, [Effect.readyCB module (some e)]⟩
  | .ok allFunctionsMemoryBytes =>
    if add64 dm.usedMemoryBytes_ allFunctionsMemoryBytes > dm.maxMemoryBytes_ then
      ⟨dm, heap, [Effect.readyCB module (some errNotEnoughMemory)]⟩
    else
      let o := addFunctions module functions ⟨dm, heap, []⟩
      let used := add64 o.dm.usedMemoryBytes_ allFunctionsMemoryBytes
      ⟨{ o.dm with usedMemoryBytes_ := used }, o.heap,
        o.trace ++ [Effect.assertion (decide (used ≤ o.dm.maxMemoryBytes_)),
                    Effect.exportMemoryCounters used,
                    Effect.readyCB module Error.success]⟩

/-- The member `evictNetworkImpl`. -/
def evictNetworkImpl (dm : InterpreterDeviceManager) (heap : ConstantsHeap)
    (functionName : String) : Outcome InterpreterDeviceManager :=
  match find dm.functions_ functionName with
  | some f =>
    let used := sub64 dm.usedMemoryBytes_ f.constantWeightSize
    ⟨{ dm with usedMemoryBytes_ := used, functions_ := erase dm.functions_ functionName },
      heap, [Effect.exportMemoryCounters used, Effect.evictCB functionName Error.success]⟩
  | none => ⟨dm, heap, [Effect.evictCB functionName (some (errNotFound functionName))]⟩

/-- The member `runFunctionImpl`; `execute func context` is the error that
`func->execute(context.get())` returns. -/
def runFunctionImpl (execute : CompiledFunction → Nat → Error)
    (dm : InterpreterDeviceManager) (heap : ConstantsHeap) (id : Nat)
    (function : String) (context : Nat) : Outcome InterpreterDeviceManager :=
  match find dm.functions_ function with
  | none =>
    ⟨dm, heap, [Effect.traceScope "DeviceManager::run",
                Effect.traceAddArg "reason" "function not found",
                Effect.traceScopeEnd,
                Effect.resultCB id (some (errRunNotFound function)) context]⟩
  | some func =>
    ⟨dm, heap, [Effect.traceScope "DeviceManager::run",
                Effect.execute func context,
                Effect.traceScopeEnd,
                Effect.resultCB id (execute func context) context]⟩

/-- The commands the manager processes. -/
inductive Command where
  | addNetwork (module : Nat) (functions : FunctionMapTy)
  | evictNetwork (functionName : String)
  | runFunction (id : Nat) (function : String) (context : Nat)
  deriving DecidableEq, Repr

/-- The function maps of a command are maps: no name twice. -/
def Command.wellFormed : Command → Bool
  | .addNetwork _ functions => decide (keysDistinct functions)
  | _ => true

/-- Processing one command; its effects follow those made before. -/
def step (execute : CompiledFunction → Nat → Error) (o : Outcome InterpreterDeviceManager)
    (c : Command) : Outcome InterpreterDeviceManager :=
  let r := match c with
    | .addNetwork module functions => addNetworkImpl o.dm o.heap module functions
    | .evictNetwork functionName => evictNetworkImpl o.dm o.heap functionName
    | .runFunction id function context => runFunctionImpl execute o.dm o.heap id function context
  ⟨r.dm, r.heap, o.trace ++ r.trace⟩

/-- Processing a sequence of commands in order. -/
def run (execute : CompiledFunction → Nat → Error) (o : Outcome InterpreterDeviceManager)
    (cmds : List Command) : Outcome InterpreterDeviceManager :=
  cmds.foldl (step execute) o

/-- The state reached from the empty manager by a sequence of commands. -/
def reached (execute : CompiledFunction → Nat → Error) (maxMemoryBytes : Nat)
    (cmds : List Command) : InterpreterDeviceManager :=
  (run execute ⟨empty maxMemoryBytes, [], []⟩ cmds).dm

/-- The sum of the constant weight sizes of the functions of a map. -/
def weightSum (m : FunctionMapTy) : Nat :=
  (m.map (fun e => e.2.constantWeightSize)).sum

/-- The sum of the reservations of the registered functions. -/
def reserved (dm : InterpreterDeviceManager) : Nat := weightSum dm.functions_

/-- The weight sums fit in 64 bits in every state passed through while the
commands are processed. -/
def sumsFit (execute : CompiledFunction → Nat → Error) (o : Outcome InterpreterDeviceManager) :
    List Command → Bool
  | [] => decide (reserved o.dm < two64)
  | c :: cs => decide (reserved o.dm < two64) && sumsFit execute (step execute o c) cs

/-- The accounting invariant: the map holds no name twice and
`usedMemoryBytes_` is the sum of the reservations, as a `uint64_t`. -/
def accounted (dm : InterpreterDeviceManager) : Prop :=
  keysDistinct dm.functions_ ∧ dm.usedMemoryBytes_ = reserved dm % two64

/-- An `execute` that always returns success. -/
def executeOk : CompiledFunction → Nat → Error := fun _ _ => Error.success

/-- Whether, while the commands are processed, the last `addNetworkImpl` that
succeeded with the name in its map has been followed by an `evictNetworkImpl` of
the name that succeeded; `evicted` is the answer for the commands processed
before. -/
def evictedLast (execute : CompiledFunction → Nat → Error) (name : String) :
    Outcome InterpreterDeviceManager → List Command → Bool → Bool
  | _, [], evicted => evicted
  | o, c :: cs, evicted =>
    evictedLast execute name (step execute o c) cs
      (match c with
        | .addNetwork module functions =>
          if name ∈ keys functions ∧
              Effect.readyCB module Error.success
                ∈ (addNetworkImpl o.dm o.heap module functions).trace
          then false else evicted
        | .evictNetwork functionName =>
          if functionName = name ∧
              Effect.evictCB name Error.success
                ∈ (evictNetworkImpl o.dm o.heap functionName).trace
          then true else evicted
        | .runFunction _ _ _ => evicted)

/-- What a member function does, one statement after the other: a call that
leaves the manager, or a write to `functions_` or to `usedMemoryBytes_`. -/
inductive Event where
  | effect (e : Effect)
  | emplace (name : String) (f : CompiledFunction)
  | erase (name : String)
  | setUsed (value : Nat)
  deriving DecidableEq, Repr

/-- The manager after an event. -/
def Event.apply (dm : InterpreterDeviceManager) : Event → InterpreterDeviceManager
  | .effect _ => dm
  | .emplace name f => { dm with functions_ := glow.emplace dm.functions_ name f }
  | .erase name => { dm with functions_ := glow.erase dm.functions_ name }
  | .setUsed value => { dm with usedMemoryBytes_ := value }

/-- The effect of an event, if it is one. -/
def Event.effect? : Event → Option Effect
  | .effect e => some e
  | _ => none

/-- The effects among events, in order. -/
def effectsOf (events : List Event) : List Effect := events.filterMap Event.effect?

/-- The events of the second loop of `addNetworkImpl` (lines 104-109). -/
def addFunctionsEvents (module : Nat) : FunctionMapTy → ConstantsHeap → List Event
  | [], _ => []
  | (name, f) :: rest, heap =>
    if f.addr ∉ heap then
      Event.effect (Effect.collectConstants f module) :: Event.emplace name f
        :: addFunctionsEvents module rest (collectConstants heap f)
    else Event.emplace name f :: addFunctionsEvents module rest heap

/-- The events of `addNetworkImpl`, in the order of its statements. -/
def addNetworkImplEvents (dm : InterpreterDeviceManager) (heap : ConstantsHeap) (module : Nat)
    (functions : FunctionMapTy) : List Event :=
  match checkFunctions dm functions 0 with
  | .error e => [Event.effect (Effect.readyCB module (some e))]
  | .ok allFunctionsMemoryBytes =>
    if add64 dm.usedMemoryBytes_ allFunctionsMemoryBytes > dm.maxMemoryBytes_ then
      [Event.effect (Effect.readyCB module (some errNotEnoughMemory))]
    else
      addFunctionsEvents module functions heap ++
        [Event.setUsed (add64 dm.usedMemoryBytes_ allFunctionsMemoryBytes),
         Event.effect (Effect.assertion
           (decide (add64 dm.usedMemoryBytes_ allFunctionsMemoryBytes ≤ dm.maxMemoryBytes_))),
         Event.effect (Effect.exportMemoryCounters
           (add64 dm.usedMemoryBytes_ allFunctionsMemoryBytes)),
         Event.effect (Effect.readyCB module Error.success)]

/-- The events of `evictNetworkImpl`, in the order of its statements. -/
def evictNetworkImplEvents (dm : InterpreterDeviceManager) (functionName : String) :
    List Event :=
  match find dm.functions_ functionName with
  | some f =>
    [Event.setUsed (sub64 dm.usedMemoryBytes_ f.constantWeightSize),
     Event.erase functionName,
     Event.effect (Effect.exportMemoryCounters (sub64 dm.usedMemoryBytes_ f.constantWeightSize)),
     Event.effect (Effect.evictCB functionName Error.success)]
  | none => [Event.effect (Effect.evictCB functionName (some (errNotFound functionName)))]

/-- The events of `runFunctionImpl`, in the order of its statements. -/
def runFunctionImplEvents (execute : CompiledFunction → Nat → Error)
    (dm : InterpreterDeviceManager) (id : Nat) (function : String) (context : Nat) :
    List Event :=
  match find dm.functions_ function with
  | none =>
    [Event.effect (Effect.traceScope "DeviceManager::run"),
     Event.effect (Effect.traceAddArg "reason" "function not found"),
     Event.effect Effect.traceScopeEnd,
     Event.effect (Effect.resultCB id (some (errRunNotFound function)) context)]
  | some func =>
    [Event.effect (Effect.traceScope "DeviceManager::run"),
     Event.effect (Effect.execute func context),
     Event.effect Effect.traceScopeEnd,
     Event.effect (Effect.resultCB id (execute func context) context)]

/-- Whether an event is a call of a completion callback. -/
def Event.isCallback : Event → Bool
  | .effect e => e.isCallback
  | _ => false

end InterpreterDeviceManager

/-- Modelled from the spec: `DeviceConfig` is declared outside the two source
files; it holds the capacity in bytes, the backend kind tag and the
backend-specific options. -/
structure DeviceConfig where
  deviceMemory : Nat
  backendName : String
  parameters : List (String × String)
  deriving DecidableEq, Repr

/-- Modelled from the spec: the setter `setDeviceMemory` of `DeviceConfig` is
declared outside the two source files; it replaces the capacity. -/
def DeviceConfig.setDeviceMemory (config : DeviceConfig) (memSize : Nat) : DeviceConfig :=
  { config with deviceMemory := memSize }

/-- Modelled from the spec: the constructor of `InterpreterDeviceManager` is
declared outside the two source files; the manager starts with nothing
registered, nothing used and the capacity of its config. -/
def InterpreterDeviceManager.construct (config : DeviceConfig) : InterpreterDeviceManager :=
  ⟨[], config.deviceMemory, 0⟩

/-- The function `createInterpreterDeviceManager`: `interpreterMaxMem` is the
value of the option `interpreter-memory`, `construct` the constructor of
`InterpreterDeviceManager`.  The result is the manager created and the config of
the caller as it is after the call. -/
def createInterpreterDeviceManager (construct : DeviceConfig → InterpreterDeviceManager)
    (interpreterMaxMem : Nat) (config : DeviceConfig) :
    InterpreterDeviceManager × DeviceConfig :=
  if interpreterMaxMem ≠ 0 then
    let configNew := config
    let configNew := configNew.setDeviceMemory ((interpreterMaxMem * 1024) % two64)
    (construct configNew, config)
  else (construct config, config)

end runtime

/-! ## Function maps -/

theorem mem_keys_append (m₁ m₂ : FunctionMapTy) (name : String) :
    name ∈ keys (m₁ ++ m₂) ↔ name ∈ keys m₁ ∨ name ∈ keys m₂ := by
  simp [keys]

theorem count_eq_zero_iff (m : FunctionMapTy) (name : String) :
    count m name = 0 ↔ name ∉ keys m := by
  unfold count
  by_cases h : name ∈ keys m <;> simp [h]

theorem count_ne_zero_iff (m : FunctionMapTy) (name : String) :
    count m name ≠ 0 ↔ name ∈ keys m := by
  unfold count
  by_cases h : name ∈ keys m <;> simp [h]

theorem find_eq_none_iff (m : FunctionMapTy) (name : String) :
    find m name = none ↔ name ∉ keys m := by
  induction m with
  | nil => simp [find, keys]
  | cons e rest ih =>
    obtain ⟨k, f⟩ := e
    by_cases h : k = name
    · simp [find, keys, h]
    · have h2 : ¬ name = k := fun h3 => h h3.symm
      simpa [find, keys, h, h2] using ih

theorem find_some_mem (m : FunctionMapTy) (name : String) (f : CompiledFunction)
    (h : find m name = some f) : (name, f) ∈ m := by
  induction m with
  | nil => simp [find] at h
  | cons e rest ih =>
    obtain ⟨k, g⟩ := e
    by_cases hk : k = name
    · simp [find, hk] at h
      simp [hk, h]
    · simp [find, hk] at h
      exact List.mem_cons_of_mem _ (ih h)

theorem find_append_left (m₁ m₂ : FunctionMapTy) (name : String) (h : name ∈ keys m₁) :
    find (m₁ ++ m₂) name = find m₁ name := by
  induction m₁ with
  | nil => simp [keys] at h
  | cons e rest ih =>
    obtain ⟨k, g⟩ := e
    by_cases hk : k = name
    · simp [find, hk]
    · have h2 : name ∈ keys rest := by
        have : ¬ name = k := fun h3 => hk h3.symm
        simpa [keys, this] using h
      simpa [find, hk] using ih h2

theorem find_append_right (m₁ m₂ : FunctionMapTy) (name : String) (h : name ∉ keys m₁) :
    find (m₁ ++ m₂) name = find m₂ name := by
  induction m₁ with
  | nil => simp
  | cons e rest ih =>
    obtain ⟨k, g⟩ := e
    have hk : ¬ k = name := by
      intro h3; apply h; simp [keys, h3]
    have h2 : name ∉ keys rest := by
      intro h3; apply h; simp only [keys, List.map_cons, List.mem_cons]; exact Or.inr h3
    simpa [find, hk] using ih h2

theorem find_of_mem (m : FunctionMapTy) (name : String) (f : CompiledFunction)
    (hd : keysDistinct m) (h : (name, f) ∈ m) : find m name = some f := by
  induction m with
  | nil => simp at h
  | cons e rest ih =>
    obtain ⟨k, g⟩ := e
    have hd2 : k ∉ keys rest ∧ keysDistinct rest := by
      simpa [keysDistinct, keys] using hd
    rcases List.mem_cons.mp h with h1 | h1
    · cases h1; simp [find]
    · have hk : ¬ k = name := by
        intro h3; apply hd2.1
        rw [h3]; exact List.mem_map_of_mem Prod.fst h1
      simpa [find, hk] using ih hd2.2 h1

theorem erase_of_not_mem (m : FunctionMapTy) (name : String) (h : name ∉ keys m) :
    erase m name = m := by
  unfold erase
  rw [List.filter_eq_self]
  intro e he
  have : e.1 ≠ name := by
    intro h2; apply h; rw [← h2]; exact List.mem_map_of_mem Prod.fst he
  simpa using this

theorem erase_append_singleton (m : FunctionMapTy) (name : String) (f : CompiledFunction)
    (h : name ∉ keys m) : erase (m ++ [(name, f)]) name = m := by
  have h1 := erase_of_not_mem m name h
  unfold erase at h1 ⊢
  rw [List.filter_append, h1]
  simp

theorem not_mem_keys_erase (m : FunctionMapTy) (name : String) : name ∉ keys (erase m name) := by
  simp [erase, keys, List.mem_filter]

theorem mem_keys_erase (m : FunctionMapTy) (name other : String) (h : other ≠ name) :
    other ∈ keys (erase m name) ↔ other ∈ keys m := by
  simp only [erase, keys, List.mem_map, List.mem_filter]
  constructor
  · rintro ⟨e, ⟨he, _⟩, h2⟩; exact ⟨e, he, h2⟩
  · rintro ⟨e, he, h2⟩
    refine ⟨e, ⟨he, ?_⟩, h2⟩
    simpa [h2] using h

theorem find_erase_ne (m : FunctionMapTy) (name other : String) (h : other ≠ name) :
    find (erase m name) other = find m other := by
  induction m with
  | nil => simp [erase]
  | cons e rest ih =>
    obtain ⟨k, g⟩ := e
    unfold erase at ih ⊢
    by_cases hk : k = name
    · subst hk
      have h3 : ¬ k = other := fun h4 => h h4.symm
      simpa [List.filter_cons, find, h3] using ih
    · by_cases h3 : k = other
      · subst h3
        simp [List.filter_cons, hk, find]
      · simpa [List.filter_cons, hk, find, h3] using ih

theorem keysDistinct_erase (m : FunctionMapTy) (name : String) (h : keysDistinct m) :
    keysDistinct (erase m name) := by
  unfold keysDistinct keys erase at *
  exact (List.filter_sublist m).map Prod.fst |>.nodup h

theorem keysDistinct_append (m₁ m₂ : FunctionMapTy) (h₁ : keysDistinct m₁) (h₂ : keysDistinct m₂)
    (h : ∀ e ∈ m₂, e.1 ∉ keys m₁) : keysDistinct (m₁ ++ m₂) := by
  unfold keysDistinct keys at *
  rw [List.map_append, List.nodup_append]
  refine ⟨h₁, h₂, ?_⟩
  intro a ha hb
  obtain ⟨e, he, rfl⟩ := List.mem_map.mp hb
  exact h e he ha

/-- The map built by emplacing the entries of a map one after the other. -/
theorem foldl_emplace_eq_append (fs m : FunctionMapTy) (hd : keysDistinct fs)
    (h : ∀ e ∈ fs, e.1 ∉ keys m) :
    fs.foldl (fun acc e => emplace acc e.1 e.2) m = m ++ fs := by
  induction fs generalizing m with
  | nil => simp
  | cons e rest ih =>
    have hd2 : e.1 ∉ keys rest ∧ keysDistinct rest := by
      simpa [keysDistinct, keys] using hd
    have he : e.1 ∉ keys m := h e (List.mem_cons_self _ _)
    have hstep : emplace m e.1 e.2 = m ++ [e] := by
      unfold emplace
      rw [if_pos ((count_eq_zero_iff m e.1).mpr he)]
    rw [List.foldl_cons, hstep, ih (m ++ [e]) hd2.2]
    · simp
    · intro e2 he2 hmem
      rcases (mem_keys_append m [e] e2.1).mp hmem with h3 | h3
      · exact h e2 (List.mem_cons_of_mem _ he2) h3
      · have : e2.1 = e.1 := by simpa [keys] using h3
        apply hd2.1
        rw [← this]
        exact List.mem_map_of_mem Prod.fst he2

/-! ## 64-bit arithmetic -/

theorem add64_lt (a b : Nat) : add64 a b < two64 := by
  unfold add64 two64; omega

theorem add64_of_lt (a b : Nat) (h : a + b < two64) : add64 a b = a + b := by
  unfold add64 two64 at *; omega

theorem sub64_of_le (a b : Nat) (ha : a < two64) (h : b ≤ a) : sub64 a b = a - b := by
  unfold sub64 two64 at *; omega

theorem sub64_add64 (a b : Nat) (ha : a < two64) : sub64 (add64 a b) b = a := by
  unfold sub64 add64 two64 at *; omega

namespace runtime

/-! ## The Interpreter device manager: loops of `addNetworkImpl` -/

namespace InterpreterDeviceManager

theorem weightSum_append (m₁ m₂ : FunctionMapTy) :
    weightSum (m₁ ++ m₂) = weightSum m₁ + weightSum m₂ := by
  simp [weightSum]

theorem weightSum_erase (m : FunctionMapTy) (name : String) (f : CompiledFunction)
    (hd : keysDistinct m) (h : find m name = some f) :
    weightSum (erase m name) + f.constantWeightSize = weightSum m := by
  induction m with
  | nil => simp [find] at h
  | cons e rest ih =>
    obtain ⟨k, g⟩ := e
    have hd2 : k ∉ keys rest ∧ keysDistinct rest := by
      simpa [keysDistinct, keys] using hd
    by_cases hk : k = name
    · subst hk
      have hg : g = f := by simpa [find] using h
      subst hg
      have h1 := erase_of_not_mem rest k hd2.1
      have h2 : erase ((k, g) :: rest) k = erase rest k := by
        simp [erase, List.filter_cons]
      rw [h2, h1]
      simp only [weightSum, List.map_cons, List.sum_cons]
      omega
    · have h2 : find rest name = some f := by simpa [find, hk] using h
      have h3 := ih hd2.2 h2
      unfold erase at h3 ⊢
      simp only [weightSum, List.filter_cons, hk, ne_eq, not_false_eq_true, decide_True,
        if_true, List.map_cons, List.sum_cons] at h3 ⊢
      omega

theorem checkFunctions_ok (dm : InterpreterDeviceManager) (fs : FunctionMapTy) (acc v : Nat)
    (hacc : acc < two64) (h : checkFunctions dm fs acc = .ok v) :
    (∀ e ∈ fs, e.1 ∉ keys dm.functions_ ∧ e.2.compileBackendName = Interpreter.getName) ∧
      v = (acc + weightSum fs) % two64 := by
  induction fs generalizing acc with
  | nil =>
    simp only [checkFunctions, Except.ok.injEq] at h
    subst h
    simp [weightSum, Nat.mod_eq_of_lt hacc]
  | cons e rest ih =>
    obtain ⟨k, g⟩ := e
    unfold checkFunctions at h
    by_cases h1 : count dm.functions_ k ≠ 0
    · simp [h1] at h
    · by_cases h2 : g.compileBackendName ≠ Interpreter.getName
      · simp [h1, h2] at h
      · rw [if_neg h1, if_neg h2] at h
        obtain ⟨h3, h4⟩ := ih (add64 acc g.constantWeightSize) (add64_lt _ _) h
        refine ⟨?_, ?_⟩
        · intro e he
          rcases List.mem_cons.mp he with h5 | h5
          · subst h5
            exact ⟨(count_eq_zero_iff _ _).mp (not_not.mp h1), not_not.mp h2⟩
          · exact h3 e h5
        · rw [h4]
          simp only [weightSum, List.map_cons, List.sum_cons, add64, two64]
          omega

theorem checkFunctions_of_valid (dm : InterpreterDeviceManager) (fs : FunctionMapTy) (acc : Nat)
    (hacc : acc < two64)
    (h : ∀ e ∈ fs, e.1 ∉ keys dm.functions_ ∧ e.2.compileBackendName = Interpreter.getName) :
    checkFunctions dm fs acc = .ok ((acc + weightSum fs) % two64) := by
  induction fs generalizing acc with
  | nil => simp [checkFunctions, weightSum, Nat.mod_eq_of_lt hacc]
  | cons e rest ih =>
    obtain ⟨k, g⟩ := e
    have hk := h (k, g) (List.mem_cons_self _ _)
    have h1 : ¬ count dm.functions_ k ≠ 0 := not_not.mpr ((count_eq_zero_iff _ _).mpr hk.1)
    have h2 : ¬ g.compileBackendName ≠ Interpreter.getName := not_not.mpr hk.2
    unfold checkFunctions
    rw [if_neg h1, if_neg h2,
      ih (add64 acc g.constantWeightSize) (add64_lt _ _)
        (fun e he => h e (List.mem_cons_of_mem _ he))]
    congr 1
    simp only [weightSum, List.map_cons, List.sum_cons, add64, two64]
    omega

/-- The error of the first loop is the one of the first function, in iteration
order, that is registered already or carries another backend name. -/
theorem checkFunctions_error (dm : InterpreterDeviceManager) (fs : FunctionMapTy) (acc : Nat)
    (err : GlowErr) (h : checkFunctions dm fs acc = .error err) :
    ∃ pre k g post, fs = pre ++ (k, g) :: post ∧
      (∀ e ∈ pre, e.1 ∉ keys dm.functions_ ∧ e.2.compileBackendName = Interpreter.getName) ∧
      ((k ∈ keys dm.functions_ ∧ err = errAlreadyHave k) ∨
        (k ∉ keys dm.functions_ ∧ g.compileBackendName ≠ Interpreter.getName ∧
          err = errNotInterpreterFunction k)) := by
  induction fs generalizing acc with
  | nil => simp [checkFunctions] at h
  | cons e rest ih =>
    obtain ⟨k, g⟩ := e
    unfold checkFunctions at h
    by_cases h1 : count dm.functions_ k ≠ 0
    · rw [if_pos h1] at h
      refine ⟨[], k, g, rest, rfl, by simp, Or.inl ⟨(count_ne_zero_iff _ _).mp h1, ?_⟩⟩
      simpa using h.symm
    · have hk : k ∉ keys dm.functions_ := (count_eq_zero_iff _ _).mp (not_not.mp h1)
      by_cases h2 : g.compileBackendName ≠ Interpreter.getName
      · rw [if_neg h1, if_pos h2] at h
        refine ⟨[], k, g, rest, rfl, by simp, Or.inr ⟨hk, h2, ?_⟩⟩
        simpa using h.symm
      · rw [if_neg h1, if_neg h2] at h
        obtain ⟨pre, k2, g2, post, h3, h4, h5⟩ := ih _ h
        refine ⟨(k, g) :: pre, k2, g2, post, by simp [h3], ?_, h5⟩
        intro e he
        rcases List.mem_cons.mp he with h6 | h6
        · subst h6; exact ⟨hk, not_not.mp h2⟩
        · exact h4 e h6

theorem addFunctions_dm (module : Nat) (fs : FunctionMapTy) (o : Outcome InterpreterDeviceManager) :
    (addFunctions module fs o).dm =
      { o.dm with functions_ := fs.foldl (fun acc e => emplace acc e.1 e.2) o.dm.functions_ } := by
  induction fs generalizing o with
  | nil => simp [addFunctions]
  | cons e rest ih =>
    obtain ⟨k, g⟩ := e
    simp [addFunctions, ih, addFunction]

theorem addFunctions_trace (module : Nat) (fs : FunctionMapTy)
    (o : Outcome InterpreterDeviceManager) :
    ∃ tr, (addFunctions module fs o).trace = o.trace ++ tr ∧
      ∀ e ∈ tr, ∃ f, (∃ k, (k, f) ∈ fs) ∧ e = Effect.collectConstants f module := by
  induction fs generalizing o with
  | nil => exact ⟨[], by simp [addFunctions], by simp⟩
  | cons e rest ih =>
    obtain ⟨k, g⟩ := e
    obtain ⟨tr, h1, h2⟩ := ih (addFunction module o k g)
    by_cases hu : g.addr ∉ o.heap
    · refine ⟨Effect.collectConstants g module :: tr, ?_, ?_⟩
      · rw [addFunctions, h1]; simp [addFunction, hu]
      · intro e he
        rcases List.mem_cons.mp he with h3 | h3
        · exact ⟨g, ⟨k, List.mem_cons_self _ _⟩, h3⟩
        · obtain ⟨f, ⟨k2, h4⟩, h5⟩ := h2 e h3
          exact ⟨f, ⟨k2, List.mem_cons_of_mem _ h4⟩, h5⟩
    · refine ⟨tr, ?_, ?_⟩
      · rw [addFunctions, h1]; simp [addFunction, hu]
      · intro e he
        obtain ⟨f, ⟨k2, h4⟩, h5⟩ := h2 e he
        exact ⟨f, ⟨k2, List.mem_cons_of_mem _ h4⟩, h5⟩

/-- The two ways `addNetworkImpl` ends: one error callback and nothing else, or
the second loop, the update of `usedMemoryBytes_`, the `assert`, the export and
the success callback. -/
theorem addNetworkImpl_fail_or_ok (dm : InterpreterDeviceManager) (heap : ConstantsHeap)
    (module : Nat) (fs : FunctionMapTy) :
    (∃ err, addNetworkImpl dm heap module fs = ⟨dm, heap, [Effect.readyCB module (some err)]⟩ ∧
      (checkFunctions dm fs 0 = .error err ∨
        (∃ all, checkFunctions dm fs 0 = .ok all ∧
          add64 dm.usedMemoryBytes_ all > dm.maxMemoryBytes_ ∧ err = errNotEnoughMemory))) ∨
    (∃ all tr, checkFunctions dm fs 0 = .ok all ∧
      add64 dm.usedMemoryBytes_ all ≤ dm.maxMemoryBytes_ ∧
      (addNetworkImpl dm heap module fs).dm =
        ⟨fs.foldl (fun acc e => emplace acc e.1 e.2) dm.functions_, dm.maxMemoryBytes_,
          add64 dm.usedMemoryBytes_ all⟩ ∧
      (∀ e ∈ tr, ∃ f, (∃ k, (k, f) ∈ fs) ∧ e = Effect.collectConstants f module) ∧
      (addNetworkImpl dm heap module fs).trace =
        tr ++ [Effect.assertion true,
               Effect.exportMemoryCounters (add64 dm.usedMemoryBytes_ all),
               Effect.readyCB module Error.success]) := by
  cases hc : checkFunctions dm fs 0 with
  | error err =>
    left
    exact ⟨err, by simp [addNetworkImpl, hc], Or.inl rfl⟩
  | ok all =>
    by_cases hgt : add64 dm.usedMemoryBytes_ all > dm.maxMemoryBytes_
    · left
      exact ⟨errNotEnoughMemory, by simp [addNetworkImpl, hc, hgt], Or.inr ⟨all, rfl, hgt, rfl⟩⟩
    · right
      obtain ⟨tr, h1, h2⟩ := addFunctions_trace module fs ⟨dm, heap, []⟩
      have hle : add64 dm.usedMemoryBytes_ all ≤ dm.maxMemoryBytes_ := Nat.le_of_not_lt hgt
      refine ⟨all, tr, rfl, hle, ?_, h2, ?_⟩
      · simp [addNetworkImpl, hc, hgt, addFunctions_dm]
      · simp only [List.nil_append] at h1
        simp [addNetworkImpl, hc, hgt, addFunctions_dm, h1, hle]

/-- The state after `addNetworkImpl` on a map without repeated names: unchanged
on an error, extended by the whole map otherwise. -/
theorem addNetworkImpl_dm (dm : InterpreterDeviceManager) (heap : ConstantsHeap)
    (module : Nat) (fs : FunctionMapTy) (hd : keysDistinct fs) :
    (addNetworkImpl dm heap module fs).dm = dm ∨
    ((∀ e ∈ fs, e.1 ∉ keys dm.functions_ ∧ e.2.compileBackendName = Interpreter.getName) ∧
      add64 dm.usedMemoryBytes_ (weightSum fs % two64) ≤ dm.maxMemoryBytes_ ∧
      (addNetworkImpl dm heap module fs).dm =
        ⟨dm.functions_ ++ fs, dm.maxMemoryBytes_,
          add64 dm.usedMemoryBytes_ (weightSum fs % two64)⟩) := by
  rcases addNetworkImpl_fail_or_ok dm heap module fs with ⟨err, h, _⟩ | ⟨all, tr, h1, h2, h3, _, _⟩
  · left; rw [h]
  · right
    obtain ⟨hv, hall⟩ := checkFunctions_ok dm fs 0 all (by unfold two64; omega) h1
    rw [Nat.zero_add] at hall
    subst hall
    refine ⟨hv, h2, ?_⟩
    rw [h3, foldl_emplace_eq_append fs dm.functions_ hd (fun e he => (hv e he).1)]

theorem addNetworkImpl_accounted (dm : InterpreterDeviceManager) (heap : ConstantsHeap)
    (module : Nat) (fs : FunctionMapTy) (hd : keysDistinct fs) (h : accounted dm) :
    accounted (addNetworkImpl dm heap module fs).dm ∧
      (addNetworkImpl dm heap module fs).dm.maxMemoryBytes_ = dm.maxMemoryBytes_ ∧
      ((addNetworkImpl dm heap module fs).dm.usedMemoryBytes_ = dm.usedMemoryBytes_ ∨
        (addNetworkImpl dm heap module fs).dm.usedMemoryBytes_ ≤ dm.maxMemoryBytes_) := by
  rcases addNetworkImpl_dm dm heap module fs hd with h1 | ⟨hv, hle, h1⟩
  · rw [h1]; exact ⟨h, rfl, Or.inl rfl⟩
  · rw [h1]
    refine ⟨⟨keysDistinct_append _ _ h.1 hd (fun e he => (hv e he).1), ?_⟩, rfl, Or.inr hle⟩
    have h2 := h.2
    simp only [reserved, weightSum_append, add64, two64] at h2 ⊢
    omega

theorem evictNetworkImpl_accounted (dm : InterpreterDeviceManager) (heap : ConstantsHeap)
    (name : String) (h : accounted dm) :
    accounted (evictNetworkImpl dm heap name).dm ∧
      (evictNetworkImpl dm heap name).dm.maxMemoryBytes_ = dm.maxMemoryBytes_ ∧
      (reserved dm < two64 →
        (evictNetworkImpl dm heap name).dm.usedMemoryBytes_ ≤ dm.usedMemoryBytes_) := by
  cases hf : find dm.functions_ name with
  | none => simp [evictNetworkImpl, hf, h]
  | some f =>
    have hw := weightSum_erase dm.functions_ name f h.1 hf
    have h2 := h.2
    simp only [evictNetworkImpl, hf]
    refine ⟨⟨keysDistinct_erase _ _ h.1, ?_⟩, trivial, ?_⟩
    · simp only [reserved, sub64, two64] at h2 ⊢
      omega
    · intro hfit
      simp only [reserved, sub64, two64] at h2 hfit ⊢
      omega

theorem step_accounted (execute : CompiledFunction → Nat → Error)
    (o : Outcome InterpreterDeviceManager) (c : Command) (hc : c.wellFormed = true)
    (h : accounted o.dm) :
    accounted (step execute o c).dm ∧
      (step execute o c).dm.maxMemoryBytes_ = o.dm.maxMemoryBytes_ ∧
      (reserved o.dm < two64 → o.dm.usedMemoryBytes_ ≤ o.dm.maxMemoryBytes_ →
        (step execute o c).dm.usedMemoryBytes_ ≤ o.dm.maxMemoryBytes_) := by
  cases c with
  | addNetwork module fs =>
    have hd : keysDistinct fs := by simpa [Command.wellFormed] using hc
    obtain ⟨h1, h2, h3⟩ := addNetworkImpl_accounted o.dm o.heap module fs hd h
    refine ⟨h1, h2, fun _ hle => ?_⟩
    simp only [step]
    rcases h3 with h3 | h3
    · rw [h3]; exact hle
    · exact h3
  | evictNetwork name =>
    obtain ⟨h1, h2, h3⟩ := evictNetworkImpl_accounted o.dm o.heap name h
    exact ⟨h1, h2, fun hfit hle => Nat.le_trans (h3 hfit) hle⟩
  | runFunction id function context =>
    have : (step execute o (.runFunction id function context)).dm = o.dm := by
      simp only [step, runFunctionImpl]
      cases find o.dm.functions_ function <;> rfl
    rw [this]
    exact ⟨h, rfl, fun _ hle => hle⟩

theorem run_accounted (execute : CompiledFunction → Nat → Error) (cmds : List Command)
    (o : Outcome InterpreterDeviceManager) (hwf : ∀ c ∈ cmds, c.wellFormed = true)
    (h : accounted o.dm) :
    accounted (run execute o cmds).dm ∧
      (run execute o cmds).dm.maxMemoryBytes_ = o.dm.maxMemoryBytes_ := by
  induction cmds generalizing o with
  | nil => exact ⟨h, rfl⟩
  | cons c cs ih =>
    obtain ⟨h1, h2, _⟩ := step_accounted execute o c (hwf c (List.mem_cons_self _ _)) h
    obtain ⟨h3, h4⟩ := ih (step execute o c) (fun c2 hc2 => hwf c2 (List.mem_cons_of_mem _ hc2)) h1
    exact ⟨h3, by rw [← h2, ← h4]; rfl⟩

theorem run_used_le (execute : CompiledFunction → Nat → Error) (cmds : List Command)
    (o : Outcome InterpreterDeviceManager) (hwf : ∀ c ∈ cmds, c.wellFormed = true)
    (h : accounted o.dm) (hle : o.dm.usedMemoryBytes_ ≤ o.dm.maxMemoryBytes_)
    (hfit : sumsFit execute o cmds = true) :
    (run execute o cmds).dm.usedMemoryBytes_ ≤ o.dm.maxMemoryBytes_ := by
  induction cmds generalizing o with
  | nil => exact hle
  | cons c cs ih =>
    simp only [sumsFit, Bool.and_eq_true, decide_eq_true_eq] at hfit
    obtain ⟨h1, h2, h3⟩ := step_accounted execute o c (hwf c (List.mem_cons_self _ _)) h
    have h4 := ih (step execute o c) (fun c2 hc2 => hwf c2 (List.mem_cons_of_mem _ hc2)) h1
      (by rw [h2]; exact h3 hfit.1 hle) hfit.2
    rw [h2] at h4
    exact h4

theorem empty_accounted (maxMemoryBytes : Nat) : accounted (empty maxMemoryBytes) := by
  simp [accounted, empty, keysDistinct, keys, reserved, weightSum]

theorem step_trace_no_failed_assert (execute : CompiledFunction → Nat → Error)
    (o : Outcome InterpreterDeviceManager) (c : Command)
    (h : Effect.assertion false ∉ o.trace) :
    Effect.assertion false ∉ (step execute o c).trace := by
  cases c with
  | addNetwork module fs =>
    simp only [step, List.mem_append, not_or]
    refine ⟨h, ?_⟩
    rcases addNetworkImpl_fail_or_ok o.dm o.heap module fs with
      ⟨err, h1, _⟩ | ⟨all, tr, _, _, _, h2, h3⟩
    · rw [h1]; simp
    · rw [h3]
      simp only [List.mem_append, not_or]
      refine ⟨?_, by simp⟩
      intro hmem
      obtain ⟨f, _, h4⟩ := h2 _ hmem
      cases h4
  | evictNetwork name =>
    simp only [step, List.mem_append, not_or, evictNetworkImpl]
    refine ⟨h, ?_⟩
    cases find o.dm.functions_ name <;> simp
  | runFunction id function context =>
    simp only [step, List.mem_append, not_or, runFunctionImpl]
    refine ⟨h, ?_⟩
    cases find o.dm.functions_ function <;> simp

theorem run_trace_no_failed_assert (execute : CompiledFunction → Nat → Error)
    (cmds : List Command) (o : Outcome InterpreterDeviceManager)
    (h : Effect.assertion false ∉ o.trace) :
    Effect.assertion false ∉ (run execute o cmds).trace := by
  induction cmds generalizing o with
  | nil => exact h
  | cons c cs ih => exact ih (step execute o c) (step_trace_no_failed_assert execute o c h)

end InterpreterDeviceManager

end runtime

/-! ## The CPU device manager: loops of `addNetworkImpl` and the invariant -/

namespace runtime

namespace CPUDeviceManager

theorem length_erase (m : FunctionMapTy) (name : String) (hd : keysDistinct m)
    (h : name ∈ keys m) : (erase m name).length + 1 = m.length := by
  induction m with
  | nil => simp [keys] at h
  | cons e rest ih =>
    obtain ⟨k, g⟩ := e
    have hd2 : k ∉ keys rest ∧ keysDistinct rest := by
      simpa [keysDistinct, keys] using hd
    by_cases hk : k = name
    · subst hk
      have h1 := erase_of_not_mem rest k hd2.1
      have h2 : erase ((k, g) :: rest) k = erase rest k := by
        simp [erase, List.filter_cons]
      rw [h2, h1]
      simp
    · have h2 : name ∈ keys rest := by
        have : ¬ name = k := fun h3 => hk h3.symm
        simpa [keys, this] using h
      have h3 := ih hd2.2 h2
      have h4 : erase ((k, g) :: rest) name = (k, g) :: erase rest name := by
        simp [erase, List.filter_cons, hk]
      rw [h4]
      simp only [List.length_cons]
      omega

theorem foldl_add64 (fs : FunctionMapTy) (u cost : Nat) (hu : u < two64) :
    fs.foldl (fun acc _ => add64 acc cost) u = (u + cost * fs.length) % two64 := by
  induction fs generalizing u with
  | nil => simp [Nat.mod_eq_of_lt hu]
  | cons e rest ih =>
    rw [List.foldl_cons, ih (add64 u cost) (add64_lt _ _)]
    simp only [List.length_cons, Nat.mul_add, Nat.mul_one, add64, two64]
    omega

theorem cpu_checkFunctions_none (dm : CPUDeviceManager) (fs : FunctionMapTy)
    (h : checkFunctions dm fs = none) :
    ∀ e ∈ fs, e.1 ∉ keys dm.functions_ ∧ e.2.compileBackendKind = BackendKind.CPU := by
  induction fs with
  | nil => simp
  | cons e rest ih =>
    obtain ⟨k, g⟩ := e
    unfold checkFunctions at h
    by_cases h1 : count dm.functions_ k ≠ 0
    · simp [h1] at h
    · by_cases h2 : g.compileBackendKind ≠ BackendKind.CPU
      · simp [h1, h2] at h
      · rw [if_neg h1, if_neg h2] at h
        intro e he
        rcases List.mem_cons.mp he with h5 | h5
        · subst h5
          exact ⟨(count_eq_zero_iff _ _).mp (not_not.mp h1), not_not.mp h2⟩
        · exact ih h e h5

theorem cpu_checkFunctions_of_valid (dm : CPUDeviceManager) (fs : FunctionMapTy)
    (h : ∀ e ∈ fs, e.1 ∉ keys dm.functions_ ∧ e.2.compileBackendKind = BackendKind.CPU) :
    checkFunctions dm fs = none := by
  induction fs with
  | nil => simp [checkFunctions]
  | cons e rest ih =>
    obtain ⟨k, g⟩ := e
    have hk := h (k, g) (List.mem_cons_self _ _)
    have h1 : ¬ count dm.functions_ k ≠ 0 := not_not.mpr ((count_eq_zero_iff _ _).mpr hk.1)
    have h2 : ¬ g.compileBackendKind ≠ BackendKind.CPU := not_not.mpr hk.2
    unfold checkFunctions
    rw [if_neg h1, if_neg h2]
    exact ih (fun e he => h e (List.mem_cons_of_mem _ he))

/-- The error of the first loop is the one of the first function, in iteration
order, that is registered already or carries another backend kind. -/
theorem cpu_checkFunctions_some (dm : CPUDeviceManager) (fs : FunctionMapTy)
    (err : GlowErr) (h : checkFunctions dm fs = some err) :
    ∃ pre k g post, fs = pre ++ (k, g) :: post ∧
      (∀ e ∈ pre, e.1 ∉ keys dm.functions_ ∧ e.2.compileBackendKind = BackendKind.CPU) ∧
      ((k ∈ keys dm.functions_ ∧ err = errAlreadyHave k) ∨
        (k ∉ keys dm.functions_ ∧ g.compileBackendKind ≠ BackendKind.CPU ∧
          err = errNotCPUFunction k)) := by
  induction fs with
  | nil => simp [checkFunctions] at h
  | cons e rest ih =>
    obtain ⟨k, g⟩ := e
    unfold checkFunctions at h
    by_cases h1 : count dm.functions_ k ≠ 0
    · rw [if_pos h1] at h
      refine ⟨[], k, g, rest, rfl, by simp, Or.inl ⟨(count_ne_zero_iff _ _).mp h1, ?_⟩⟩
      simpa using h.symm
    · have hk : k ∉ keys dm.functions_ := (count_eq_zero_iff _ _).mp (not_not.mp h1)
      by_cases h2 : g.compileBackendKind ≠ BackendKind.CPU
      · rw [if_neg h1, if_pos h2] at h
        refine ⟨[], k, g, rest, rfl, by simp, Or.inr ⟨hk, h2, ?_⟩⟩
        simpa using h.symm
      · rw [if_neg h1, if_neg h2] at h
        obtain ⟨pre, k2, g2, post, h3, h4, h5⟩ := ih h
        refine ⟨(k, g) :: pre, k2, g2, post, by simp [h3], ?_, h5⟩
        intro e he
        rcases List.mem_cons.mp he with h6 | h6
        · subst h6; exact ⟨hk, not_not.mp h2⟩
        · exact h4 e h6

theorem cpu_addFunctions_dm (module : Nat) (fs : FunctionMapTy) (o : Outcome CPUDeviceManager) :
    (addFunctions module fs o).dm =
      { o.dm with
          functions_ := fs.foldl (fun acc e => emplace acc e.1 e.2) o.dm.functions_
          usedMemoryBytes_ :=
            fs.foldl (fun acc _ => add64 acc o.dm.functionCost_) o.dm.usedMemoryBytes_ } := by
  induction fs generalizing o with
  | nil => simp [addFunctions]
  | cons e rest ih =>
    obtain ⟨k, g⟩ := e
    simp [addFunctions, ih, addFunction]

theorem cpu_addFunctions_trace (module : Nat) (fs : FunctionMapTy)
    (o : Outcome CPUDeviceManager) :
    ∃ tr, (addFunctions module fs o).trace = o.trace ++ tr ∧
      ∀ e ∈ tr, ∃ f, (∃ k, (k, f) ∈ fs) ∧ e = Effect.collectConstants f module := by
  induction fs generalizing o with
  | nil => exact ⟨[], by simp [addFunctions], by simp⟩
  | cons e rest ih =>
    obtain ⟨k, g⟩ := e
    obtain ⟨tr, h1, h2⟩ := ih (addFunction module o k g)
    by_cases hu : g.addr ∉ o.heap
    · refine ⟨Effect.collectConstants g module :: tr, ?_, ?_⟩
      · rw [addFunctions, h1]; simp [addFunction, hu]
      · intro e he
        rcases List.mem_cons.mp he with h3 | h3
        · exact ⟨g, ⟨k, List.mem_cons_self _ _⟩, h3⟩
        · obtain ⟨f, ⟨k2, h4⟩, h5⟩ := h2 e h3
          exact ⟨f, ⟨k2, List.mem_cons_of_mem _ h4⟩, h5⟩
    · refine ⟨tr, ?_, ?_⟩
      · rw [addFunctions, h1]; simp [addFunction, hu]
      · intro e he
        obtain ⟨f, ⟨k2, h4⟩, h5⟩ := h2 e he
        exact ⟨f, ⟨k2, List.mem_cons_of_mem _ h4⟩, h5⟩

/-- The two ways `addNetworkImpl` ends: one error callback and nothing else, or
the second loop, the `assert` and the success callback. -/
theorem cpu_addNetworkImpl_fail_or_ok (dm : CPUDeviceManager) (heap : ConstantsHeap)
    (module : Nat) (fs : FunctionMapTy) :
    (∃ err, addNetworkImpl dm heap module fs = ⟨dm, heap, [Effect.readyCB module (some err)]⟩ ∧
      (checkFunctions dm fs = some err ∨
        (checkFunctions dm fs = none ∧
          add64 dm.usedMemoryBytes_ dm.functionCost_ > dm.maxMemoryBytes_ ∧
          err = errNotEnoughMemory))) ∨
    (∃ tr, checkFunctions dm fs = none ∧
      add64 dm.usedMemoryBytes_ dm.functionCost_ ≤ dm.maxMemoryBytes_ ∧
      (addNetworkImpl dm heap module fs).dm =
        ⟨fs.foldl (fun acc e => emplace acc e.1 e.2) dm.functions_, dm.maxMemoryBytes_,
          fs.foldl (fun acc _ => add64 acc dm.functionCost_) dm.usedMemoryBytes_,
          dm.functionCost_⟩ ∧
      (∀ e ∈ tr, ∃ f, (∃ k, (k, f) ∈ fs) ∧ e = Effect.collectConstants f module) ∧
      (addNetworkImpl dm heap module fs).trace =
        tr ++ [Effect.assertion (decide
                 (fs.foldl (fun acc _ => add64 acc dm.functionCost_) dm.usedMemoryBytes_
                   ≤ dm.maxMemoryBytes_)),
               Effect.readyCB module Error.success]) := by
  cases hc : checkFunctions dm fs with
  | some err =>
    left
    exact ⟨err, by simp [addNetworkImpl, hc], Or.inl rfl⟩
  | none =>
    by_cases hgt : add64 dm.usedMemoryBytes_ dm.functionCost_ > dm.maxMemoryBytes_
    · left
      exact ⟨errNotEnoughMemory, by simp [addNetworkImpl, hc, hgt], Or.inr ⟨rfl, hgt, rfl⟩⟩
    · right
      obtain ⟨tr, h1, h2⟩ := cpu_addFunctions_trace module fs ⟨dm, heap, []⟩
      have hle : add64 dm.usedMemoryBytes_ dm.functionCost_ ≤ dm.maxMemoryBytes_ :=
        Nat.le_of_not_lt hgt
      refine ⟨tr, rfl, hle, ?_, h2, ?_⟩
      · simp [addNetworkImpl, hc, hgt, cpu_addFunctions_dm]
      · simp only [List.nil_append] at h1
        simp [addNetworkImpl, hc, hgt, cpu_addFunctions_dm, h1]

/-- The state after `addNetworkImpl` on a map without repeated names: unchanged
on an error, extended by the whole map otherwise. -/
theorem cpu_addNetworkImpl_dm (dm : CPUDeviceManager) (heap : ConstantsHeap)
    (module : Nat) (fs : FunctionMapTy) (hd : keysDistinct fs)
    (hu : dm.usedMemoryBytes_ < two64) :
    (addNetworkImpl dm heap module fs).dm = dm ∨
    ((∀ e ∈ fs, e.1 ∉ keys dm.functions_ ∧ e.2.compileBackendKind = BackendKind.CPU) ∧
      add64 dm.usedMemoryBytes_ dm.functionCost_ ≤ dm.maxMemoryBytes_ ∧
      (addNetworkImpl dm heap module fs).dm =
        ⟨dm.functions_ ++ fs, dm.maxMemoryBytes_,
          (dm.usedMemoryBytes_ + dm.functionCost_ * fs.length) % two64, dm.functionCost_⟩) := by
  rcases cpu_addNetworkImpl_fail_or_ok dm heap module fs with ⟨err, h, _⟩ | ⟨tr, h1, h2, h3, _, _⟩
  · left; rw [h]
  · right
    have hv := cpu_checkFunctions_none dm fs h1
    refine ⟨hv, h2, ?_⟩
    rw [h3, foldl_emplace_eq_append fs dm.functions_ hd (fun e he => (hv e he).1),
      foldl_add64 fs _ _ hu]

theorem accounted_used_lt (dm : CPUDeviceManager) (h : accounted dm) :
    dm.usedMemoryBytes_ < two64 := by
  rw [h.2]
  exact Nat.mod_lt _ (by unfold two64; omega)

theorem cpu_addNetworkImpl_accounted (dm : CPUDeviceManager) (heap : ConstantsHeap)
    (module : Nat) (fs : FunctionMapTy) (hd : keysDistinct fs) (h : accounted dm) :
    accounted (addNetworkImpl dm heap module fs).dm ∧
      (addNetworkImpl dm heap module fs).dm.maxMemoryBytes_ = dm.maxMemoryBytes_ ∧
      (addNetworkImpl dm heap module fs).dm.functionCost_ = dm.functionCost_ := by
  rcases cpu_addNetworkImpl_dm dm heap module fs hd (accounted_used_lt dm h) with
    h1 | ⟨hv, _, h1⟩
  · rw [h1]; exact ⟨h, rfl, rfl⟩
  · rw [h1]
    refine ⟨⟨keysDistinct_append _ _ h.1 hd (fun e he => (hv e he).1), ?_⟩, rfl, rfl⟩
    have h2 := h.2
    simp only [reserved, List.length_append, Nat.mul_add, two64] at h2 ⊢
    omega

theorem cpu_evictNetworkImpl_accounted (dm : CPUDeviceManager) (heap : ConstantsHeap)
    (name : String) (evictCB : Bool) (h : accounted dm) :
    accounted (evictNetworkImpl dm heap name evictCB).dm ∧
      (evictNetworkImpl dm heap name evictCB).dm.maxMemoryBytes_ = dm.maxMemoryBytes_ ∧
      (evictNetworkImpl dm heap name evictCB).dm.functionCost_ = dm.functionCost_ := by
  refine ⟨⟨keysDistinct_erase _ _ h.1, ?_⟩, rfl, rfl⟩
  have h2 := h.2
  by_cases hc : count dm.functions_ name ≠ 0
  · have hl := length_erase dm.functions_ name h.1 ((count_ne_zero_iff _ _).mp hc)
    simp only [evictNetworkImpl, hc, if_true, reserved, ne_eq, not_false_eq_true] at h2 ⊢
    rw [← hl, Nat.mul_add, Nat.mul_one] at h2
    simp only [sub64, two64] at h2 ⊢
    omega
  · have he := erase_of_not_mem dm.functions_ name ((count_eq_zero_iff _ _).mp (not_not.mp hc))
    simp only [evictNetworkImpl, hc, if_false, reserved, he] at h2 ⊢
    exact h2

theorem cpu_step_accounted (o : Outcome CPUDeviceManager) (c : Command)
    (hc : c.wellFormed = true) (h : accounted o.dm) :
    accounted (step o c).dm ∧
      (step o c).dm.maxMemoryBytes_ = o.dm.maxMemoryBytes_ ∧
      (step o c).dm.functionCost_ = o.dm.functionCost_ := by
  cases c with
  | addNetwork module fs =>
    have hd : keysDistinct fs := by simpa [Command.wellFormed] using hc
    exact cpu_addNetworkImpl_accounted o.dm o.heap module fs hd h
  | evictNetwork name evictCB =>
    exact cpu_evictNetworkImpl_accounted o.dm o.heap name evictCB h
  | runFunction id function context =>
    have : (step o (.runFunction id function context)).dm = o.dm := by
      simp only [step, runFunctionImpl]
      cases find o.dm.functions_ function <;> rfl
    rw [this]
    exact ⟨h, rfl, rfl⟩

theorem cpu_run_accounted (cmds : List Command) (o : Outcome CPUDeviceManager)
    (hwf : ∀ c ∈ cmds, c.wellFormed = true) (h : accounted o.dm) :
    accounted (run o cmds).dm ∧
      (run o cmds).dm.maxMemoryBytes_ = o.dm.maxMemoryBytes_ ∧
      (run o cmds).dm.functionCost_ = o.dm.functionCost_ := by
  induction cmds generalizing o with
  | nil => exact ⟨h, rfl, rfl⟩
  | cons c cs ih =>
    obtain ⟨h1, h2, h3⟩ := cpu_step_accounted o c (hwf c (List.mem_cons_self _ _)) h
    obtain ⟨h4, h5, h6⟩ := ih (step o c) (fun c2 hc2 => hwf c2 (List.mem_cons_of_mem _ hc2)) h1
    exact ⟨h4, by rw [← h2, ← h5]; rfl, by rw [← h3, ← h6]; rfl⟩

theorem cpu_empty_accounted (maxMemoryBytes functionCost : Nat) :
    accounted (empty maxMemoryBytes functionCost) := by
  simp [accounted, empty, keysDistinct, keys, reserved]

end CPUDeviceManager

end runtime

/-! ## Claims -/

open runtime

/-- C1 (defect of the code): on the CPU manager with capacity 500, cost 300 and
nothing used, adding the two CPU functions `a` and `b` tests only
`0 + 300 > 500`, so both are registered, `usedMemoryBytes_` becomes 600, the
`assert` of line 85 is false and the ready callback receives success, where the
claim has `OUT_OF_DEVICE_MEMORY` and no change. -/
theorem C1_cpu_two_functions_exceed_capacity :
    (CPUDeviceManager.addNetworkImpl (CPUDeviceManager.empty 500 300) [] 0
        [("a", ⟨1, BackendKind.CPU, "CPU", 0⟩), ("b", ⟨2, BackendKind.CPU, "CPU", 0⟩)]).dm
      = ⟨[("a", ⟨1, BackendKind.CPU, "CPU", 0⟩), ("b", ⟨2, BackendKind.CPU, "CPU", 0⟩)],
          500, 600, 300⟩ ∧
    (CPUDeviceManager.addNetworkImpl (CPUDeviceManager.empty 500 300) [] 0
        [("a", ⟨1, BackendKind.CPU, "CPU", 0⟩), ("b", ⟨2, BackendKind.CPU, "CPU", 0⟩)]).trace
      = [Effect.collectConstants ⟨1, BackendKind.CPU, "CPU", 0⟩ 0,
         Effect.collectConstants ⟨2, BackendKind.CPU, "CPU", 0⟩ 0,
         Effect.assertion false,
         Effect.readyCB 0 Error.success] := by
  decide

/-- C2: on the Interpreter manager, after any sequence of well-formed commands
from the empty manager of capacity below `2^64`, provided the weight sums of the
states passed through fit in 64 bits: `usedMemoryBytes_ <= maxMemoryBytes_`, no
`assert` was false, and `getAvailableMemory()` is the exact difference
`maxMemoryBytes_ - usedMemoryBytes_`, at most the capacity. -/
theorem C2_interpreter_used_le_max (execute : CompiledFunction → Nat → Error)
    (maxMemoryBytes : Nat) (cmds : List InterpreterDeviceManager.Command)
    (hmax : maxMemoryBytes < two64)
    (hwf : ∀ c ∈ cmds, c.wellFormed = true)
    (hfit : InterpreterDeviceManager.sumsFit execute
      ⟨InterpreterDeviceManager.empty maxMemoryBytes, [], []⟩ cmds = true) :
    (InterpreterDeviceManager.reached execute maxMemoryBytes cmds).maxMemoryBytes_
        = maxMemoryBytes ∧
    (InterpreterDeviceManager.reached execute maxMemoryBytes cmds).usedMemoryBytes_
        ≤ (InterpreterDeviceManager.reached execute maxMemoryBytes cmds).maxMemoryBytes_ ∧
    Effect.assertion false ∉
      (InterpreterDeviceManager.run execute
        ⟨InterpreterDeviceManager.empty maxMemoryBytes, [], []⟩ cmds).trace ∧
    (InterpreterDeviceManager.reached execute maxMemoryBytes cmds).getAvailableMemory
        + (InterpreterDeviceManager.reached execute maxMemoryBytes cmds).usedMemoryBytes_
        = (InterpreterDeviceManager.reached execute maxMemoryBytes cmds).getMaximumMemory ∧
    (InterpreterDeviceManager.reached execute maxMemoryBytes cmds).getAvailableMemory
        ≤ (InterpreterDeviceManager.reached execute maxMemoryBytes cmds).getMaximumMemory := by
  have hacc := InterpreterDeviceManager.empty_accounted maxMemoryBytes
  have h1 := InterpreterDeviceManager.run_accounted execute cmds
    ⟨InterpreterDeviceManager.empty maxMemoryBytes, [], []⟩ hwf hacc
  have h2 := InterpreterDeviceManager.run_used_le execute cmds
    ⟨InterpreterDeviceManager.empty maxMemoryBytes, [], []⟩ hwf hacc
    (by simp [InterpreterDeviceManager.empty]) hfit
  have h3 := InterpreterDeviceManager.run_trace_no_failed_assert execute cmds
    ⟨InterpreterDeviceManager.empty maxMemoryBytes, [], []⟩ (by simp)
  have hm : (InterpreterDeviceManager.reached execute maxMemoryBytes cmds).maxMemoryBytes_
      = maxMemoryBytes := h1.2
  have hu : (InterpreterDeviceManager.reached execute maxMemoryBytes cmds).usedMemoryBytes_
      ≤ maxMemoryBytes := h2
  refine ⟨hm, by rw [hm]; exact hu, h3, ?_, ?_⟩
  · simp only [InterpreterDeviceManager.getAvailableMemory,
      InterpreterDeviceManager.getMaximumMemory, hm, sub64, two64] at hmax hu ⊢
    omega
  · simp only [InterpreterDeviceManager.getAvailableMemory,
      InterpreterDeviceManager.getMaximumMemory, hm, sub64, two64] at hmax hu ⊢
    omega

/-- Witness of C2: two functions added, one run, one evicted, capacity 1000. -/
theorem C2_interpreter_used_le_max_witness :
    (InterpreterDeviceManager.reached InterpreterDeviceManager.executeOk 1000
        [.addNetwork 0 [("f", ⟨1, BackendKind.Interpreter, "Interpreter", 400⟩),
                        ("g", ⟨2, BackendKind.Interpreter, "Interpreter", 500⟩)],
         .runFunction 1 "f" 0,
         .evictNetwork "f"]).usedMemoryBytes_ = 500 ∧
    (InterpreterDeviceManager.reached InterpreterDeviceManager.executeOk 1000
        [.addNetwork 0 [("f", ⟨1, BackendKind.Interpreter, "Interpreter", 400⟩),
                        ("g", ⟨2, BackendKind.Interpreter, "Interpreter", 500⟩)],
         .runFunction 1 "f" 0,
         .evictNetwork "f"]).usedMemoryBytes_
      ≤ (InterpreterDeviceManager.reached InterpreterDeviceManager.executeOk 1000
        [.addNetwork 0 [("f", ⟨1, BackendKind.Interpreter, "Interpreter", 400⟩),
                        ("g", ⟨2, BackendKind.Interpreter, "Interpreter", 500⟩)],
         .runFunction 1 "f" 0,
         .evictNetwork "f"]).maxMemoryBytes_ :=
  ⟨by decide,
   (C2_interpreter_used_le_max InterpreterDeviceManager.executeOk 1000
      [.addNetwork 0 [("f", ⟨1, BackendKind.Interpreter, "Interpreter", 400⟩),
                      ("g", ⟨2, BackendKind.Interpreter, "Interpreter", 500⟩)],
       .runFunction 1 "f" 0,
       .evictNetwork "f"] (by decide) (by decide) (by decide)).2.1⟩

/-- C3, as stated, fails: on the Interpreter manager that holds `f` (reached from
the empty manager of capacity 1000 by adding `f` of weight 100), adding the map
with `f` again delivers an error to the ready callback, and yet the function of
the map is registered under `f` after the call. -/
theorem C3_counterexample_function_of_failed_map_registered :
    (InterpreterDeviceManager.addNetworkImpl
        (InterpreterDeviceManager.reached InterpreterDeviceManager.executeOk 1000
          [.addNetwork 0 [("f", ⟨1, BackendKind.Interpreter, "Interpreter", 100⟩)]])
        [1] 0 [("f", ⟨1, BackendKind.Interpreter, "Interpreter", 100⟩)]).trace
      = [Effect.readyCB 0 (some (InterpreterDeviceManager.errAlreadyHave "f"))] ∧
    find (InterpreterDeviceManager.addNetworkImpl
        (InterpreterDeviceManager.reached InterpreterDeviceManager.executeOk 1000
          [.addNetwork 0 [("f", ⟨1, BackendKind.Interpreter, "Interpreter", 100⟩)]])
        [1] 0 [("f", ⟨1, BackendKind.Interpreter, "Interpreter", 100⟩)]).dm.functions_ "f"
      = some ⟨1, BackendKind.Interpreter, "Interpreter", 100⟩ := by
  decide

/-- C3, amended: on both managers, for every state, heap, module and function
map, if `addNetworkImpl` delivers an error to the ready callback then the
manager (registry, capacity, used) and the heap of constants are exactly what
they were before the call, and that callback is the only effect, so that
`collectConstants` was called on no function and a name is registered after the
call exactly when it was before. -/
theorem C3_addNetwork_error_changes_nothing (heap : ConstantsHeap) (module : Nat)
    (fs : FunctionMapTy) (err : GlowErr) :
    (∀ dm : CPUDeviceManager,
      Effect.readyCB module (some err) ∈ (CPUDeviceManager.addNetworkImpl dm heap module fs).trace →
      CPUDeviceManager.addNetworkImpl dm heap module fs
        = ⟨dm, heap, [Effect.readyCB module (some err)]⟩) ∧
    (∀ dm : InterpreterDeviceManager,
      Effect.readyCB module (some err)
        ∈ (InterpreterDeviceManager.addNetworkImpl dm heap module fs).trace →
      InterpreterDeviceManager.addNetworkImpl dm heap module fs
        = ⟨dm, heap, [Effect.readyCB module (some err)]⟩) := by
  constructor
  · intro dm hmem
    rcases CPUDeviceManager.cpu_addNetworkImpl_fail_or_ok dm heap module fs with
      ⟨err2, h1, _⟩ | ⟨tr, _, _, _, h2, h3⟩
    · rw [h1] at hmem ⊢
      have : err = err2 := by simpa using hmem
      rw [this]
    · exfalso
      rw [h3] at hmem
      rcases List.mem_append.mp hmem with h4 | h4
      · obtain ⟨f, _, h5⟩ := h2 _ h4
        cases h5
      · simp [Error.success] at h4
  · intro dm hmem
    rcases InterpreterDeviceManager.addNetworkImpl_fail_or_ok dm heap module fs with
      ⟨err2, h1, _⟩ | ⟨all, tr, _, _, _, h2, h3⟩
    · rw [h1] at hmem ⊢
      have : err = err2 := by simpa using hmem
      rw [this]
    · exfalso
      rw [h3] at hmem
      rcases List.mem_append.mp hmem with h4 | h4
      · obtain ⟨f, _, h5⟩ := h2 _ h4
        cases h5
      · simp [Error.success] at h4

/-- Witness of C3: a wrong-backend failure on the CPU manager and an
out-of-memory failure on the Interpreter manager. -/
theorem C3_addNetwork_error_changes_nothing_witness :
    CPUDeviceManager.addNetworkImpl (CPUDeviceManager.empty 1000 1) [] 0
        [("f", ⟨1, BackendKind.Interpreter, "Interpreter", 100⟩)]
      = ⟨CPUDeviceManager.empty 1000 1, [],
          [Effect.readyCB 0 (some (CPUDeviceManager.errNotCPUFunction "f"))]⟩ ∧
    InterpreterDeviceManager.addNetworkImpl (InterpreterDeviceManager.empty 500) [] 0
        [("a", ⟨1, BackendKind.Interpreter, "Interpreter", 300⟩),
         ("b", ⟨2, BackendKind.Interpreter, "Interpreter", 300⟩)]
      = ⟨InterpreterDeviceManager.empty 500, [],
          [Effect.readyCB 0 (some errNotEnoughMemory)]⟩ :=
  ⟨(C3_addNetwork_error_changes_nothing [] 0
      [("f", ⟨1, BackendKind.Interpreter, "Interpreter", 100⟩)]
      (CPUDeviceManager.errNotCPUFunction "f")).1 (CPUDeviceManager.empty 1000 1) (by decide),
   (C3_addNetwork_error_changes_nothing [] 0
      [("a", ⟨1, BackendKind.Interpreter, "Interpreter", 300⟩),
       ("b", ⟨2, BackendKind.Interpreter, "Interpreter", 300⟩)]
      errNotEnoughMemory).2 (InterpreterDeviceManager.empty 500) (by decide)⟩

theorem cpu_checkFunctions_duplicate (dm : CPUDeviceManager) (fs : FunctionMapTy)
    (hk : ∀ e ∈ fs, e.2.compileBackendKind = BackendKind.CPU)
    (hdup : ∃ e ∈ fs, e.1 ∈ keys dm.functions_) :
    ∃ name, name ∈ keys fs ∧ name ∈ keys dm.functions_ ∧
      CPUDeviceManager.checkFunctions dm fs = some (CPUDeviceManager.errAlreadyHave name) := by
  induction fs with
  | nil => simp at hdup
  | cons e rest ih =>
    obtain ⟨k, g⟩ := e
    by_cases h1 : k ∈ keys dm.functions_
    · refine ⟨k, by simp [keys], h1, ?_⟩
      simp [CPUDeviceManager.checkFunctions, (count_ne_zero_iff _ _).mpr h1]
    · have hrest : ∃ e ∈ rest, e.1 ∈ keys dm.functions_ := by
        obtain ⟨e, he, h2⟩ := hdup
        rcases List.mem_cons.mp he with h3 | h3
        · subst h3; exact absurd h2 h1
        · exact ⟨e, h3, h2⟩
      obtain ⟨name, h4, h5, h6⟩ := ih (fun e he => hk e (List.mem_cons_of_mem _ he)) hrest
      refine ⟨name, by simp only [keys, List.map_cons, List.mem_cons]; exact Or.inr h4, h5, ?_⟩
      have h7 : g.compileBackendKind = BackendKind.CPU := hk (k, g) (List.mem_cons_self _ _)
      simp [CPUDeviceManager.checkFunctions, (count_eq_zero_iff _ _).mpr h1, h7, h6]

theorem interpreter_checkFunctions_duplicate (dm : InterpreterDeviceManager)
    (fs : FunctionMapTy) (acc : Nat)
    (hk : ∀ e ∈ fs, e.2.compileBackendName = Interpreter.getName)
    (hdup : ∃ e ∈ fs, e.1 ∈ keys dm.functions_) :
    ∃ name, name ∈ keys fs ∧ name ∈ keys dm.functions_ ∧
      InterpreterDeviceManager.checkFunctions dm fs acc
        = .error (InterpreterDeviceManager.errAlreadyHave name) := by
  induction fs generalizing acc with
  | nil => simp at hdup
  | cons e rest ih =>
    obtain ⟨k, g⟩ := e
    by_cases h1 : k ∈ keys dm.functions_
    · refine ⟨k, by simp [keys], h1, ?_⟩
      simp [InterpreterDeviceManager.checkFunctions, (count_ne_zero_iff _ _).mpr h1]
    · have hrest : ∃ e ∈ rest, e.1 ∈ keys dm.functions_ := by
        obtain ⟨e, he, h2⟩ := hdup
        rcases List.mem_cons.mp he with h3 | h3
        · subst h3; exact absurd h2 h1
        · exact ⟨e, h3, h2⟩
      obtain ⟨name, h4, h5, h6⟩ :=
        ih (add64 acc g.constantWeightSize) (fun e he => hk e (List.mem_cons_of_mem _ he)) hrest
      refine ⟨name, by simp only [keys, List.map_cons, List.mem_cons]; exact Or.inr h4, h5, ?_⟩
      have h7 : g.compileBackendName = Interpreter.getName := hk (k, g) (List.mem_cons_self _ _)
      simp [InterpreterDeviceManager.checkFunctions, (count_eq_zero_iff _ _).mpr h1, h7, h6]

/-- The manager after a successful `addNetworkImpl` of a one-function map. -/
theorem cpu_addNetworkImpl_single (dm : CPUDeviceManager) (heap : ConstantsHeap) (module : Nat)
    (name : String) (f : CompiledFunction)
    (h : Effect.readyCB module Error.success
      ∈ (CPUDeviceManager.addNetworkImpl dm heap module [(name, f)]).trace) :
    name ∉ keys dm.functions_ ∧
    (CPUDeviceManager.addNetworkImpl dm heap module [(name, f)]).dm
      = ⟨dm.functions_ ++ [(name, f)], dm.maxMemoryBytes_,
          add64 dm.usedMemoryBytes_ dm.functionCost_, dm.functionCost_⟩ := by
  rcases CPUDeviceManager.cpu_addNetworkImpl_fail_or_ok dm heap module [(name, f)] with
    ⟨err, h1, _⟩ | ⟨tr, h1, _, h3, _, _⟩
  · rw [h1] at h
    simp [Error.success] at h
  · have hv := CPUDeviceManager.cpu_checkFunctions_none dm _ h1 (name, f) (List.mem_singleton.mpr rfl)
    refine ⟨hv.1, ?_⟩
    rw [h3]
    simp [emplace, (count_eq_zero_iff _ _).mpr hv.1]

/-- The manager after a successful `addNetworkImpl` of a one-function map. -/
theorem interpreter_addNetworkImpl_single (dm : InterpreterDeviceManager) (heap : ConstantsHeap)
    (module : Nat) (name : String) (f : CompiledFunction)
    (h : Effect.readyCB module Error.success
      ∈ (InterpreterDeviceManager.addNetworkImpl dm heap module [(name, f)]).trace) :
    name ∉ keys dm.functions_ ∧
    (InterpreterDeviceManager.addNetworkImpl dm heap module [(name, f)]).dm
      = ⟨dm.functions_ ++ [(name, f)], dm.maxMemoryBytes_,
          add64 dm.usedMemoryBytes_ (add64 0 f.constantWeightSize)⟩ := by
  rcases InterpreterDeviceManager.addNetworkImpl_fail_or_ok dm heap module [(name, f)] with
    ⟨err, h1, _⟩ | ⟨all, tr, h1, _, h3, _, _⟩
  · rw [h1] at h
    simp [Error.success] at h
  · have hv := (InterpreterDeviceManager.checkFunctions_ok dm _ 0 all
      (by unfold two64; omega) h1).1 (name, f) (List.mem_singleton.mpr rfl)
    refine ⟨hv.1, ?_⟩
    have hall : all = add64 0 f.constantWeightSize := by
      have h4 := h1
      have hv1 : count dm.functions_ name = 0 := (count_eq_zero_iff _ _).mpr hv.1
      have hv2 : f.compileBackendName = Interpreter.getName := hv.2
      simp only [InterpreterDeviceManager.checkFunctions, hv1, hv2, ne_eq,
        not_true_eq_false, if_false, Except.ok.injEq] at h4
      exact h4.symm
    rw [h3, hall]
    simp [emplace, (count_eq_zero_iff _ _).mpr hv.1]

theorem cpu_addNetworkImpl_succeeds (dm : CPUDeviceManager) (heap : ConstantsHeap)
    (module : Nat) (fs : FunctionMapTy)
    (hv : ∀ e ∈ fs, e.1 ∉ keys dm.functions_ ∧ e.2.compileBackendKind = BackendKind.CPU)
    (hle : add64 dm.usedMemoryBytes_ dm.functionCost_ ≤ dm.maxMemoryBytes_) :
    Effect.readyCB module Error.success
      ∈ (CPUDeviceManager.addNetworkImpl dm heap module fs).trace := by
  have hc := CPUDeviceManager.cpu_checkFunctions_of_valid dm fs hv
  rcases CPUDeviceManager.cpu_addNetworkImpl_fail_or_ok dm heap module fs with
    ⟨err, _, h2⟩ | ⟨tr, _, _, _, _, h3⟩
  · rcases h2 with h2 | ⟨_, h2, _⟩
    · rw [hc] at h2; cases h2
    · exact absurd hle (Nat.not_le_of_gt h2)
  · rw [h3]; simp

theorem interpreter_addNetworkImpl_succeeds (dm : InterpreterDeviceManager)
    (heap : ConstantsHeap) (module : Nat) (fs : FunctionMapTy)
    (hv : ∀ e ∈ fs, e.1 ∉ keys dm.functions_ ∧ e.2.compileBackendName = Interpreter.getName)
    (hle : add64 dm.usedMemoryBytes_ (InterpreterDeviceManager.weightSum fs % two64)
      ≤ dm.maxMemoryBytes_) :
    Effect.readyCB module Error.success
      ∈ (InterpreterDeviceManager.addNetworkImpl dm heap module fs).trace := by
  have hc := InterpreterDeviceManager.checkFunctions_of_valid dm fs 0
    (by unfold two64; omega) hv
  rw [Nat.zero_add] at hc
  rcases InterpreterDeviceManager.addNetworkImpl_fail_or_ok dm heap module fs with
    ⟨err, _, h2⟩ | ⟨all, tr, _, _, _, _, h3⟩
  · rcases h2 with h2 | ⟨all, h2, h3, _⟩
    · rw [hc] at h2; cases h2
    · rw [hc] at h2
      cases h2
      exact absurd hle (Nat.not_le_of_gt h3)
  · rw [h3]; simp

/-- Adding a one-function map again after it was added: the duplicate-name error
and no change. -/
theorem cpu_add_twice (dm : CPUDeviceManager) (heap heap2 : ConstantsHeap) (module : Nat)
    (name : String) (f : CompiledFunction)
    (hs : Effect.readyCB module Error.success
      ∈ (CPUDeviceManager.addNetworkImpl dm heap module [(name, f)]).trace) :
    CPUDeviceManager.addNetworkImpl
        (CPUDeviceManager.addNetworkImpl dm heap module [(name, f)]).dm heap2 module [(name, f)]
      = ⟨(CPUDeviceManager.addNetworkImpl dm heap module [(name, f)]).dm, heap2,
          [Effect.readyCB module (some (CPUDeviceManager.errAlreadyHave name))]⟩ ∧
    (CPUDeviceManager.addNetworkImpl dm heap module [(name, f)]).dm.usedMemoryBytes_
      = add64 dm.usedMemoryBytes_ dm.functionCost_ := by
  obtain ⟨_, h2⟩ := cpu_addNetworkImpl_single dm heap module name f hs
  rw [h2]
  refine ⟨?_, rfl⟩
  have hc : count (dm.functions_ ++ [(name, f)]) name ≠ 0 :=
    (count_ne_zero_iff _ _).mpr ((mem_keys_append _ _ _).mpr (Or.inr (by simp [keys])))
  simp [CPUDeviceManager.addNetworkImpl, CPUDeviceManager.checkFunctions, hc]

/-- Adding a one-function map again after it was added: the duplicate-name error
and no change. -/
theorem interpreter_add_twice (dm : InterpreterDeviceManager) (heap heap2 : ConstantsHeap)
    (module : Nat) (name : String) (f : CompiledFunction)
    (hs : Effect.readyCB module Error.success
      ∈ (InterpreterDeviceManager.addNetworkImpl dm heap module [(name, f)]).trace) :
    InterpreterDeviceManager.addNetworkImpl
        (InterpreterDeviceManager.addNetworkImpl dm heap module [(name, f)]).dm heap2 module
        [(name, f)]
      = ⟨(InterpreterDeviceManager.addNetworkImpl dm heap module [(name, f)]).dm, heap2,
          [Effect.readyCB module (some (InterpreterDeviceManager.errAlreadyHave name))]⟩ ∧
    (InterpreterDeviceManager.addNetworkImpl dm heap module [(name, f)]).dm.usedMemoryBytes_
      = add64 dm.usedMemoryBytes_ (add64 0 f.constantWeightSize) := by
  obtain ⟨_, h2⟩ := interpreter_addNetworkImpl_single dm heap module name f hs
  rw [h2]
  refine ⟨?_, rfl⟩
  have hc : count (dm.functions_ ++ [(name, f)]) name ≠ 0 :=
    (count_ne_zero_iff _ _).mpr ((mem_keys_append _ _ _).mpr (Or.inr (by simp [keys])))
  simp [InterpreterDeviceManager.addNetworkImpl, InterpreterDeviceManager.checkFunctions, hc]

/-- C4: on both managers, when every function of the map carries the manager's
backend kind and at least one name of the map is registered, `addNetworkImpl`
does nothing but deliver the already-have-a-function error for a registered
name of the map, whatever the memory in use; and when adding a one-function map
succeeds, adding it again delivers that error for its name and leaves
`usedMemoryBytes_` at the value after the first call, one reservation above the
value before it; on the empty manager, a one-function map of the right kind whose
reservation is within the capacity is added with success, and after the second
call `usedMemoryBytes_` is that one reservation. -/
theorem C4_duplicate_name_rejected (heap : ConstantsHeap) (module : Nat) :
    (∀ (dm : CPUDeviceManager) (fs : FunctionMapTy),
      (∀ e ∈ fs, e.2.compileBackendKind = BackendKind.CPU) →
      (∃ e ∈ fs, e.1 ∈ keys dm.functions_) →
      ∃ name, name ∈ keys fs ∧ name ∈ keys dm.functions_ ∧
        CPUDeviceManager.addNetworkImpl dm heap module fs
          = ⟨dm, heap, [Effect.readyCB module (some (CPUDeviceManager.errAlreadyHave name))]⟩) ∧
    (∀ (dm : InterpreterDeviceManager) (fs : FunctionMapTy),
      (∀ e ∈ fs, e.2.compileBackendName = Interpreter.getName) →
      (∃ e ∈ fs, e.1 ∈ keys dm.functions_) →
      ∃ name, name ∈ keys fs ∧ name ∈ keys dm.functions_ ∧
        InterpreterDeviceManager.addNetworkImpl dm heap module fs
          = ⟨dm, heap,
              [Effect.readyCB module (some (InterpreterDeviceManager.errAlreadyHave name))]⟩) ∧
    (∀ (dm : CPUDeviceManager) (heap2 : ConstantsHeap) (name : String) (f : CompiledFunction),
      Effect.readyCB module Error.success
        ∈ (CPUDeviceManager.addNetworkImpl dm heap module [(name, f)]).trace →
      CPUDeviceManager.addNetworkImpl
          (CPUDeviceManager.addNetworkImpl dm heap module [(name, f)]).dm heap2 module [(name, f)]
        = ⟨(CPUDeviceManager.addNetworkImpl dm heap module [(name, f)]).dm, heap2,
            [Effect.readyCB module (some (CPUDeviceManager.errAlreadyHave name))]⟩ ∧
      (CPUDeviceManager.addNetworkImpl dm heap module [(name, f)]).dm.usedMemoryBytes_
        = add64 dm.usedMemoryBytes_ dm.functionCost_) ∧
    (∀ (dm : InterpreterDeviceManager) (heap2 : ConstantsHeap) (name : String)
      (f : CompiledFunction),
      Effect.readyCB module Error.success
        ∈ (InterpreterDeviceManager.addNetworkImpl dm heap module [(name, f)]).trace →
      InterpreterDeviceManager.addNetworkImpl
          (InterpreterDeviceManager.addNetworkImpl dm heap module [(name, f)]).dm heap2 module
          [(name, f)]
        = ⟨(InterpreterDeviceManager.addNetworkImpl dm heap module [(name, f)]).dm, heap2,
            [Effect.readyCB module (some (InterpreterDeviceManager.errAlreadyHave name))]⟩ ∧
      (InterpreterDeviceManager.addNetworkImpl dm heap module [(name, f)]).dm.usedMemoryBytes_
        = add64 dm.usedMemoryBytes_ (add64 0 f.constantWeightSize)) ∧
    (∀ (maxMemoryBytes functionCost : Nat) (heap2 : ConstantsHeap) (name : String)
      (f : CompiledFunction),
      f.compileBackendKind = BackendKind.CPU → functionCost ≤ maxMemoryBytes →
      maxMemoryBytes < two64 →
      Effect.readyCB module Error.success
        ∈ (CPUDeviceManager.addNetworkImpl (CPUDeviceManager.empty maxMemoryBytes functionCost)
            heap module [(name, f)]).trace ∧
      (CPUDeviceManager.addNetworkImpl
          (CPUDeviceManager.addNetworkImpl (CPUDeviceManager.empty maxMemoryBytes functionCost)
            heap module [(name, f)]).dm heap2 module [(name, f)]).dm.usedMemoryBytes_
        = functionCost) ∧
    (∀ (maxMemoryBytes : Nat) (heap2 : ConstantsHeap) (name : String) (f : CompiledFunction),
      f.compileBackendName = Interpreter.getName → f.constantWeightSize ≤ maxMemoryBytes →
      maxMemoryBytes < two64 →
      Effect.readyCB module Error.success
        ∈ (InterpreterDeviceManager.addNetworkImpl (InterpreterDeviceManager.empty maxMemoryBytes)
            heap module [(name, f)]).trace ∧
      (InterpreterDeviceManager.addNetworkImpl
          (InterpreterDeviceManager.addNetworkImpl (InterpreterDeviceManager.empty maxMemoryBytes)
            heap module [(name, f)]).dm heap2 module [(name, f)]).dm.usedMemoryBytes_
        = f.constantWeightSize) := by
  refine ⟨?_, ?_, ?_, ?_, ?_, ?_⟩
  · intro dm fs hk hdup
    obtain ⟨name, h1, h2, h3⟩ := cpu_checkFunctions_duplicate dm fs hk hdup
    exact ⟨name, h1, h2, by simp [CPUDeviceManager.addNetworkImpl, h3]⟩
  · intro dm fs hk hdup
    obtain ⟨name, h1, h2, h3⟩ := interpreter_checkFunctions_duplicate dm fs 0 hk hdup
    exact ⟨name, h1, h2, by simp [InterpreterDeviceManager.addNetworkImpl, h3]⟩
  · intro dm heap2 name f hs
    exact cpu_add_twice dm heap heap2 module name f hs
  · intro dm heap2 name f hs
    exact interpreter_add_twice dm heap heap2 module name f hs
  · intro maxMemoryBytes functionCost heap2 name f hk hle hmax
    have h0 : add64 (CPUDeviceManager.empty maxMemoryBytes functionCost).usedMemoryBytes_
        (CPUDeviceManager.empty maxMemoryBytes functionCost).functionCost_ = functionCost := by
      simp only [CPUDeviceManager.empty, add64, two64] at hmax ⊢
      omega
    have hs := cpu_addNetworkImpl_succeeds (CPUDeviceManager.empty maxMemoryBytes functionCost)
      heap module [(name, f)]
      (by intro e he
          rw [List.mem_singleton.mp he]
          exact ⟨by simp [CPUDeviceManager.empty, keys], hk⟩)
      (by rw [h0]; exact hle)
    obtain ⟨h1, h2⟩ := cpu_add_twice _ heap heap2 module name f hs
    refine ⟨hs, ?_⟩
    rw [h1, h2, h0]
  · intro maxMemoryBytes heap2 name f hk hle hmax
    have h0 : add64 (InterpreterDeviceManager.empty maxMemoryBytes).usedMemoryBytes_
        (add64 0 f.constantWeightSize) = f.constantWeightSize := by
      simp only [InterpreterDeviceManager.empty, add64, two64] at hmax ⊢
      omega
    have hs := interpreter_addNetworkImpl_succeeds (InterpreterDeviceManager.empty maxMemoryBytes)
      heap module [(name, f)]
      (by intro e he
          rw [List.mem_singleton.mp he]
          exact ⟨by simp [InterpreterDeviceManager.empty, keys], hk⟩)
      (by simp only [InterpreterDeviceManager.empty, InterpreterDeviceManager.weightSum,
            List.map_cons, List.map_nil, List.sum_cons, List.sum_nil, add64, two64] at hmax ⊢
          omega)
    obtain ⟨h1, h2⟩ := interpreter_add_twice _ heap heap2 module name f hs
    refine ⟨hs, ?_⟩
    rw [h1, h2, h0]

/-- Witness of C4: the function `f` of reservation 100 added twice to the empty
manager of capacity 1000, on both managers; `usedMemoryBytes_` ends at 100. -/
theorem C4_duplicate_name_rejected_witness :
    (CPUDeviceManager.addNetworkImpl
        (CPUDeviceManager.addNetworkImpl (CPUDeviceManager.empty 1000 100) [] 0
          [("f", ⟨1, BackendKind.CPU, "CPU", 0⟩)]).dm [1] 0
        [("f", ⟨1, BackendKind.CPU, "CPU", 0⟩)]
      = ⟨(CPUDeviceManager.addNetworkImpl (CPUDeviceManager.empty 1000 100) [] 0
          [("f", ⟨1, BackendKind.CPU, "CPU", 0⟩)]).dm, [1],
          [Effect.readyCB 0 (some (CPUDeviceManager.errAlreadyHave "f"))]⟩ ∧
      (CPUDeviceManager.addNetworkImpl (CPUDeviceManager.empty 1000 100) [] 0
          [("f", ⟨1, BackendKind.CPU, "CPU", 0⟩)]).dm.usedMemoryBytes_
        = add64 (CPUDeviceManager.empty 1000 100).usedMemoryBytes_
            (CPUDeviceManager.empty 1000 100).functionCost_) ∧
    (InterpreterDeviceManager.addNetworkImpl
        (InterpreterDeviceManager.addNetworkImpl (InterpreterDeviceManager.empty 1000) [] 0
          [("f", ⟨1, BackendKind.Interpreter, "Interpreter", 100⟩)]).dm [1] 0
        [("f", ⟨1, BackendKind.Interpreter, "Interpreter", 100⟩)]
      = ⟨(InterpreterDeviceManager.addNetworkImpl (InterpreterDeviceManager.empty 1000) [] 0
          [("f", ⟨1, BackendKind.Interpreter, "Interpreter", 100⟩)]).dm, [1],
          [Effect.readyCB 0 (some (InterpreterDeviceManager.errAlreadyHave "f"))]⟩ ∧
      (InterpreterDeviceManager.addNetworkImpl (InterpreterDeviceManager.empty 1000) [] 0
          [("f", ⟨1, BackendKind.Interpreter, "Interpreter", 100⟩)]).dm.usedMemoryBytes_
        = add64 (InterpreterDeviceManager.empty 1000).usedMemoryBytes_
            (add64 0 (CompiledFunction.mk 1 BackendKind.Interpreter "Interpreter"
              100).constantWeightSize)) ∧
    (CPUDeviceManager.addNetworkImpl
        (CPUDeviceManager.addNetworkImpl (CPUDeviceManager.empty 1000 100) [] 0
          [("f", ⟨1, BackendKind.CPU, "CPU", 0⟩)]).dm [1] 0
        [("f", ⟨1, BackendKind.CPU, "CPU", 0⟩)]).dm.usedMemoryBytes_ = 100 ∧
    (InterpreterDeviceManager.addNetworkImpl
        (InterpreterDeviceManager.addNetworkImpl (InterpreterDeviceManager.empty 1000) [] 0
          [("f", ⟨1, BackendKind.Interpreter, "Interpreter", 100⟩)]).dm [1] 0
        [("f", ⟨1, BackendKind.Interpreter, "Interpreter", 100⟩)]).dm.usedMemoryBytes_ = 100 :=
  ⟨(C4_duplicate_name_rejected [] 0).2.2.1 (CPUDeviceManager.empty 1000 100) [1] "f"
      ⟨1, BackendKind.CPU, "CPU", 0⟩ (by decide),
   (C4_duplicate_name_rejected [] 0).2.2.2.1 (InterpreterDeviceManager.empty 1000) [1] "f"
      ⟨1, BackendKind.Interpreter, "Interpreter", 100⟩ (by decide),
   ((C4_duplicate_name_rejected [] 0).2.2.2.2.1 1000 100 [1] "f"
      ⟨1, BackendKind.CPU, "CPU", 0⟩ (by decide) (by decide) (by decide)).2,
   ((C4_duplicate_name_rejected [] 0).2.2.2.2.2 1000 [1] "f"
      ⟨1, BackendKind.Interpreter, "Interpreter", 100⟩ (by decide) (by decide) (by decide)).2⟩

theorem cpu_checkFunctions_wrong_kind (dm : CPUDeviceManager) (fs : FunctionMapTy)
    (hn : ∀ e ∈ fs, e.1 ∉ keys dm.functions_)
    (hw : ∃ e ∈ fs, e.2.compileBackendKind ≠ BackendKind.CPU) :
    ∃ name, name ∈ keys fs ∧
      CPUDeviceManager.checkFunctions dm fs = some (CPUDeviceManager.errNotCPUFunction name) := by
  induction fs with
  | nil => simp at hw
  | cons e rest ih =>
    obtain ⟨k, g⟩ := e
    have h0 : count dm.functions_ k = 0 :=
      (count_eq_zero_iff _ _).mpr (hn (k, g) (List.mem_cons_self _ _))
    by_cases h1 : g.compileBackendKind = BackendKind.CPU
    · have hrest : ∃ e ∈ rest, e.2.compileBackendKind ≠ BackendKind.CPU := by
        obtain ⟨e, he, h2⟩ := hw
        rcases List.mem_cons.mp he with h3 | h3
        · subst h3; exact absurd h1 h2
        · exact ⟨e, h3, h2⟩
      obtain ⟨name, h4, h5⟩ := ih (fun e he => hn e (List.mem_cons_of_mem _ he)) hrest
      refine ⟨name, by simp only [keys, List.map_cons, List.mem_cons]; exact Or.inr h4, ?_⟩
      simp [CPUDeviceManager.checkFunctions, h0, h1, h5]
    · refine ⟨k, by simp [keys], ?_⟩
      simp [CPUDeviceManager.checkFunctions, h0, h1]

theorem interpreter_checkFunctions_wrong_kind (dm : InterpreterDeviceManager)
    (fs : FunctionMapTy) (acc : Nat)
    (hn : ∀ e ∈ fs, e.1 ∉ keys dm.functions_)
    (hw : ∃ e ∈ fs, e.2.compileBackendName ≠ Interpreter.getName) :
    ∃ name, name ∈ keys fs ∧
      InterpreterDeviceManager.checkFunctions dm fs acc
        = .error (InterpreterDeviceManager.errNotInterpreterFunction name) := by
  induction fs generalizing acc with
  | nil => simp at hw
  | cons e rest ih =>
    obtain ⟨k, g⟩ := e
    have h0 : count dm.functions_ k = 0 :=
      (count_eq_zero_iff _ _).mpr (hn (k, g) (List.mem_cons_self _ _))
    by_cases h1 : g.compileBackendName = Interpreter.getName
    · have hrest : ∃ e ∈ rest, e.2.compileBackendName ≠ Interpreter.getName := by
        obtain ⟨e, he, h2⟩ := hw
        rcases List.mem_cons.mp he with h3 | h3
        · subst h3; exact absurd h1 h2
        · exact ⟨e, h3, h2⟩
      obtain ⟨name, h4, h5⟩ :=
        ih (add64 acc g.constantWeightSize) (fun e he => hn e (List.mem_cons_of_mem _ he)) hrest
      refine ⟨name, by simp only [keys, List.map_cons, List.mem_cons]; exact Or.inr h4, ?_⟩
      simp [InterpreterDeviceManager.checkFunctions, h0, h1, h5]
    · refine ⟨k, by simp [keys], ?_⟩
      simp [InterpreterDeviceManager.checkFunctions, h0, h1]

/-- C5: on both managers, when no name of the map is registered and at least one
function carries another backend kind than the manager's, `addNetworkImpl` does
nothing but deliver the is-not-a-function-of-this-backend error for a name of the
map (manager and heap unchanged); and when every function carries the manager's
kind, no effect of `addNetworkImpl` is a ready callback with that error. -/
theorem C5_backend_kind_validated (heap : ConstantsHeap) (module : Nat) (fs : FunctionMapTy) :
    (∀ dm : CPUDeviceManager,
      (∀ e ∈ fs, e.1 ∉ keys dm.functions_) →
      (∃ e ∈ fs, e.2.compileBackendKind ≠ BackendKind.CPU) →
      ∃ name, name ∈ keys fs ∧
        CPUDeviceManager.addNetworkImpl dm heap module fs
          = ⟨dm, heap, [Effect.readyCB module (some (CPUDeviceManager.errNotCPUFunction name))]⟩) ∧
    (∀ dm : InterpreterDeviceManager,
      (∀ e ∈ fs, e.1 ∉ keys dm.functions_) →
      (∃ e ∈ fs, e.2.compileBackendName ≠ Interpreter.getName) →
      ∃ name, name ∈ keys fs ∧
        InterpreterDeviceManager.addNetworkImpl dm heap module fs
          = ⟨dm, heap,
              [Effect.readyCB module
                (some (InterpreterDeviceManager.errNotInterpreterFunction name))]⟩) ∧
    (∀ (dm : CPUDeviceManager) (name : String) (module2 : Nat),
      (∀ e ∈ fs, e.2.compileBackendKind = BackendKind.CPU) →
      Effect.readyCB module2 (some (CPUDeviceManager.errNotCPUFunction name))
        ∉ (CPUDeviceManager.addNetworkImpl dm heap module fs).trace) ∧
    (∀ (dm : InterpreterDeviceManager) (name : String) (module2 : Nat),
      (∀ e ∈ fs, e.2.compileBackendName = Interpreter.getName) →
      Effect.readyCB module2 (some (InterpreterDeviceManager.errNotInterpreterFunction name))
        ∉ (InterpreterDeviceManager.addNetworkImpl dm heap module fs).trace) := by
  refine ⟨?_, ?_, ?_, ?_⟩
  · intro dm hn hw
    obtain ⟨name, h1, h2⟩ := cpu_checkFunctions_wrong_kind dm fs hn hw
    exact ⟨name, h1, by simp [CPUDeviceManager.addNetworkImpl, h2]⟩
  · intro dm hn hw
    obtain ⟨name, h1, h2⟩ := interpreter_checkFunctions_wrong_kind dm fs 0 hn hw
    exact ⟨name, h1, by simp [InterpreterDeviceManager.addNetworkImpl, h2]⟩
  · intro dm name module2 hk hmem
    rcases CPUDeviceManager.cpu_addNetworkImpl_fail_or_ok dm heap module fs with
      ⟨err, h1, h2⟩ | ⟨tr, _, _, _, h2, h3⟩
    · rw [h1] at hmem
      have herr : err = CPUDeviceManager.errNotCPUFunction name := by
        have := List.mem_singleton.mp hmem
        simp only [Effect.readyCB.injEq, Option.some.injEq] at this
        exact this.2.symm
      rcases h2 with h2 | ⟨_, _, h2⟩
      · obtain ⟨pre, k, g, post, h4, _, h5⟩ :=
          CPUDeviceManager.cpu_checkFunctions_some dm fs err h2
        rcases h5 with ⟨_, h5⟩ | ⟨_, h5, _⟩
        · rw [herr] at h5
          simp [CPUDeviceManager.errNotCPUFunction, CPUDeviceManager.errAlreadyHave] at h5
        · exact h5 (hk (k, g) (by rw [h4]; simp))
      · rw [herr] at h2
        simp [CPUDeviceManager.errNotCPUFunction, errNotEnoughMemory] at h2
    · rw [h3] at hmem
      rcases List.mem_append.mp hmem with h4 | h4
      · obtain ⟨f, _, h5⟩ := h2 _ h4
        cases h5
      · simp [Error.success] at h4
  · intro dm name module2 hk hmem
    rcases InterpreterDeviceManager.addNetworkImpl_fail_or_ok dm heap module fs with
      ⟨err, h1, h2⟩ | ⟨all, tr, _, _, _, h2, h3⟩
    · rw [h1] at hmem
      have herr : err = InterpreterDeviceManager.errNotInterpreterFunction name := by
        have := List.mem_singleton.mp hmem
        simp only [Effect.readyCB.injEq, Option.some.injEq] at this
        exact this.2.symm
      rcases h2 with h2 | ⟨_, _, _, h2⟩
      · obtain ⟨pre, k, g, post, h4, _, h5⟩ :=
          InterpreterDeviceManager.checkFunctions_error dm fs 0 err h2
        rcases h5 with ⟨_, h5⟩ | ⟨_, h5, _⟩
        · rw [herr] at h5
          simp [InterpreterDeviceManager.errNotInterpreterFunction,
            InterpreterDeviceManager.errAlreadyHave] at h5
        · exact h5 (hk (k, g) (by rw [h4]; simp))
      · rw [herr] at h2
        simp [InterpreterDeviceManager.errNotInterpreterFunction, errNotEnoughMemory] at h2
    · rw [h3] at hmem
      rcases List.mem_append.mp hmem with h4 | h4
      · obtain ⟨f, _, h5⟩ := h2 _ h4
        cases h5
      · simp [Error.success] at h4

/-- Witness of C5: the CPU manager given a function compiled for the
Interpreter, and the Interpreter manager given a function compiled for the CPU. -/
theorem C5_backend_kind_validated_witness :
    (∃ name, name ∈ keys [("f", CompiledFunction.mk 1 BackendKind.Interpreter "Interpreter" 100)] ∧
      CPUDeviceManager.addNetworkImpl (CPUDeviceManager.empty 1000 1) [] 0
          [("f", ⟨1, BackendKind.Interpreter, "Interpreter", 100⟩)]
        = ⟨CPUDeviceManager.empty 1000 1, [],
            [Effect.readyCB 0 (some (CPUDeviceManager.errNotCPUFunction name))]⟩) ∧
    (∃ name, name ∈ keys [("f", CompiledFunction.mk 1 BackendKind.CPU "CPU" 100)] ∧
      InterpreterDeviceManager.addNetworkImpl (InterpreterDeviceManager.empty 1000) [] 0
          [("f", ⟨1, BackendKind.CPU, "CPU", 100⟩)]
        = ⟨InterpreterDeviceManager.empty 1000, [],
            [Effect.readyCB 0
              (some (InterpreterDeviceManager.errNotInterpreterFunction name))]⟩) :=
  ⟨(C5_backend_kind_validated [] 0 [("f", ⟨1, BackendKind.Interpreter, "Interpreter", 100⟩)]).1
      (CPUDeviceManager.empty 1000 1) (by decide) (by decide),
   (C5_backend_kind_validated [] 0 [("f", ⟨1, BackendKind.CPU, "CPU", 100⟩)]).2.1
      (InterpreterDeviceManager.empty 1000) (by decide) (by decide)⟩

/-- C6: on the Interpreter manager, for a map without repeated names whose names
are all unregistered and whose functions all carry the Interpreter name, with
`used + sum of weights` below `2^64`: the ready callback receives success exactly
when `used + sum of weights <= capacity`; then `usedMemoryBytes_` grows by exactly
the sum, every name of the map is bound to its function, every name registered
before keeps its function, and the registered names are the old ones and those of
the map; otherwise the call only delivers the out-of-memory error. -/
theorem C6_interpreter_addNetwork_postcondition (dm : InterpreterDeviceManager)
    (heap : ConstantsHeap) (module : Nat) (fs : FunctionMapTy)
    (hd : keysDistinct fs)
    (hv : ∀ e ∈ fs, e.1 ∉ keys dm.functions_ ∧ e.2.compileBackendName = Interpreter.getName)
    (hfit : dm.usedMemoryBytes_ + InterpreterDeviceManager.weightSum fs < two64) :
    (Effect.readyCB module Error.success
        ∈ (InterpreterDeviceManager.addNetworkImpl dm heap module fs).trace ↔
      dm.usedMemoryBytes_ + InterpreterDeviceManager.weightSum fs ≤ dm.maxMemoryBytes_) ∧
    (dm.usedMemoryBytes_ + InterpreterDeviceManager.weightSum fs ≤ dm.maxMemoryBytes_ →
      (InterpreterDeviceManager.addNetworkImpl dm heap module fs).dm.usedMemoryBytes_
        = dm.usedMemoryBytes_ + InterpreterDeviceManager.weightSum fs ∧
      (InterpreterDeviceManager.addNetworkImpl dm heap module fs).dm.maxMemoryBytes_
        = dm.maxMemoryBytes_ ∧
      (∀ e ∈ fs,
        find (InterpreterDeviceManager.addNetworkImpl dm heap module fs).dm.functions_ e.1
          = some e.2) ∧
      (∀ name, name ∈ keys dm.functions_ →
        find (InterpreterDeviceManager.addNetworkImpl dm heap module fs).dm.functions_ name
          = find dm.functions_ name) ∧
      (∀ name,
        name ∈ keys (InterpreterDeviceManager.addNetworkImpl dm heap module fs).dm.functions_ ↔
          name ∈ keys dm.functions_ ∨ name ∈ keys fs)) ∧
    (¬ dm.usedMemoryBytes_ + InterpreterDeviceManager.weightSum fs ≤ dm.maxMemoryBytes_ →
      InterpreterDeviceManager.addNetworkImpl dm heap module fs
        = ⟨dm, heap, [Effect.readyCB module (some errNotEnoughMemory)]⟩) := by
  have hc := InterpreterDeviceManager.checkFunctions_of_valid dm fs 0
    (by unfold two64; omega) hv
  have hall : add64 dm.usedMemoryBytes_ ((0 + InterpreterDeviceManager.weightSum fs) % two64)
      = dm.usedMemoryBytes_ + InterpreterDeviceManager.weightSum fs := by
    unfold add64 two64 at *; omega
  rcases InterpreterDeviceManager.addNetworkImpl_fail_or_ok dm heap module fs with
    ⟨err, h1, h2⟩ | ⟨all, tr, h1, h2, h3, _, h5⟩
  · have hgt : ¬ dm.usedMemoryBytes_ + InterpreterDeviceManager.weightSum fs
        ≤ dm.maxMemoryBytes_ ∧ err = errNotEnoughMemory := by
      rcases h2 with h2 | ⟨all, h2, h6, h7⟩
      · rw [hc] at h2; cases h2
      · rw [hc] at h2
        cases h2
        rw [hall] at h6
        exact ⟨Nat.not_le_of_gt h6, h7⟩
    refine ⟨?_, fun h => absurd h hgt.1, fun _ => by rw [h1, hgt.2]⟩
    rw [h1]
    constructor
    · intro h; simp [Error.success] at h
    · intro h; exact absurd h hgt.1
  · rw [hc] at h1
    cases h1
    rw [hall] at h2 h3 h5
    rw [foldl_emplace_eq_append fs dm.functions_ hd (fun e he => (hv e he).1)] at h3
    refine ⟨⟨fun _ => h2, fun _ => by rw [h5]; simp⟩, fun _ => ?_, fun h => absurd h2 h⟩
    rw [h3]
    refine ⟨rfl, rfl, ?_, ?_, ?_⟩
    · intro e he
      rw [find_append_right _ _ _ (hv e he).1]
      exact find_of_mem fs e.1 e.2 hd he
    · intro name hn
      exact find_append_left _ _ _ hn
    · intro name
      exact mem_keys_append _ _ _

/-- Witness of C6: the functions `a` (weight 300) and `b` (weight 200) added to a
manager of capacity 1000 that holds `g` and uses 400. -/
theorem C6_interpreter_addNetwork_postcondition_witness :
    (InterpreterDeviceManager.addNetworkImpl
        ⟨[("g", ⟨3, BackendKind.Interpreter, "Interpreter", 400⟩)], 1000, 400⟩ [3] 0
        [("a", ⟨1, BackendKind.Interpreter, "Interpreter", 300⟩),
         ("b", ⟨2, BackendKind.Interpreter, "Interpreter", 200⟩)]).dm.usedMemoryBytes_ = 900 ∧
    (Effect.readyCB 0 Error.success
        ∈ (InterpreterDeviceManager.addNetworkImpl
            ⟨[("g", ⟨3, BackendKind.Interpreter, "Interpreter", 400⟩)], 1000, 400⟩ [3] 0
            [("a", ⟨1, BackendKind.Interpreter, "Interpreter", 300⟩),
             ("b", ⟨2, BackendKind.Interpreter, "Interpreter", 200⟩)]).trace ↔
      (InterpreterDeviceManager.mk
          [("g", ⟨3, BackendKind.Interpreter, "Interpreter", 400⟩)] 1000 400).usedMemoryBytes_
        + InterpreterDeviceManager.weightSum
            [("a", ⟨1, BackendKind.Interpreter, "Interpreter", 300⟩),
             ("b", ⟨2, BackendKind.Interpreter, "Interpreter", 200⟩)]
        ≤ (InterpreterDeviceManager.mk
          [("g", ⟨3, BackendKind.Interpreter, "Interpreter", 400⟩)] 1000 400).maxMemoryBytes_) :=
  ⟨by decide,
   (C6_interpreter_addNetwork_postcondition
      ⟨[("g", ⟨3, BackendKind.Interpreter, "Interpreter", 400⟩)], 1000, 400⟩ [3] 0
      [("a", ⟨1, BackendKind.Interpreter, "Interpreter", 300⟩),
       ("b", ⟨2, BackendKind.Interpreter, "Interpreter", 200⟩)]
      (by decide) (by decide) (by decide)).1⟩

theorem mem_keys_of_find (m : FunctionMapTy) (name : String) (f : CompiledFunction)
    (h : find m name = some f) : name ∈ keys m := by
  by_contra hn
  rw [(find_eq_none_iff m name).mpr hn] at h
  cases h

theorem cpu_evict_registered (dm : CPUDeviceManager) (heap : ConstantsHeap) (name : String)
    (f : CompiledFunction) (evictCB : Bool) (hacc : CPUDeviceManager.accounted dm)
    (hfit : CPUDeviceManager.reserved dm < two64) (hf : find dm.functions_ name = some f) :
    CPUDeviceManager.evictNetworkImpl dm heap name evictCB
      = ⟨⟨erase dm.functions_ name, dm.maxMemoryBytes_,
            dm.usedMemoryBytes_ - dm.functionCost_, dm.functionCost_⟩, heap,
          [if evictCB then Effect.evictCB name Error.success
           else Effect.errsError Error.success]⟩ ∧
    dm.functionCost_ ≤ dm.usedMemoryBytes_ := by
  have hmem := mem_keys_of_find _ _ _ hf
  have hc : count dm.functions_ name ≠ 0 := (count_ne_zero_iff _ _).mpr hmem
  have hl := CPUDeviceManager.length_erase dm.functions_ name hacc.1 hmem
  have hu : dm.usedMemoryBytes_ = dm.functionCost_ * dm.functions_.length := by
    rw [hacc.2]; exact Nat.mod_eq_of_lt hfit
  have hle : dm.functionCost_ ≤ dm.usedMemoryBytes_ := by
    rw [hu, ← hl, Nat.mul_add, Nat.mul_one]; omega
  have hlt : dm.usedMemoryBytes_ < two64 := CPUDeviceManager.accounted_used_lt dm hacc
  refine ⟨?_, hle⟩
  simp [CPUDeviceManager.evictNetworkImpl, hc, sub64_of_le _ _ hlt hle]

theorem interpreter_evict_registered (dm : InterpreterDeviceManager) (heap : ConstantsHeap)
    (name : String) (f : CompiledFunction) (hacc : InterpreterDeviceManager.accounted dm)
    (hfit : InterpreterDeviceManager.reserved dm < two64)
    (hf : find dm.functions_ name = some f) :
    InterpreterDeviceManager.evictNetworkImpl dm heap name
      = ⟨⟨erase dm.functions_ name, dm.maxMemoryBytes_,
            dm.usedMemoryBytes_ - f.constantWeightSize⟩, heap,
          [Effect.exportMemoryCounters (dm.usedMemoryBytes_ - f.constantWeightSize),
           Effect.evictCB name Error.success]⟩ ∧
    f.constantWeightSize ≤ dm.usedMemoryBytes_ := by
  have hw := InterpreterDeviceManager.weightSum_erase dm.functions_ name f hacc.1 hf
  have hu : dm.usedMemoryBytes_ = InterpreterDeviceManager.weightSum dm.functions_ := by
    rw [hacc.2]; exact Nat.mod_eq_of_lt hfit
  have hle : f.constantWeightSize ≤ dm.usedMemoryBytes_ := by
    rw [hu]; omega
  have hlt : dm.usedMemoryBytes_ < two64 := by
    rw [hu]; exact hfit
  refine ⟨?_, hle⟩
  simp [InterpreterDeviceManager.evictNetworkImpl, hf, sub64_of_le _ _ hlt hle]

/-- C7, as stated, fails on both managers: from the empty Interpreter manager,
adding `a` and `b` of weight `2^63` each leaves `usedMemoryBytes_` at 0 (the sum
wraps), and evicting the registered `a` takes it to `2^63`, an underflow; from
the empty CPU manager of capacity `2^64 - 1` and cost `2^63`, adding `a` and `b`
wraps `usedMemoryBytes_` to 0 and evicting the registered `a` takes it to
`2^63`; and on the CPU manager of capacity 1000 and cost 100 that holds `f`,
evicting `f` with a callback that is not callable invokes no callback: the
success goes to `llvm::errs()`. -/
theorem C7_counterexample_evict_underflows :
    (find (InterpreterDeviceManager.reached InterpreterDeviceManager.executeOk 1000
        [.addNetwork 0
          [("a", ⟨1, BackendKind.Interpreter, "Interpreter", 9223372036854775808⟩),
           ("b", ⟨2, BackendKind.Interpreter, "Interpreter", 9223372036854775808⟩)]]).functions_
        "a" = some ⟨1, BackendKind.Interpreter, "Interpreter", 9223372036854775808⟩ ∧
      (InterpreterDeviceManager.reached InterpreterDeviceManager.executeOk 1000
        [.addNetwork 0
          [("a", ⟨1, BackendKind.Interpreter, "Interpreter", 9223372036854775808⟩),
           ("b", ⟨2, BackendKind.Interpreter, "Interpreter", 9223372036854775808⟩)]]
        ).usedMemoryBytes_ = 0 ∧
      (InterpreterDeviceManager.evictNetworkImpl
        (InterpreterDeviceManager.reached InterpreterDeviceManager.executeOk 1000
          [.addNetwork 0
            [("a", ⟨1, BackendKind.Interpreter, "Interpreter", 9223372036854775808⟩),
             ("b", ⟨2, BackendKind.Interpreter, "Interpreter", 9223372036854775808⟩)]])
        [] "a").dm.usedMemoryBytes_ = 9223372036854775808) ∧
    (find (CPUDeviceManager.reached 18446744073709551615 9223372036854775808
        [.addNetwork 0 [("a", ⟨1, BackendKind.CPU, "CPU", 0⟩),
                        ("b", ⟨2, BackendKind.CPU, "CPU", 0⟩)]]).functions_ "a"
        = some ⟨1, BackendKind.CPU, "CPU", 0⟩ ∧
      (CPUDeviceManager.reached 18446744073709551615 9223372036854775808
        [.addNetwork 0 [("a", ⟨1, BackendKind.CPU, "CPU", 0⟩),
                        ("b", ⟨2, BackendKind.CPU, "CPU", 0⟩)]]).usedMemoryBytes_ = 0 ∧
      (CPUDeviceManager.evictNetworkImpl
        (CPUDeviceManager.reached 18446744073709551615 9223372036854775808
          [.addNetwork 0 [("a", ⟨1, BackendKind.CPU, "CPU", 0⟩),
                          ("b", ⟨2, BackendKind.CPU, "CPU", 0⟩)]])
        [] "a" true).dm.usedMemoryBytes_ = 9223372036854775808) ∧
    (find (CPUDeviceManager.reached 1000 100
        [.addNetwork 0 [("f", ⟨1, BackendKind.CPU, "CPU", 0⟩)]]).functions_ "f"
        = some ⟨1, BackendKind.CPU, "CPU", 0⟩ ∧
      (CPUDeviceManager.evictNetworkImpl
        (CPUDeviceManager.reached 1000 100
          [.addNetwork 0 [("f", ⟨1, BackendKind.CPU, "CPU", 0⟩)]]) [1] "f" false).trace
        = [Effect.errsError Error.success] ∧
      callbacks (CPUDeviceManager.evictNetworkImpl
        (CPUDeviceManager.reached 1000 100
          [.addNetwork 0 [("f", ⟨1, BackendKind.CPU, "CPU", 0⟩)]]) [1] "f" false).trace
        = []) := by
  decide

/-- C7, amended: on both managers, in every state reached from the empty manager
by well-formed commands in which the sum of the reservations of the registered
entries is below `2^64`, evicting a registered name delivers success, to the
evict callback when it is callable and, on the CPU manager given a callback that
is not callable, to `llvm::errs()` with no callback invoked; it erases that name
and no other binding, and lowers `usedMemoryBytes_` by exactly the reservation
of the entry, which is at most `usedMemoryBytes_`. -/
theorem C7_evict_registered (heap : ConstantsHeap) (name : String) (f : CompiledFunction) :
    (∀ (maxMemoryBytes functionCost : Nat) (cmds : List CPUDeviceManager.Command)
        (evictCB : Bool),
      (∀ c ∈ cmds, c.wellFormed = true) →
      CPUDeviceManager.reserved (CPUDeviceManager.reached maxMemoryBytes functionCost cmds)
        < two64 →
      find (CPUDeviceManager.reached maxMemoryBytes functionCost cmds).functions_ name = some f →
      CPUDeviceManager.evictNetworkImpl
          (CPUDeviceManager.reached maxMemoryBytes functionCost cmds) heap name evictCB
        = ⟨⟨erase (CPUDeviceManager.reached maxMemoryBytes functionCost cmds).functions_ name,
              maxMemoryBytes,
              (CPUDeviceManager.reached maxMemoryBytes functionCost cmds).usedMemoryBytes_
                - functionCost,
              functionCost⟩, heap,
            [if evictCB then Effect.evictCB name Error.success
             else Effect.errsError Error.success]⟩ ∧
      functionCost
        ≤ (CPUDeviceManager.reached maxMemoryBytes functionCost cmds).usedMemoryBytes_ ∧
      name ∉ keys
        (erase (CPUDeviceManager.reached maxMemoryBytes functionCost cmds).functions_ name) ∧
      ∀ other, other ≠ name →
        find (erase (CPUDeviceManager.reached maxMemoryBytes functionCost cmds).functions_ name)
            other
          = find (CPUDeviceManager.reached maxMemoryBytes functionCost cmds).functions_ other) ∧
    (∀ (execute : CompiledFunction → Nat → Error) (maxMemoryBytes : Nat)
        (cmds : List InterpreterDeviceManager.Command),
      (∀ c ∈ cmds, c.wellFormed = true) →
      InterpreterDeviceManager.reserved
          (InterpreterDeviceManager.reached execute maxMemoryBytes cmds) < two64 →
      find (InterpreterDeviceManager.reached execute maxMemoryBytes cmds).functions_ name
        = some f →
      InterpreterDeviceManager.evictNetworkImpl
          (InterpreterDeviceManager.reached execute maxMemoryBytes cmds) heap name
        = ⟨⟨erase (InterpreterDeviceManager.reached execute maxMemoryBytes cmds).functions_
                name,
              maxMemoryBytes,
              (InterpreterDeviceManager.reached execute maxMemoryBytes cmds).usedMemoryBytes_
                - f.constantWeightSize⟩, heap,
            [Effect.exportMemoryCounters
               ((InterpreterDeviceManager.reached execute maxMemoryBytes cmds).usedMemoryBytes_
                  - f.constantWeightSize),
             Effect.evictCB name Error.success]⟩ ∧
      f.constantWeightSize
        ≤ (InterpreterDeviceManager.reached execute maxMemoryBytes cmds).usedMemoryBytes_ ∧
      name ∉ keys
        (erase (InterpreterDeviceManager.reached execute maxMemoryBytes cmds).functions_ name) ∧
      ∀ other, other ≠ name →
        find (erase (InterpreterDeviceManager.reached execute maxMemoryBytes cmds).functions_
            name) other
          = find (InterpreterDeviceManager.reached execute maxMemoryBytes cmds).functions_
              other) := by
  constructor
  · intro maxMemoryBytes functionCost cmds evictCB hwf hfit hf
    have hrun := CPUDeviceManager.cpu_run_accounted cmds
      ⟨CPUDeviceManager.empty maxMemoryBytes functionCost, [], []⟩ hwf
      (CPUDeviceManager.cpu_empty_accounted _ _)
    have hacc : CPUDeviceManager.accounted
        (CPUDeviceManager.reached maxMemoryBytes functionCost cmds) := hrun.1
    have hmax : (CPUDeviceManager.reached maxMemoryBytes functionCost cmds).maxMemoryBytes_
        = maxMemoryBytes := hrun.2.1
    have hcost : (CPUDeviceManager.reached maxMemoryBytes functionCost cmds).functionCost_
        = functionCost := hrun.2.2
    obtain ⟨h1, h2⟩ := cpu_evict_registered
      (CPUDeviceManager.reached maxMemoryBytes functionCost cmds) heap name f evictCB hacc hfit hf
    rw [hmax, hcost] at h1
    rw [hcost] at h2
    exact ⟨h1, h2, not_mem_keys_erase _ _, fun other ho => find_erase_ne _ _ _ ho⟩
  · intro execute maxMemoryBytes cmds hwf hfit hf
    have hrun := InterpreterDeviceManager.run_accounted execute cmds
      ⟨InterpreterDeviceManager.empty maxMemoryBytes, [], []⟩ hwf
      (InterpreterDeviceManager.empty_accounted _)
    have hacc : InterpreterDeviceManager.accounted
        (InterpreterDeviceManager.reached execute maxMemoryBytes cmds) := hrun.1
    have hmax : (InterpreterDeviceManager.reached execute maxMemoryBytes cmds).maxMemoryBytes_
        = maxMemoryBytes := hrun.2
    obtain ⟨h1, h2⟩ := interpreter_evict_registered
      (InterpreterDeviceManager.reached execute maxMemoryBytes cmds) heap name f hacc hfit hf
    rw [hmax] at h1
    exact ⟨h1, h2, not_mem_keys_erase _ _, fun other ho => find_erase_ne _ _ _ ho⟩

/-- Witness of C7: `f` evicted from the CPU manager (cost 100) that holds `f`, and
from the Interpreter manager that holds `f` (weight 400) and `g` (weight 500). -/
theorem C7_evict_registered_witness :
    (100 ≤ (CPUDeviceManager.reached 1000 100
        [.addNetwork 0 [("f", ⟨1, BackendKind.CPU, "CPU", 0⟩)],
         .runFunction 1 "f" 0]).usedMemoryBytes_) ∧
    ((CompiledFunction.mk 1 BackendKind.Interpreter "Interpreter" 400).constantWeightSize
      ≤ (InterpreterDeviceManager.reached InterpreterDeviceManager.executeOk 1000
        [.addNetwork 0 [("f", ⟨1, BackendKind.Interpreter, "Interpreter", 400⟩),
                        ("g", ⟨2, BackendKind.Interpreter, "Interpreter", 500⟩)],
         .runFunction 1 "f" 0]).usedMemoryBytes_) ∧
    (CPUDeviceManager.evictNetworkImpl (CPUDeviceManager.reached 1000 100
        [.addNetwork 0 [("f", ⟨1, BackendKind.CPU, "CPU", 0⟩)],
         .runFunction 1 "f" 0]) [1] "f" true)
      = ⟨⟨[], 1000, 0, 100⟩, [1], [Effect.evictCB "f" Error.success]⟩ ∧
    (InterpreterDeviceManager.evictNetworkImpl
        (InterpreterDeviceManager.reached InterpreterDeviceManager.executeOk 1000
          [.addNetwork 0 [("f", ⟨1, BackendKind.Interpreter, "Interpreter", 400⟩),
                          ("g", ⟨2, BackendKind.Interpreter, "Interpreter", 500⟩)],
           .runFunction 1 "f" 0]) [1, 2] "f")
      = ⟨⟨[("g", ⟨2, BackendKind.Interpreter, "Interpreter", 500⟩)], 1000, 500⟩, [1, 2],
          [Effect.exportMemoryCounters 500, Effect.evictCB "f" Error.success]⟩ :=
  ⟨((C7_evict_registered [1] "f" ⟨1, BackendKind.CPU, "CPU", 0⟩).1 1000 100
      [.addNetwork 0 [("f", ⟨1, BackendKind.CPU, "CPU", 0⟩)], .runFunction 1 "f" 0] true
      (by decide) (by decide) (by decide)).2.1,
   ((C7_evict_registered [1, 2] "f" ⟨1, BackendKind.Interpreter, "Interpreter", 400⟩).2
      InterpreterDeviceManager.executeOk 1000
      [.addNetwork 0 [("f", ⟨1, BackendKind.Interpreter, "Interpreter", 400⟩),
                      ("g", ⟨2, BackendKind.Interpreter, "Interpreter", 500⟩)],
       .runFunction 1 "f" 0]
      (by decide) (by decide) (by decide)).2.1,
   by decide, by decide⟩

/-- C8, as stated, fails: on the empty CPU manager, evicting `ghost` with a
callback that is not callable delivers nothing to the callback; the
`RUNTIME_NET_NOT_FOUND` error is written to `llvm::errs()`. -/
theorem C8_counterexample_cpu_evict_missing_without_callback :
    (CPUDeviceManager.evictNetworkImpl (CPUDeviceManager.empty 1000 1) [] "ghost" false).trace
      = [Effect.errsError (some (CPUDeviceManager.errNotFound "ghost"))] ∧
    callbacks (CPUDeviceManager.evictNetworkImpl (CPUDeviceManager.empty 1000 1) [] "ghost"
        false).trace = [] ∧
    (∀ err, Effect.evictCB "ghost" err
      ∉ (CPUDeviceManager.evictNetworkImpl (CPUDeviceManager.empty 1000 1) [] "ghost"
          false).trace) := by
  refine ⟨by decide, by decide, ?_⟩
  intro err h
  simp [CPUDeviceManager.evictNetworkImpl] at h

/-- C8, amended: on both managers, evicting a name that is not registered (any
name on an empty manager) leaves the manager and the heap as they were and only
delivers the error of code `RUNTIME_NET_NOT_FOUND`: to the evict callback when it
is callable, and on the CPU manager given a callback that is not callable to
`llvm::errs()`, with no callback invoked. -/
theorem C8_evict_missing (heap : ConstantsHeap) (name : String) :
    (∀ (dm : CPUDeviceManager) (evictCB : Bool), name ∉ keys dm.functions_ →
      CPUDeviceManager.evictNetworkImpl dm heap name evictCB
        = ⟨dm, heap,
            [if evictCB then Effect.evictCB name (some (CPUDeviceManager.errNotFound name))
             else Effect.errsError (some (CPUDeviceManager.errNotFound name))]⟩) ∧
    (∀ dm : InterpreterDeviceManager, name ∉ keys dm.functions_ →
      InterpreterDeviceManager.evictNetworkImpl dm heap name
        = ⟨dm, heap,
            [Effect.evictCB name (some (InterpreterDeviceManager.errNotFound name))]⟩) ∧
    (CPUDeviceManager.errNotFound name).code = some ErrorCode.RUNTIME_NET_NOT_FOUND ∧
    (InterpreterDeviceManager.errNotFound name).code = some ErrorCode.RUNTIME_NET_NOT_FOUND ∧
    (∀ maxMemoryBytes functionCost,
      name ∉ keys (CPUDeviceManager.empty maxMemoryBytes functionCost).functions_) ∧
    (∀ maxMemoryBytes, name ∉ keys (InterpreterDeviceManager.empty maxMemoryBytes).functions_) := by
  refine ⟨?_, ?_, rfl, rfl, ?_, ?_⟩
  · intro dm evictCB hn
    have hc : count dm.functions_ name = 0 := (count_eq_zero_iff _ _).mpr hn
    simp [CPUDeviceManager.evictNetworkImpl, hc, erase_of_not_mem _ _ hn]
  · intro dm hn
    simp [InterpreterDeviceManager.evictNetworkImpl, (find_eq_none_iff _ _).mpr hn]
  · intro _ _; simp [CPUDeviceManager.empty, keys]
  · intro _; simp [InterpreterDeviceManager.empty, keys]

/-- Witness of C8: `ghost` evicted from the empty managers. -/
theorem C8_evict_missing_witness :
    CPUDeviceManager.evictNetworkImpl (CPUDeviceManager.empty 1000 1) [] "ghost" true
      = ⟨CPUDeviceManager.empty 1000 1, [],
          [if true = true then Effect.evictCB "ghost" (some (CPUDeviceManager.errNotFound "ghost"))
           else Effect.errsError (some (CPUDeviceManager.errNotFound "ghost"))]⟩ ∧
    InterpreterDeviceManager.evictNetworkImpl (InterpreterDeviceManager.empty 1000) [] "ghost"
      = ⟨InterpreterDeviceManager.empty 1000, [],
          [Effect.evictCB "ghost" (some (InterpreterDeviceManager.errNotFound "ghost"))]⟩ :=
  ⟨(C8_evict_missing [] "ghost").1 (CPUDeviceManager.empty 1000 1) true (by decide),
   (C8_evict_missing [] "ghost").2.1 (InterpreterDeviceManager.empty 1000) (by decide)⟩

/-- C9: on both managers, for every state whose `usedMemoryBytes_` is a 64-bit
value and every one-function map whose `addNetworkImpl` succeeds, the
`evictNetworkImpl` of its name that follows delivers success and leaves the
manager exactly as it was before the addition: same `usedMemoryBytes_`, same
registry. -/
theorem C9_add_then_evict_restores (heap : ConstantsHeap) (module : Nat) (name : String)
    (f : CompiledFunction) :
    (∀ (dm : CPUDeviceManager) (evictCB : Bool), dm.usedMemoryBytes_ < two64 →
      Effect.readyCB module Error.success
        ∈ (CPUDeviceManager.addNetworkImpl dm heap module [(name, f)]).trace →
      CPUDeviceManager.evictNetworkImpl
          (CPUDeviceManager.addNetworkImpl dm heap module [(name, f)]).dm
          (CPUDeviceManager.addNetworkImpl dm heap module [(name, f)]).heap name evictCB
        = ⟨dm, (CPUDeviceManager.addNetworkImpl dm heap module [(name, f)]).heap,
            [if evictCB then Effect.evictCB name Error.success
             else Effect.errsError Error.success]⟩) ∧
    (∀ dm : InterpreterDeviceManager, dm.usedMemoryBytes_ < two64 →
      Effect.readyCB module Error.success
        ∈ (InterpreterDeviceManager.addNetworkImpl dm heap module [(name, f)]).trace →
      InterpreterDeviceManager.evictNetworkImpl
          (InterpreterDeviceManager.addNetworkImpl dm heap module [(name, f)]).dm
          (InterpreterDeviceManager.addNetworkImpl dm heap module [(name, f)]).heap name
        = ⟨dm, (InterpreterDeviceManager.addNetworkImpl dm heap module [(name, f)]).heap,
            [Effect.exportMemoryCounters dm.usedMemoryBytes_,
             Effect.evictCB name Error.success]⟩) := by
  constructor
  · intro dm evictCB hu hs
    obtain ⟨hn, h2⟩ := cpu_addNetworkImpl_single dm heap module name f hs
    rw [h2]
    have hc : count (dm.functions_ ++ [(name, f)]) name ≠ 0 :=
      (count_ne_zero_iff _ _).mpr ((mem_keys_append _ _ _).mpr (Or.inr (by simp [keys])))
    simp [CPUDeviceManager.evictNetworkImpl, hc, erase_append_singleton _ _ _ hn,
      sub64_add64 _ _ hu]
  · intro dm hu hs
    obtain ⟨hn, h2⟩ := interpreter_addNetworkImpl_single dm heap module name f hs
    rw [h2]
    have hf : find (dm.functions_ ++ [(name, f)]) name = some f := by
      rw [find_append_right _ _ _ hn]; simp [find]
    have hsub : sub64 (add64 dm.usedMemoryBytes_ (add64 0 f.constantWeightSize))
        f.constantWeightSize = dm.usedMemoryBytes_ := by
      unfold sub64 add64 two64 at *; omega
    simp [InterpreterDeviceManager.evictNetworkImpl, hf, erase_append_singleton _ _ _ hn, hsub]

/-- Witness of C9: `f` added to and evicted from managers that hold `g`. -/
theorem C9_add_then_evict_restores_witness :
    CPUDeviceManager.evictNetworkImpl
        (CPUDeviceManager.addNetworkImpl
          ⟨[("g", ⟨2, BackendKind.CPU, "CPU", 0⟩)], 1000, 100, 100⟩ [2] 0
          [("f", ⟨1, BackendKind.CPU, "CPU", 0⟩)]).dm
        (CPUDeviceManager.addNetworkImpl
          ⟨[("g", ⟨2, BackendKind.CPU, "CPU", 0⟩)], 1000, 100, 100⟩ [2] 0
          [("f", ⟨1, BackendKind.CPU, "CPU", 0⟩)]).heap "f" true
      = ⟨⟨[("g", ⟨2, BackendKind.CPU, "CPU", 0⟩)], 1000, 100, 100⟩,
          (CPUDeviceManager.addNetworkImpl
            ⟨[("g", ⟨2, BackendKind.CPU, "CPU", 0⟩)], 1000, 100, 100⟩ [2] 0
            [("f", ⟨1, BackendKind.CPU, "CPU", 0⟩)]).heap,
          [if true = true then Effect.evictCB "f" Error.success
           else Effect.errsError Error.success]⟩ ∧
    InterpreterDeviceManager.evictNetworkImpl
        (InterpreterDeviceManager.addNetworkImpl
          ⟨[("g", ⟨2, BackendKind.Interpreter, "Interpreter", 500⟩)], 1000, 500⟩ [2] 0
          [("f", ⟨1, BackendKind.Interpreter, "Interpreter", 400⟩)]).dm
        (InterpreterDeviceManager.addNetworkImpl
          ⟨[("g", ⟨2, BackendKind.Interpreter, "Interpreter", 500⟩)], 1000, 500⟩ [2] 0
          [("f", ⟨1, BackendKind.Interpreter, "Interpreter", 400⟩)]).heap "f"
      = ⟨⟨[("g", ⟨2, BackendKind.Interpreter, "Interpreter", 500⟩)], 1000, 500⟩,
          (InterpreterDeviceManager.addNetworkImpl
            ⟨[("g", ⟨2, BackendKind.Interpreter, "Interpreter", 500⟩)], 1000, 500⟩ [2] 0
            [("f", ⟨1, BackendKind.Interpreter, "Interpreter", 400⟩)]).heap,
          [Effect.exportMemoryCounters
             (InterpreterDeviceManager.mk
               [("g", ⟨2, BackendKind.Interpreter, "Interpreter", 500⟩)] 1000
               500).usedMemoryBytes_,
           Effect.evictCB "f" Error.success]⟩ :=
  ⟨(C9_add_then_evict_restores [2] 0 "f" ⟨1, BackendKind.CPU, "CPU", 0⟩).1
      ⟨[("g", ⟨2, BackendKind.CPU, "CPU", 0⟩)], 1000, 100, 100⟩ true (by decide) (by decide),
   (C9_add_then_evict_restores [2] 0 "f" ⟨1, BackendKind.Interpreter, "Interpreter", 400⟩).2
      ⟨[("g", ⟨2, BackendKind.Interpreter, "Interpreter", 500⟩)], 1000, 500⟩
      (by decide) (by decide)⟩

/-- C10: on both managers, in every state reached from the empty manager by
well-formed commands, successful or failing, `usedMemoryBytes_` is the sum of the
reservations of the registered entries taken as a 64-bit value, hence that sum
itself whenever it fits in 64 bits: `functionCost_` times the number of
registered functions on the CPU manager, the sum of the constant weight sizes of
the registered functions on the Interpreter manager. -/
theorem C10_used_is_sum_of_reservations :
    (∀ (maxMemoryBytes functionCost : Nat) (cmds : List CPUDeviceManager.Command),
      (∀ c ∈ cmds, c.wellFormed = true) →
      (CPUDeviceManager.reached maxMemoryBytes functionCost cmds).usedMemoryBytes_
        = (functionCost
            * (CPUDeviceManager.reached maxMemoryBytes functionCost cmds).functions_.length)
          % two64 ∧
      (functionCost
          * (CPUDeviceManager.reached maxMemoryBytes functionCost cmds).functions_.length
          < two64 →
        (CPUDeviceManager.reached maxMemoryBytes functionCost cmds).usedMemoryBytes_
          = functionCost
            * (CPUDeviceManager.reached maxMemoryBytes functionCost cmds).functions_.length)) ∧
    (∀ (execute : CompiledFunction → Nat → Error) (maxMemoryBytes : Nat)
        (cmds : List InterpreterDeviceManager.Command),
      (∀ c ∈ cmds, c.wellFormed = true) →
      (InterpreterDeviceManager.reached execute maxMemoryBytes cmds).usedMemoryBytes_
        = InterpreterDeviceManager.weightSum
            (InterpreterDeviceManager.reached execute maxMemoryBytes cmds).functions_ % two64 ∧
      (InterpreterDeviceManager.weightSum
          (InterpreterDeviceManager.reached execute maxMemoryBytes cmds).functions_ < two64 →
        (InterpreterDeviceManager.reached execute maxMemoryBytes cmds).usedMemoryBytes_
          = InterpreterDeviceManager.weightSum
              (InterpreterDeviceManager.reached execute maxMemoryBytes cmds).functions_)) := by
  constructor
  · intro maxMemoryBytes functionCost cmds hwf
    have hrun := CPUDeviceManager.cpu_run_accounted cmds
      ⟨CPUDeviceManager.empty maxMemoryBytes functionCost, [], []⟩ hwf
      (CPUDeviceManager.cpu_empty_accounted _ _)
    have hacc : (CPUDeviceManager.reached maxMemoryBytes functionCost cmds).usedMemoryBytes_
        = ((CPUDeviceManager.reached maxMemoryBytes functionCost cmds).functionCost_
            * (CPUDeviceManager.reached maxMemoryBytes functionCost cmds).functions_.length)
          % two64 := hrun.1.2
    have hcost : (CPUDeviceManager.reached maxMemoryBytes functionCost cmds).functionCost_
        = functionCost := hrun.2.2
    rw [hcost] at hacc
    exact ⟨hacc, fun hlt => by rw [hacc]; exact Nat.mod_eq_of_lt hlt⟩
  · intro execute maxMemoryBytes cmds hwf
    have hrun := InterpreterDeviceManager.run_accounted execute cmds
      ⟨InterpreterDeviceManager.empty maxMemoryBytes, [], []⟩ hwf
      (InterpreterDeviceManager.empty_accounted _)
    have hacc : (InterpreterDeviceManager.reached execute maxMemoryBytes cmds).usedMemoryBytes_
        = InterpreterDeviceManager.weightSum
            (InterpreterDeviceManager.reached execute maxMemoryBytes cmds).functions_
          % two64 := hrun.1.2
    exact ⟨hacc, fun hlt => by rw [hacc]; exact Nat.mod_eq_of_lt hlt⟩

/-- Witness of C10: three CPU functions of cost 300 under capacity 500, one of
them evicted; two Interpreter functions, one run and one evicted, and a failing
addition. -/
theorem C10_used_is_sum_of_reservations_witness :
    (CPUDeviceManager.reached 500 300
        [.addNetwork 0 [("a", ⟨1, BackendKind.CPU, "CPU", 0⟩),
                        ("b", ⟨2, BackendKind.CPU, "CPU", 0⟩),
                        ("c", ⟨3, BackendKind.CPU, "CPU", 0⟩)],
         .evictNetwork "b" true,
         .evictNetwork "ghost" true]).usedMemoryBytes_
      = 300 * (CPUDeviceManager.reached 500 300
        [.addNetwork 0 [("a", ⟨1, BackendKind.CPU, "CPU", 0⟩),
                        ("b", ⟨2, BackendKind.CPU, "CPU", 0⟩),
                        ("c", ⟨3, BackendKind.CPU, "CPU", 0⟩)],
         .evictNetwork "b" true,
         .evictNetwork "ghost" true]).functions_.length ∧
    (InterpreterDeviceManager.reached InterpreterDeviceManager.executeOk 1000
        [.addNetwork 0 [("f", ⟨1, BackendKind.Interpreter, "Interpreter", 400⟩),
                        ("g", ⟨2, BackendKind.Interpreter, "Interpreter", 500⟩)],
         .runFunction 1 "f" 0,
         .addNetwork 0 [("h", ⟨3, BackendKind.Interpreter, "Interpreter", 200⟩)],
         .evictNetwork "f"]).usedMemoryBytes_
      = InterpreterDeviceManager.weightSum
          (InterpreterDeviceManager.reached InterpreterDeviceManager.executeOk 1000
            [.addNetwork 0 [("f", ⟨1, BackendKind.Interpreter, "Interpreter", 400⟩),
                            ("g", ⟨2, BackendKind.Interpreter, "Interpreter", 500⟩)],
             .runFunction 1 "f" 0,
             .addNetwork 0 [("h", ⟨3, BackendKind.Interpreter, "Interpreter", 200⟩)],
             .evictNetwork "f"]).functions_ :=
  ⟨(C10_used_is_sum_of_reservations.1 500 300
      [.addNetwork 0 [("a", ⟨1, BackendKind.CPU, "CPU", 0⟩),
                      ("b", ⟨2, BackendKind.CPU, "CPU", 0⟩),
                      ("c", ⟨3, BackendKind.CPU, "CPU", 0⟩)],
       .evictNetwork "b" true,
       .evictNetwork "ghost" true] (by decide)).2 (by decide),
   (C10_used_is_sum_of_reservations.2 InterpreterDeviceManager.executeOk 1000
      [.addNetwork 0 [("f", ⟨1, BackendKind.Interpreter, "Interpreter", 400⟩),
                      ("g", ⟨2, BackendKind.Interpreter, "Interpreter", 500⟩)],
       .runFunction 1 "f" 0,
       .addNetwork 0 [("h", ⟨3, BackendKind.Interpreter, "Interpreter", 200⟩)],
       .evictNetwork "f"] (by decide)).2 (by decide)⟩

/-! ## Callbacks, runs and ordering -/

theorem callbacks_append (a b : List Effect) : callbacks (a ++ b) = callbacks a ++ callbacks b := by
  simp [callbacks]

theorem callbacks_of_collects (module : Nat) (fs : FunctionMapTy) (tr : List Effect)
    (h : ∀ e ∈ tr, ∃ f, (∃ k, (k, f) ∈ fs) ∧ e = Effect.collectConstants f module) :
    callbacks tr = [] := by
  unfold callbacks
  rw [List.filter_eq_nil_iff]
  intro e he
  obtain ⟨f, _, h2⟩ := h e he
  rw [h2]
  simp [Effect.isCallback]

theorem interpreter_addNetworkImpl_callbacks (dm : InterpreterDeviceManager)
    (heap : ConstantsHeap) (module : Nat) (fs : FunctionMapTy) :
    ∃ err, callbacks (InterpreterDeviceManager.addNetworkImpl dm heap module fs).trace
        = [Effect.readyCB module err] ∧
      Effect.readyCB module err
        ∈ (InterpreterDeviceManager.addNetworkImpl dm heap module fs).trace := by
  rcases InterpreterDeviceManager.addNetworkImpl_fail_or_ok dm heap module fs with
    ⟨err, h1, _⟩ | ⟨all, tr, _, _, _, h2, h3⟩
  · exact ⟨some err, by rw [h1]; simp [callbacks, Effect.isCallback], by rw [h1]; simp⟩
  · refine ⟨Error.success, ?_, by rw [h3]; simp⟩
    rw [h3, callbacks_append, callbacks_of_collects module fs tr h2]
    simp [callbacks, Effect.isCallback]

theorem cpu_addNetworkImpl_callbacks (dm : CPUDeviceManager) (heap : ConstantsHeap)
    (module : Nat) (fs : FunctionMapTy) :
    ∃ err, callbacks (CPUDeviceManager.addNetworkImpl dm heap module fs).trace
        = [Effect.readyCB module err] ∧
      Effect.readyCB module err ∈ (CPUDeviceManager.addNetworkImpl dm heap module fs).trace := by
  rcases CPUDeviceManager.cpu_addNetworkImpl_fail_or_ok dm heap module fs with
    ⟨err, h1, _⟩ | ⟨tr, _, _, _, h2, h3⟩
  · exact ⟨some err, by rw [h1]; simp [callbacks, Effect.isCallback], by rw [h1]; simp⟩
  · refine ⟨Error.success, ?_, by rw [h3]; simp⟩
    rw [h3, callbacks_append, callbacks_of_collects module fs tr h2]
    simp [callbacks, Effect.isCallback]

theorem mem_keys_emplace (m : FunctionMapTy) (k : String) (g : CompiledFunction)
    (name : String) (h : name ∈ keys (emplace m k g)) : name ∈ keys m ∨ name = k := by
  unfold emplace at h
  by_cases hc : count m k = 0
  · rw [if_pos hc] at h
    rcases (mem_keys_append _ _ _).mp h with h1 | h1
    · exact Or.inl h1
    · exact Or.inr (by simpa [keys] using h1)
  · rw [if_neg hc] at h
    exact Or.inl h

theorem mem_keys_foldl_emplace (fs m : FunctionMapTy) (name : String)
    (h : name ∈ keys (fs.foldl (fun acc e => emplace acc e.1 e.2) m)) :
    name ∈ keys m ∨ name ∈ keys fs := by
  induction fs generalizing m with
  | nil => exact Or.inl h
  | cons e rest ih =>
    rw [List.foldl_cons] at h
    rcases ih _ h with h1 | h1
    · rcases mem_keys_emplace m e.1 e.2 name h1 with h2 | h2
      · exact Or.inl h2
      · exact Or.inr (by simp [keys, h2])
    · exact Or.inr (by simp only [keys, List.map_cons, List.mem_cons]; exact Or.inr h1)

theorem mem_keys_of_mem_keys_erase (m : FunctionMapTy) (name other : String)
    (h : other ∈ keys (erase m name)) : other ∈ keys m := by
  unfold erase keys at *
  exact ((List.filter_sublist m).map Prod.fst).subset h

/-- A name registered after `addNetworkImpl` was registered before or is a name
of a map that was added with success. -/
theorem interpreter_addNetworkImpl_keys (dm : InterpreterDeviceManager) (heap : ConstantsHeap)
    (module : Nat) (fs : FunctionMapTy) (name : String)
    (h : name ∈ keys (InterpreterDeviceManager.addNetworkImpl dm heap module fs).dm.functions_) :
    name ∈ keys dm.functions_ ∨
      (name ∈ keys fs ∧ Effect.readyCB module Error.success
        ∈ (InterpreterDeviceManager.addNetworkImpl dm heap module fs).trace) := by
  rcases InterpreterDeviceManager.addNetworkImpl_fail_or_ok dm heap module fs with
    ⟨err, h1, _⟩ | ⟨all, tr, _, _, h2, _, h3⟩
  · rw [h1] at h; exact Or.inl h
  · rw [h2] at h
    rcases mem_keys_foldl_emplace fs dm.functions_ name h with h4 | h4
    · exact Or.inl h4
    · exact Or.inr ⟨h4, by rw [h3]; simp⟩

theorem interpreter_evict_keys (dm : InterpreterDeviceManager) (heap : ConstantsHeap)
    (functionName name : String)
    (h : name ∈ keys (InterpreterDeviceManager.evictNetworkImpl dm heap functionName).dm.functions_) :
    name ∈ keys dm.functions_ ∧
      ¬ (functionName = name ∧ Effect.evictCB name Error.success
        ∈ (InterpreterDeviceManager.evictNetworkImpl dm heap functionName).trace) := by
  unfold InterpreterDeviceManager.evictNetworkImpl at h ⊢
  cases hf : find dm.functions_ functionName with
  | none =>
    rw [hf] at h
    refine ⟨h, ?_⟩
    rintro ⟨_, h2⟩
    simp [Error.success] at h2
  | some f =>
    rw [hf] at h
    refine ⟨mem_keys_of_mem_keys_erase _ _ _ h, ?_⟩
    rintro ⟨h1, _⟩
    subst h1
    exact not_mem_keys_erase _ _ h

theorem interpreter_runFunctionImpl_dm (execute : CompiledFunction → Nat → Error)
    (dm : InterpreterDeviceManager) (heap : ConstantsHeap) (id : Nat) (function : String)
    (context : Nat) :
    (InterpreterDeviceManager.runFunctionImpl execute dm heap id function context).dm = dm ∧
    (InterpreterDeviceManager.runFunctionImpl execute dm heap id function context).heap = heap := by
  unfold InterpreterDeviceManager.runFunctionImpl
  cases find dm.functions_ function <;> exact ⟨rfl, rfl⟩

/-- A name whose last successful addition was followed by a successful eviction is
not registered. -/
theorem evictedLast_unregistered (execute : CompiledFunction → Nat → Error) (name : String)
    (cmds : List InterpreterDeviceManager.Command) (o : Outcome InterpreterDeviceManager)
    (evicted : Bool) (hinv : evicted = true → name ∉ keys o.dm.functions_)
    (h : InterpreterDeviceManager.evictedLast execute name o cmds evicted = true) :
    name ∉ keys (InterpreterDeviceManager.run execute o cmds).dm.functions_ := by
  induction cmds generalizing o evicted with
  | nil => exact hinv h
  | cons c cs ih =>
    unfold InterpreterDeviceManager.evictedLast at h
    refine ih (InterpreterDeviceManager.step execute o c) _ ?_ h
    cases c with
    | addNetwork module fs =>
      intro hb hmem
      simp only [InterpreterDeviceManager.step] at hmem
      by_cases hs : name ∈ keys fs ∧ Effect.readyCB module Error.success
          ∈ (InterpreterDeviceManager.addNetworkImpl o.dm o.heap module fs).trace
      · simp [hs] at hb
      · simp only [hs, if_false] at hb
        rcases interpreter_addNetworkImpl_keys o.dm o.heap module fs name hmem with h1 | h1
        · exact hinv hb h1
        · exact hs h1
    | evictNetwork functionName =>
      intro hb hmem
      simp only [InterpreterDeviceManager.step] at hmem
      obtain ⟨h1, h2⟩ := interpreter_evict_keys o.dm o.heap functionName name hmem
      simp only [h2, if_false] at hb
      exact hinv hb h1
    | runFunction id function context =>
      intro hb hmem
      simp only [InterpreterDeviceManager.step] at hmem
      rw [(interpreter_runFunctionImpl_dm execute o.dm o.heap id function context).1] at hmem
      exact hinv hb hmem

/-- C11, as stated, fails: on the empty Interpreter manager of capacity 1000 the
name `f` is unregistered and the weight 100 of `f` fits, but `f` carries the
backend name `CPU`; the four commands give four callbacks of which the first is
the is-not-an-InterpreterFunction error, the second and the third are
`RUNTIME_NET_NOT_FOUND` errors, not the successes of the claim. -/
theorem C11_counterexample_function_of_other_backend :
    callbacks (InterpreterDeviceManager.run InterpreterDeviceManager.executeOk
        ⟨InterpreterDeviceManager.empty 1000, [], []⟩
        [.addNetwork 0 [("f", ⟨1, BackendKind.CPU, "CPU", 100⟩)],
         .runFunction 1 "f" 7,
         .evictNetwork "f",
         .runFunction 2 "f" 8]).trace
      = [Effect.readyCB 0 (some (InterpreterDeviceManager.errNotInterpreterFunction "f")),
         Effect.resultCB 1 (some (InterpreterDeviceManager.errRunNotFound "f")) 7,
         Effect.evictCB "f" (some (InterpreterDeviceManager.errNotFound "f")),
         Effect.resultCB 2 (some (InterpreterDeviceManager.errRunNotFound "f")) 8] := by
  decide

/-- C11, amended: on the Interpreter manager, for every state in which the name is
unregistered, the function carries the Interpreter backend name and its weight
fits (`used + weight <= capacity`, the capacity a 64-bit value), processing the
addition of the one-function map, a run, the eviction and a second run gives
exactly four callbacks in that order: success of the addition, the first run
with the error returned by `execute` on that function and context, success of
the eviction, the second run with the `RUNTIME_NET_NOT_FOUND` error; and after
any commands in which the last successful addition of a name was followed by a
successful eviction of it, a run of that name only closes its trace scope and
delivers the `RUNTIME_NET_NOT_FOUND` error. -/
theorem C11_interpreter_ordering (execute : CompiledFunction → Nat → Error)
    (name : String) :
    (∀ (dm : InterpreterDeviceManager) (heap : ConstantsHeap) (f : CompiledFunction)
        (module id1 context1 id2 context2 : Nat),
      name ∉ keys dm.functions_ → f.compileBackendName = Interpreter.getName →
      dm.usedMemoryBytes_ + f.constantWeightSize ≤ dm.maxMemoryBytes_ →
      dm.maxMemoryBytes_ < two64 →
      callbacks (InterpreterDeviceManager.run execute ⟨dm, heap, []⟩
          [.addNetwork module [(name, f)],
           .runFunction id1 name context1,
           .evictNetwork name,
           .runFunction id2 name context2]).trace
        = [Effect.readyCB module Error.success,
           Effect.resultCB id1 (execute f context1) context1,
           Effect.evictCB name Error.success,
           Effect.resultCB id2 (some (InterpreterDeviceManager.errRunNotFound name)) context2]) ∧
    (∀ (o : Outcome InterpreterDeviceManager) (cmds : List InterpreterDeviceManager.Command)
        (heap : ConstantsHeap) (id context : Nat),
      InterpreterDeviceManager.evictedLast execute name o cmds false = true →
      InterpreterDeviceManager.runFunctionImpl execute
          (InterpreterDeviceManager.run execute o cmds).dm heap id name context
        = ⟨(InterpreterDeviceManager.run execute o cmds).dm, heap,
            [Effect.traceScope "DeviceManager::run",
             Effect.traceAddArg "reason" "function not found",
             Effect.traceScopeEnd,
             Effect.resultCB id (some (InterpreterDeviceManager.errRunNotFound name)) context]⟩) ∧
    (InterpreterDeviceManager.errRunNotFound name).code
      = some ErrorCode.RUNTIME_NET_NOT_FOUND := by
  refine ⟨?_, ?_, rfl⟩
  · intro dm heap f module id1 context1 id2 context2 hn hk hle hmax
    have hs := interpreter_addNetworkImpl_succeeds dm heap module [(name, f)]
      (by intro e he
          rw [List.mem_singleton.mp he]
          exact ⟨hn, hk⟩)
      (by simp only [InterpreterDeviceManager.weightSum, List.map_cons, List.map_nil,
            List.sum_cons, List.sum_nil, add64, two64] at hmax ⊢
          omega)
    obtain ⟨_, hA⟩ := interpreter_addNetworkImpl_single dm heap module name f hs
    have hcb : callbacks (InterpreterDeviceManager.addNetworkImpl dm heap module
        [(name, f)]).trace = [Effect.readyCB module Error.success] := by
      obtain ⟨err, h1, _⟩ := interpreter_addNetworkImpl_callbacks dm heap module [(name, f)]
      have h2 : Effect.readyCB module Error.success
          ∈ callbacks (InterpreterDeviceManager.addNetworkImpl dm heap module
            [(name, f)]).trace := by
        unfold callbacks
        exact List.mem_filter.mpr ⟨hs, rfl⟩
      rw [h1] at h2 ⊢
      rw [List.mem_singleton.mp h2]
    have hf1 : find (dm.functions_ ++ [(name, f)]) name = some f := by
      rw [find_append_right _ _ _ hn]; simp [find]
    have hf2 : find dm.functions_ name = none := (find_eq_none_iff _ _).mpr hn
    simp only [InterpreterDeviceManager.run, List.foldl, InterpreterDeviceManager.step, hA,
      InterpreterDeviceManager.runFunctionImpl, InterpreterDeviceManager.evictNetworkImpl, hf1,
      erase_append_singleton _ _ _ hn, hf2, callbacks_append, hcb, List.nil_append]
    simp [callbacks, Effect.isCallback]
  · intro o cmds heap id context h
    have hn := evictedLast_unregistered execute name cmds o false (by simp) h
    simp [InterpreterDeviceManager.runFunctionImpl, (find_eq_none_iff _ _).mpr hn]

/-- Witness of C11: `f` of weight 100 on the empty manager of capacity 1000. -/
theorem C11_interpreter_ordering_witness :
    callbacks (InterpreterDeviceManager.run InterpreterDeviceManager.executeOk
        ⟨InterpreterDeviceManager.empty 1000, [], []⟩
        [.addNetwork 0 [("f", ⟨1, BackendKind.Interpreter, "Interpreter", 100⟩)],
         .runFunction 1 "f" 7,
         .evictNetwork "f",
         .runFunction 2 "f" 8]).trace
      = [Effect.readyCB 0 Error.success,
         Effect.resultCB 1 (InterpreterDeviceManager.executeOk
           ⟨1, BackendKind.Interpreter, "Interpreter", 100⟩ 7) 7,
         Effect.evictCB "f" Error.success,
         Effect.resultCB 2 (some (InterpreterDeviceManager.errRunNotFound "f")) 8] ∧
    InterpreterDeviceManager.runFunctionImpl InterpreterDeviceManager.executeOk
        (InterpreterDeviceManager.run InterpreterDeviceManager.executeOk
          ⟨InterpreterDeviceManager.empty 1000, [], []⟩
          [.addNetwork 0 [("f", ⟨1, BackendKind.Interpreter, "Interpreter", 100⟩)],
           .evictNetwork "f",
           .addNetwork 0 [("g", ⟨2, BackendKind.Interpreter, "Interpreter", 100⟩)]]).dm
        [1, 2] 3 "f" 9
      = ⟨(InterpreterDeviceManager.run InterpreterDeviceManager.executeOk
          ⟨InterpreterDeviceManager.empty 1000, [], []⟩
          [.addNetwork 0 [("f", ⟨1, BackendKind.Interpreter, "Interpreter", 100⟩)],
           .evictNetwork "f",
           .addNetwork 0 [("g", ⟨2, BackendKind.Interpreter, "Interpreter", 100⟩)]]).dm,
          [1, 2],
          [Effect.traceScope "DeviceManager::run",
           Effect.traceAddArg "reason" "function not found",
           Effect.traceScopeEnd,
           Effect.resultCB 3 (some (InterpreterDeviceManager.errRunNotFound "f")) 9]⟩ :=
  ⟨(C11_interpreter_ordering InterpreterDeviceManager.executeOk "f").1
      (InterpreterDeviceManager.empty 1000) []
      ⟨1, BackendKind.Interpreter, "Interpreter", 100⟩ 0 1 7 2 8
      (by decide) (by decide) (by decide) (by decide),
   (C11_interpreter_ordering InterpreterDeviceManager.executeOk "f").2.1
      ⟨InterpreterDeviceManager.empty 1000, [], []⟩
      [.addNetwork 0 [("f", ⟨1, BackendKind.Interpreter, "Interpreter", 100⟩)],
       .evictNetwork "f",
       .addNetwork 0 [("g", ⟨2, BackendKind.Interpreter, "Interpreter", 100⟩)]]
      [1, 2] 3 9 (by decide)⟩

/-- C12: on the Interpreter manager, for every state, id, name and context,
`runFunctionImpl` leaves the manager and the heap as they were; when the name is
unregistered it opens and closes the trace scope and delivers the same id, the
`RUNTIME_NET_NOT_FOUND` error and the same context, and `execute` is not called;
when the name is registered it calls `execute` exactly once, on the function
registered under the name and with the supplied context, and delivers the same
id, the very error `execute` returned and the same context. -/
theorem C12_interpreter_runFunction (execute : CompiledFunction → Nat → Error)
    (dm : InterpreterDeviceManager) (heap : ConstantsHeap) (id : Nat) (name : String)
    (context : Nat) :
    (name ∉ keys dm.functions_ →
      InterpreterDeviceManager.runFunctionImpl execute dm heap id name context
        = ⟨dm, heap,
            [Effect.traceScope "DeviceManager::run",
             Effect.traceAddArg "reason" "function not found",
             Effect.traceScopeEnd,
             Effect.resultCB id (some (InterpreterDeviceManager.errRunNotFound name)) context]⟩ ∧
      (InterpreterDeviceManager.errRunNotFound name).code
        = some ErrorCode.RUNTIME_NET_NOT_FOUND ∧
      executeCalls
        (InterpreterDeviceManager.runFunctionImpl execute dm heap id name context).trace = []) ∧
    (∀ f, find dm.functions_ name = some f →
      InterpreterDeviceManager.runFunctionImpl execute dm heap id name context
        = ⟨dm, heap,
            [Effect.traceScope "DeviceManager::run",
             Effect.execute f context,
             Effect.traceScopeEnd,
             Effect.resultCB id (execute f context) context]⟩ ∧
      executeCalls
        (InterpreterDeviceManager.runFunctionImpl execute dm heap id name context).trace
        = [Effect.execute f context]) := by
  constructor
  · intro hn
    have hf : find dm.functions_ name = none := (find_eq_none_iff _ _).mpr hn
    simp [InterpreterDeviceManager.runFunctionImpl, hf, executeCalls, Effect.isExecute,
      InterpreterDeviceManager.errRunNotFound]
  · intro f hf
    simp [InterpreterDeviceManager.runFunctionImpl, hf, executeCalls, Effect.isExecute]

/-- Witness of C12: a run of the unregistered `ghost` and a run of the registered
`f` on a manager that holds `f`. -/
theorem C12_interpreter_runFunction_witness :
    InterpreterDeviceManager.runFunctionImpl InterpreterDeviceManager.executeOk
        ⟨[("f", ⟨1, BackendKind.Interpreter, "Interpreter", 100⟩)], 1000, 100⟩ [1] 4 "ghost" 9
      = ⟨⟨[("f", ⟨1, BackendKind.Interpreter, "Interpreter", 100⟩)], 1000, 100⟩, [1],
          [Effect.traceScope "DeviceManager::run",
           Effect.traceAddArg "reason" "function not found",
           Effect.traceScopeEnd,
           Effect.resultCB 4 (some (InterpreterDeviceManager.errRunNotFound "ghost")) 9]⟩ ∧
    InterpreterDeviceManager.runFunctionImpl InterpreterDeviceManager.executeOk
        ⟨[("f", ⟨1, BackendKind.Interpreter, "Interpreter", 100⟩)], 1000, 100⟩ [1] 5 "f" 9
      = ⟨⟨[("f", ⟨1, BackendKind.Interpreter, "Interpreter", 100⟩)], 1000, 100⟩, [1],
          [Effect.traceScope "DeviceManager::run",
           Effect.execute ⟨1, BackendKind.Interpreter, "Interpreter", 100⟩ 9,
           Effect.traceScopeEnd,
           Effect.resultCB 5 (InterpreterDeviceManager.executeOk
             ⟨1, BackendKind.Interpreter, "Interpreter", 100⟩ 9) 9]⟩ :=
  ⟨((C12_interpreter_runFunction InterpreterDeviceManager.executeOk
      ⟨[("f", ⟨1, BackendKind.Interpreter, "Interpreter", 100⟩)], 1000, 100⟩ [1] 4 "ghost" 9).1
      (by decide)).1,
   ((C12_interpreter_runFunction InterpreterDeviceManager.executeOk
      ⟨[("f", ⟨1, BackendKind.Interpreter, "Interpreter", 100⟩)], 1000, 100⟩ [1] 5 "f" 9).2
      ⟨1, BackendKind.Interpreter, "Interpreter", 100⟩ (by decide)).1⟩

theorem withAssertions_of_no_failed_assert (tr : List Effect)
    (h : Effect.assertion false ∉ tr) : withAssertions tr = tr := by
  induction tr with
  | nil => rfl
  | cons e rest ih =>
    have h1 : ¬ e = Effect.assertion false := fun h2 => h (by rw [h2]; exact List.mem_cons_self _ _)
    have h3 : Effect.assertion false ∉ rest := fun h2 => h (List.mem_cons_of_mem _ h2)
    simp [withAssertions, h1, ih h3]

theorem interpreter_addNetworkImpl_no_failed_assert (dm : InterpreterDeviceManager)
    (heap : ConstantsHeap) (module : Nat) (fs : FunctionMapTy) :
    Effect.assertion false ∉ (InterpreterDeviceManager.addNetworkImpl dm heap module fs).trace := by
  rcases InterpreterDeviceManager.addNetworkImpl_fail_or_ok dm heap module fs with
    ⟨err, h1, _⟩ | ⟨all, tr, _, _, _, h2, h3⟩
  · rw [h1]; simp
  · rw [h3]
    simp only [List.mem_append, not_or]
    refine ⟨?_, by simp⟩
    intro hmem
    obtain ⟨f, _, h4⟩ := h2 _ hmem
    cases h4

/-- C13, as stated, fails: `CPUDeviceManager::evictNetworkImpl` given a callback
that is not callable invokes no callback, for a registered name as for an
unregistered one; the result goes to `llvm::errs()`.  And at the input of C1
(capacity 500, cost 300, two CPU functions) the `assert` of line 85 of
`CPUDeviceManager::addNetworkImpl` is false, so that a build with assertions
enabled aborts there, before the ready callback. -/
theorem C13_counterexample_cpu_evict_without_callback :
    callbacks (CPUDeviceManager.evictNetworkImpl
        (CPUDeviceManager.reached 1000 100
          [.addNetwork 0 [("f", ⟨1, BackendKind.CPU, "CPU", 0⟩)]]) [1] "f" false).trace = [] ∧
    (CPUDeviceManager.evictNetworkImpl
        (CPUDeviceManager.reached 1000 100
          [.addNetwork 0 [("f", ⟨1, BackendKind.CPU, "CPU", 0⟩)]]) [1] "f" false).trace
      = [Effect.errsError Error.success] ∧
    callbacks (CPUDeviceManager.evictNetworkImpl (CPUDeviceManager.empty 1000 100) []
        "ghost" false).trace = [] ∧
    withAssertions (CPUDeviceManager.addNetworkImpl (CPUDeviceManager.empty 500 300) [] 0
        [("a", ⟨1, BackendKind.CPU, "CPU", 0⟩), ("b", ⟨2, BackendKind.CPU, "CPU", 0⟩)]).trace
      = [Effect.collectConstants ⟨1, BackendKind.CPU, "CPU", 0⟩ 0,
         Effect.collectConstants ⟨2, BackendKind.CPU, "CPU", 0⟩ 0,
         Effect.assertion false] ∧
    callbacks (withAssertions
      (CPUDeviceManager.addNetworkImpl (CPUDeviceManager.empty 500 300) [] 0
        [("a", ⟨1, BackendKind.CPU, "CPU", 0⟩),
         ("b", ⟨2, BackendKind.CPU, "CPU", 0⟩)]).trace) = [] := by
  decide

/-- C13, amended: with callable completion callbacks, in every state and for
every input, `runFunctionImpl` of both managers, `addNetworkImpl` and
`evictNetworkImpl` of the Interpreter manager, and `addNetworkImpl` of the CPU
manager on every path on which its `assert` is not false, invoke exactly one
completion callback, the one they were given, with the module, name, id and
context they were given, and no `assert` is false, so that builds with and
without assertions agree; `evictNetworkImpl` of the CPU manager does so when its
callback is callable and invokes no callback when it is not. -/
theorem C13_callback_exactly_once (heap : ConstantsHeap) :
    (∀ (dm : CPUDeviceManager) (module : Nat) (fs : FunctionMapTy),
      Effect.assertion false ∉ (CPUDeviceManager.addNetworkImpl dm heap module fs).trace →
      withAssertions (CPUDeviceManager.addNetworkImpl dm heap module fs).trace
        = (CPUDeviceManager.addNetworkImpl dm heap module fs).trace ∧
      ∃ err, callbacks (CPUDeviceManager.addNetworkImpl dm heap module fs).trace
        = [Effect.readyCB module err]) ∧
    (∀ (dm : CPUDeviceManager) (name : String) (evictCB : Bool),
      withAssertions (CPUDeviceManager.evictNetworkImpl dm heap name evictCB).trace
        = (CPUDeviceManager.evictNetworkImpl dm heap name evictCB).trace ∧
      ∃ err, callbacks (CPUDeviceManager.evictNetworkImpl dm heap name evictCB).trace
        = if evictCB then [Effect.evictCB name err] else []) ∧
    (∀ (dm : CPUDeviceManager) (id : Nat) (name : String) (context : Nat),
      withAssertions (CPUDeviceManager.runFunctionImpl dm heap id name context).trace
        = (CPUDeviceManager.runFunctionImpl dm heap id name context).trace ∧
      ∃ code, callbacks (CPUDeviceManager.runFunctionImpl dm heap id name context).trace
        = [Effect.resultCodeCB id code context]) ∧
    (∀ (dm : InterpreterDeviceManager) (module : Nat) (fs : FunctionMapTy),
      withAssertions (InterpreterDeviceManager.addNetworkImpl dm heap module fs).trace
        = (InterpreterDeviceManager.addNetworkImpl dm heap module fs).trace ∧
      ∃ err, callbacks (InterpreterDeviceManager.addNetworkImpl dm heap module fs).trace
        = [Effect.readyCB module err]) ∧
    (∀ (dm : InterpreterDeviceManager) (name : String),
      withAssertions (InterpreterDeviceManager.evictNetworkImpl dm heap name).trace
        = (InterpreterDeviceManager.evictNetworkImpl dm heap name).trace ∧
      ∃ err, callbacks (InterpreterDeviceManager.evictNetworkImpl dm heap name).trace
        = [Effect.evictCB name err]) ∧
    (∀ (execute : CompiledFunction → Nat → Error) (dm : InterpreterDeviceManager) (id : Nat)
        (name : String) (context : Nat),
      withAssertions
          (InterpreterDeviceManager.runFunctionImpl execute dm heap id name context).trace
        = (InterpreterDeviceManager.runFunctionImpl execute dm heap id name context).trace ∧
      ∃ err, callbacks
          (InterpreterDeviceManager.runFunctionImpl execute dm heap id name context).trace
        = [Effect.resultCB id err context]) := by
  refine ⟨?_, ?_, ?_, ?_, ?_, ?_⟩
  · intro dm module fs hassert
    obtain ⟨err, h, _⟩ := cpu_addNetworkImpl_callbacks dm heap module fs
    exact ⟨withAssertions_of_no_failed_assert _ hassert, err, h⟩
  · intro dm name evictCB
    refine ⟨withAssertions_of_no_failed_assert _ ?_,
      if count dm.functions_ name ≠ 0 then Error.success
      else some (CPUDeviceManager.errNotFound name), ?_⟩
    · cases evictCB <;> simp [CPUDeviceManager.evictNetworkImpl]
    · cases evictCB <;>
        simp [CPUDeviceManager.evictNetworkImpl, callbacks, Effect.isCallback]
  · intro dm id name context
    unfold CPUDeviceManager.runFunctionImpl
    cases find dm.functions_ name with
    | none =>
      exact ⟨withAssertions_of_no_failed_assert _ (by simp), ResultCode.Failed,
        by simp [callbacks, Effect.isCallback]⟩
    | some f =>
      exact ⟨withAssertions_of_no_failed_assert _ (by simp), ResultCode.Executed,
        by simp [callbacks, Effect.isCallback]⟩
  · intro dm module fs
    obtain ⟨err, h, _⟩ := interpreter_addNetworkImpl_callbacks dm heap module fs
    exact ⟨withAssertions_of_no_failed_assert _
      (interpreter_addNetworkImpl_no_failed_assert dm heap module fs), err, h⟩
  · intro dm name
    unfold InterpreterDeviceManager.evictNetworkImpl
    cases find dm.functions_ name with
    | none =>
      exact ⟨withAssertions_of_no_failed_assert _ (by simp),
        some (InterpreterDeviceManager.errNotFound name),
        by simp [callbacks, Effect.isCallback]⟩
    | some f =>
      exact ⟨withAssertions_of_no_failed_assert _ (by simp), Error.success,
        by simp [callbacks, Effect.isCallback]⟩
  · intro execute dm id name context
    unfold InterpreterDeviceManager.runFunctionImpl
    cases find dm.functions_ name with
    | none =>
      exact ⟨withAssertions_of_no_failed_assert _ (by simp),
        some (InterpreterDeviceManager.errRunNotFound name),
        by simp [callbacks, Effect.isCallback]⟩
    | some f =>
      exact ⟨withAssertions_of_no_failed_assert _ (by simp), execute f context,
        by simp [callbacks, Effect.isCallback]⟩

/-- Witness of C13: the CPU function `f` of cost 100 added to the empty manager of
capacity 1000, where the `assert` holds and the ready callback is invoked once,
with success. -/
theorem C13_callback_exactly_once_witness :
    withAssertions (CPUDeviceManager.addNetworkImpl (CPUDeviceManager.empty 1000 100) [] 0
        [("f", ⟨1, BackendKind.CPU, "CPU", 0⟩)]).trace
      = (CPUDeviceManager.addNetworkImpl (CPUDeviceManager.empty 1000 100) [] 0
        [("f", ⟨1, BackendKind.CPU, "CPU", 0⟩)]).trace ∧
    callbacks (CPUDeviceManager.addNetworkImpl (CPUDeviceManager.empty 1000 100) [] 0
        [("f", ⟨1, BackendKind.CPU, "CPU", 0⟩)]).trace
      = [Effect.readyCB 0 Error.success] :=
  ⟨((C13_callback_exactly_once []).1 (CPUDeviceManager.empty 1000 100) 0
      [("f", ⟨1, BackendKind.CPU, "CPU", 0⟩)] (by decide)).1,
   by decide⟩

/-- C14: for every config and every 32-bit value `k` of the option
`interpreter-memory`, `createInterpreterDeviceManager` constructs the manager,
when `k` is not zero, from a copy of the config whose device memory is
`k * 1024`, a product below `2^64` that the 64-bit multiplication gives exactly,
and otherwise from the config itself; the config of the caller is as before; with
the constructor of the spec, the maximum memory of the manager is `k * 1024`
resp. the device memory of the config. -/
theorem C14_createInterpreterDeviceManager (construct : DeviceConfig → InterpreterDeviceManager)
    (k : Nat) (config : DeviceConfig) (hk : k < 2 ^ 32) :
    (k ≠ 0 →
      (createInterpreterDeviceManager construct k config).1
        = construct ⟨k * 1024, config.backendName, config.parameters⟩ ∧
      k * 1024 < two64 ∧
      (createInterpreterDeviceManager InterpreterDeviceManager.construct k
        config).1.getMaximumMemory = k * 1024) ∧
    (k = 0 →
      (createInterpreterDeviceManager construct k config).1 = construct config ∧
      (createInterpreterDeviceManager InterpreterDeviceManager.construct k
        config).1.getMaximumMemory = config.deviceMemory) ∧
    (createInterpreterDeviceManager construct k config).2 = config := by
  have hlt : k * 1024 < two64 := by unfold two64; omega
  refine ⟨?_, ?_, ?_⟩
  · intro h0
    simp [createInterpreterDeviceManager, h0, DeviceConfig.setDeviceMemory,
      Nat.mod_eq_of_lt hlt, hlt, InterpreterDeviceManager.construct,
      InterpreterDeviceManager.getMaximumMemory]
  · intro h0
    simp [createInterpreterDeviceManager, h0, InterpreterDeviceManager.construct,
      InterpreterDeviceManager.getMaximumMemory]
  · unfold createInterpreterDeviceManager
    by_cases h0 : k ≠ 0
    · rw [if_pos h0]
    · rw [if_neg h0]

/-- Witness of C14: the largest option value, `2^32 - 1` kilobytes, and the option
left at zero, with a config of 2000 bytes. -/
theorem C14_createInterpreterDeviceManager_witness :
    (createInterpreterDeviceManager InterpreterDeviceManager.construct 4294967295
        ⟨2000, "Interpreter", []⟩).1.getMaximumMemory = 4294967295 * 1024 ∧
    (createInterpreterDeviceManager InterpreterDeviceManager.construct 0
        ⟨2000, "Interpreter", []⟩).1.getMaximumMemory
      = (DeviceConfig.mk 2000 "Interpreter" []).deviceMemory :=
  ⟨((C14_createInterpreterDeviceManager InterpreterDeviceManager.construct 4294967295
      ⟨2000, "Interpreter", []⟩ (by decide)).1 (by decide)).2.2,
   ((C14_createInterpreterDeviceManager InterpreterDeviceManager.construct 0
      ⟨2000, "Interpreter", []⟩ (by decide)).2.1 rfl).2⟩

/-! ## Events of the Interpreter manager -/

theorem effectsOf_append (a b : List InterpreterDeviceManager.Event) :
    InterpreterDeviceManager.effectsOf (a ++ b)
      = InterpreterDeviceManager.effectsOf a ++ InterpreterDeviceManager.effectsOf b := by
  simp [InterpreterDeviceManager.effectsOf, List.filterMap_append]

theorem addFunctions_heap_trace_events (module : Nat) (fs : FunctionMapTy)
    (o : Outcome InterpreterDeviceManager) :
    (InterpreterDeviceManager.addFunctions module fs o).trace
      = o.trace ++ InterpreterDeviceManager.effectsOf
          (InterpreterDeviceManager.addFunctionsEvents module fs o.heap) := by
  induction fs generalizing o with
  | nil => simp [InterpreterDeviceManager.addFunctions, InterpreterDeviceManager.addFunctionsEvents,
      InterpreterDeviceManager.effectsOf]
  | cons e rest ih =>
    obtain ⟨k, g⟩ := e
    by_cases hu : g.addr ∉ o.heap
    · simp [InterpreterDeviceManager.addFunctions, InterpreterDeviceManager.addFunctionsEvents,
        ih, InterpreterDeviceManager.addFunction, hu, InterpreterDeviceManager.effectsOf,
        InterpreterDeviceManager.Event.effect?]
    · simp [InterpreterDeviceManager.addFunctions, InterpreterDeviceManager.addFunctionsEvents,
        ih, InterpreterDeviceManager.addFunction, hu, InterpreterDeviceManager.effectsOf,
        InterpreterDeviceManager.Event.effect?]

theorem apply_addFunctionsEvents (module : Nat) (fs : FunctionMapTy) (heap : ConstantsHeap)
    (dm : InterpreterDeviceManager) :
    (InterpreterDeviceManager.addFunctionsEvents module fs heap).foldl
        InterpreterDeviceManager.Event.apply dm
      = { dm with functions_ := fs.foldl (fun acc e => emplace acc e.1 e.2) dm.functions_ } := by
  induction fs generalizing heap dm with
  | nil => simp [InterpreterDeviceManager.addFunctionsEvents]
  | cons e rest ih =>
    obtain ⟨k, g⟩ := e
    by_cases hu : g.addr ∉ heap
    · simp [InterpreterDeviceManager.addFunctionsEvents, hu, ih,
        InterpreterDeviceManager.Event.apply]
    · simp [InterpreterDeviceManager.addFunctionsEvents, hu, ih,
        InterpreterDeviceManager.Event.apply]

theorem addFunctionsEvents_no_callback (module : Nat) (fs : FunctionMapTy)
    (heap : ConstantsHeap) :
    ∀ e ∈ InterpreterDeviceManager.addFunctionsEvents module fs heap, e.isCallback = false := by
  induction fs generalizing heap with
  | nil => simp [InterpreterDeviceManager.addFunctionsEvents]
  | cons e rest ih =>
    obtain ⟨k, g⟩ := e
    by_cases hu : g.addr ∉ heap
    · intro ev hev
      simp only [InterpreterDeviceManager.addFunctionsEvents, hu, not_false_eq_true, if_true,
        List.mem_cons] at hev
      rcases hev with h | h | h
      · rw [h]; rfl
      · rw [h]; rfl
      · exact ih _ ev h
    · intro ev hev
      simp only [InterpreterDeviceManager.addFunctionsEvents, hu, if_false,
        List.mem_cons] at hev
      rcases hev with h | h
      · rw [h]; rfl
      · exact ih _ ev h

/-- C15: on the Interpreter manager, the statements of `addNetworkImpl`,
`evictNetworkImpl` and `runFunctionImpl`, taken in order as events (writes to
`functions_` and `usedMemoryBytes_`, and calls that leave the manager), give the
effects and the final manager of these functions, and on every path they are
some events none of which is a callback, followed by the completion callback as
the last event: every write, the export of the memory counters and, for a run
on both of its paths, the end of the trace scope come before the callback, and
nothing comes after it. -/
theorem C15_interpreter_callback_last (execute : CompiledFunction → Nat → Error)
    (dm : InterpreterDeviceManager) (heap : ConstantsHeap) :
    (∀ (module : Nat) (fs : FunctionMapTy),
      InterpreterDeviceManager.effectsOf
          (InterpreterDeviceManager.addNetworkImplEvents dm heap module fs)
        = (InterpreterDeviceManager.addNetworkImpl dm heap module fs).trace ∧
      (InterpreterDeviceManager.addNetworkImplEvents dm heap module fs).foldl
          InterpreterDeviceManager.Event.apply dm
        = (InterpreterDeviceManager.addNetworkImpl dm heap module fs).dm ∧
      ∃ pre err,
        InterpreterDeviceManager.addNetworkImplEvents dm heap module fs
          = pre ++ [InterpreterDeviceManager.Event.effect (Effect.readyCB module err)] ∧
        ∀ e ∈ pre, e.isCallback = false) ∧
    (∀ name : String,
      InterpreterDeviceManager.effectsOf (InterpreterDeviceManager.evictNetworkImplEvents dm name)
        = (InterpreterDeviceManager.evictNetworkImpl dm heap name).trace ∧
      (InterpreterDeviceManager.evictNetworkImplEvents dm name).foldl
          InterpreterDeviceManager.Event.apply dm
        = (InterpreterDeviceManager.evictNetworkImpl dm heap name).dm ∧
      ∃ pre err,
        InterpreterDeviceManager.evictNetworkImplEvents dm name
          = pre ++ [InterpreterDeviceManager.Event.effect (Effect.evictCB name err)] ∧
        ∀ e ∈ pre, e.isCallback = false) ∧
    (∀ (id : Nat) (name : String) (context : Nat),
      InterpreterDeviceManager.effectsOf
          (InterpreterDeviceManager.runFunctionImplEvents execute dm id name context)
        = (InterpreterDeviceManager.runFunctionImpl execute dm heap id name context).trace ∧
      (InterpreterDeviceManager.runFunctionImplEvents execute dm id name context).foldl
          InterpreterDeviceManager.Event.apply dm
        = (InterpreterDeviceManager.runFunctionImpl execute dm heap id name context).dm ∧
      ∃ pre err,
        InterpreterDeviceManager.runFunctionImplEvents execute dm id name context
          = pre ++ [InterpreterDeviceManager.Event.effect (Effect.resultCB id err context)] ∧
        (∀ e ∈ pre, e.isCallback = false) ∧
        InterpreterDeviceManager.Event.effect Effect.traceScopeEnd ∈ pre) := by
  refine ⟨?_, ?_, ?_⟩
  · intro module fs
    unfold InterpreterDeviceManager.addNetworkImplEvents InterpreterDeviceManager.addNetworkImpl
    cases hc : InterpreterDeviceManager.checkFunctions dm fs 0 with
    | error err =>
      refine ⟨by simp [InterpreterDeviceManager.effectsOf, InterpreterDeviceManager.Event.effect?],
        by simp [InterpreterDeviceManager.Event.apply], [], some err, by simp, by simp⟩
    | ok all =>
      by_cases hgt : add64 dm.usedMemoryBytes_ all > dm.maxMemoryBytes_
      · simp only [hgt, if_true]
        refine ⟨by simp [InterpreterDeviceManager.effectsOf,
            InterpreterDeviceManager.Event.effect?],
          by simp [InterpreterDeviceManager.Event.apply], [], some errNotEnoughMemory,
          by simp, by simp⟩
      · simp only [hgt, if_false]
        refine ⟨?_, ?_, ?_⟩
        · rw [effectsOf_append, addFunctions_heap_trace_events]
          simp [InterpreterDeviceManager.effectsOf, InterpreterDeviceManager.Event.effect?,
            InterpreterDeviceManager.addFunctions_dm]
        · rw [List.foldl_append, apply_addFunctionsEvents]
          simp [InterpreterDeviceManager.Event.apply, InterpreterDeviceManager.addFunctions_dm]
        · refine ⟨InterpreterDeviceManager.addFunctionsEvents module fs heap ++
              [InterpreterDeviceManager.Event.setUsed (add64 dm.usedMemoryBytes_ all),
               InterpreterDeviceManager.Event.effect (Effect.assertion
                 (decide (add64 dm.usedMemoryBytes_ all ≤ dm.maxMemoryBytes_))),
               InterpreterDeviceManager.Event.effect (Effect.exportMemoryCounters
                 (add64 dm.usedMemoryBytes_ all))],
            Error.success, by simp, ?_⟩
          intro e he
          rcases List.mem_append.mp he with h | h
          · exact addFunctionsEvents_no_callback module fs heap e h
          · simp only [List.mem_cons, List.mem_singleton, List.not_mem_nil, or_false] at h
            rcases h with h | h | h <;> (rw [h]; rfl)
  · intro name
    unfold InterpreterDeviceManager.evictNetworkImplEvents InterpreterDeviceManager.evictNetworkImpl
    cases hf : find dm.functions_ name with
    | none =>
      refine ⟨by simp [InterpreterDeviceManager.effectsOf, InterpreterDeviceManager.Event.effect?],
        by simp [InterpreterDeviceManager.Event.apply], [],
        some (InterpreterDeviceManager.errNotFound name), by simp, by simp⟩
    | some f =>
      refine ⟨by simp [InterpreterDeviceManager.effectsOf, InterpreterDeviceManager.Event.effect?],
        by simp [InterpreterDeviceManager.Event.apply],
        [InterpreterDeviceManager.Event.setUsed (sub64 dm.usedMemoryBytes_ f.constantWeightSize),
         InterpreterDeviceManager.Event.erase name,
         InterpreterDeviceManager.Event.effect
           (Effect.exportMemoryCounters (sub64 dm.usedMemoryBytes_ f.constantWeightSize))],
        Error.success, by simp, ?_⟩
      intro e he
      simp only [List.mem_cons, List.mem_singleton, List.not_mem_nil, or_false] at he
      rcases he with h | h | h <;> (rw [h]; rfl)
  · intro id name context
    unfold InterpreterDeviceManager.runFunctionImplEvents InterpreterDeviceManager.runFunctionImpl
    cases hf : find dm.functions_ name with
    | none =>
      refine ⟨by simp [InterpreterDeviceManager.effectsOf, InterpreterDeviceManager.Event.effect?],
        by simp [InterpreterDeviceManager.Event.apply],
        [InterpreterDeviceManager.Event.effect (Effect.traceScope "DeviceManager::run"),
         InterpreterDeviceManager.Event.effect (Effect.traceAddArg "reason" "function not found"),
         InterpreterDeviceManager.Event.effect Effect.traceScopeEnd],
        some (InterpreterDeviceManager.errRunNotFound name), by simp, ?_, by simp⟩
      intro e he
      simp only [List.mem_cons, List.mem_singleton, List.not_mem_nil, or_false] at he
      rcases he with h | h | h <;> (rw [h]; rfl)
    | some f =>
      refine ⟨by simp [InterpreterDeviceManager.effectsOf, InterpreterDeviceManager.Event.effect?],
        by simp [InterpreterDeviceManager.Event.apply],
        [InterpreterDeviceManager.Event.effect (Effect.traceScope "DeviceManager::run"),
         InterpreterDeviceManager.Event.effect (Effect.execute f context),
         InterpreterDeviceManager.Event.effect Effect.traceScopeEnd],
        execute f context, by simp, ?_, by simp⟩
      intro e he
      simp only [List.mem_cons, List.mem_singleton, List.not_mem_nil, or_false] at he
      rcases he with h | h | h <;> (rw [h]; rfl)

/-! ## Resolution of constants -/

theorem collectCalls_append (a b : List Effect) (addr : Nat) :
    collectCalls (a ++ b) addr = collectCalls a addr + collectCalls b addr := by
  simp [collectCalls]

theorem interpreter_addFunctions_collect (module : Nat) (fs : FunctionMapTy)
    (o : Outcome InterpreterDeviceManager) (a : Nat) :
    collectCalls (InterpreterDeviceManager.addFunctions module fs o).trace a
        = collectCalls o.trace a + (if a ∈ addrs fs ∧ a ∉ o.heap then 1 else 0) ∧
    (∀ b, b ∈ (InterpreterDeviceManager.addFunctions module fs o).heap ↔ b ∈ o.heap ∨ b ∈ addrs fs) := by
  induction fs generalizing o with
  | nil => simp [InterpreterDeviceManager.addFunctions, addrs]
  | cons e rest ih =>
    obtain ⟨k, g⟩ := e
    obtain ⟨ih1, ih2⟩ := ih (InterpreterDeviceManager.addFunction module o k g)
    rw [InterpreterDeviceManager.addFunctions, ih1]
    by_cases hu : g.addr ∉ o.heap
    · have hheap : (InterpreterDeviceManager.addFunction module o k g).heap = g.addr :: o.heap := by
        simp [InterpreterDeviceManager.addFunction, hu, collectConstants]
      have htrace : collectCalls (InterpreterDeviceManager.addFunction module o k g).trace a
          = collectCalls o.trace a + (if g.addr = a then 1 else 0) := by
        simp only [InterpreterDeviceManager.addFunction, hu, not_false_eq_true, decide_True, if_true, collectCalls,
          List.filter_append, List.length_append]
        by_cases hga : g.addr = a <;> simp [Effect.isCollectConstantsOn, hga]
      refine ⟨?_, ?_⟩
      · rw [htrace, hheap]
        by_cases hga : g.addr = a
        · subst hga
          simp [addrs, hu]
        · have hag : ¬ a = g.addr := fun h => hga h.symm
          have hiff : (a ∈ addrs rest ∧ a ∉ g.addr :: o.heap)
              ↔ (a ∈ addrs ((k, g) :: rest) ∧ a ∉ o.heap) := by
            simp [addrs, hag]
          simp only [hga, if_false, Nat.add_zero, hiff]
      · intro b
        rw [ih2 b, hheap]
        simp only [addrs, List.map_cons, List.mem_cons]
        tauto
    · have hin : g.addr ∈ o.heap := not_not.mp hu
      have hheap : (InterpreterDeviceManager.addFunction module o k g).heap = o.heap := by
        simp [InterpreterDeviceManager.addFunction, hin]
      have htrace : (InterpreterDeviceManager.addFunction module o k g).trace = o.trace := by
        simp [InterpreterDeviceManager.addFunction, hin]
      refine ⟨?_, ?_⟩
      · rw [htrace, hheap]
        by_cases hga : a = g.addr
        · subst hga
          simp [hin]
        · have hiff : (a ∈ addrs rest ∧ a ∉ o.heap)
              ↔ (a ∈ addrs ((k, g) :: rest) ∧ a ∉ o.heap) := by
            simp [addrs, hga]
          simp only [hiff]
      · intro b
        rw [ih2 b, hheap]
        simp only [addrs, List.map_cons, List.mem_cons]
        constructor
        · rintro (h | h)
          · exact Or.inl h
          · exact Or.inr (Or.inr h)
        · rintro (h | h | h)
          · exact Or.inl h
          · exact Or.inl (by rw [h]; exact hin)
          · exact Or.inr h

theorem cpu_addFunctions_collect (module : Nat) (fs : FunctionMapTy)
    (o : Outcome CPUDeviceManager) (a : Nat) :
    collectCalls (CPUDeviceManager.addFunctions module fs o).trace a
        = collectCalls o.trace a + (if a ∈ addrs fs ∧ a ∉ o.heap then 1 else 0) ∧
    (∀ b, b ∈ (CPUDeviceManager.addFunctions module fs o).heap ↔ b ∈ o.heap ∨ b ∈ addrs fs) := by
  induction fs generalizing o with
  | nil => simp [CPUDeviceManager.addFunctions, addrs]
  | cons e rest ih =>
    obtain ⟨k, g⟩ := e
    obtain ⟨ih1, ih2⟩ := ih (CPUDeviceManager.addFunction module o k g)
    rw [CPUDeviceManager.addFunctions, ih1]
    by_cases hu : g.addr ∉ o.heap
    · have hheap : (CPUDeviceManager.addFunction module o k g).heap = g.addr :: o.heap := by
        simp [CPUDeviceManager.addFunction, hu, collectConstants]
      have htrace : collectCalls (CPUDeviceManager.addFunction module o k g).trace a
          = collectCalls o.trace a + (if g.addr = a then 1 else 0) := by
        simp only [CPUDeviceManager.addFunction, hu, not_false_eq_true, decide_True, if_true, collectCalls,
          List.filter_append, List.length_append]
        by_cases hga : g.addr = a <;> simp [Effect.isCollectConstantsOn, hga]
      refine ⟨?_, ?_⟩
      · rw [htrace, hheap]
        by_cases hga : g.addr = a
        · subst hga
          simp [addrs, hu]
        · have hag : ¬ a = g.addr := fun h => hga h.symm
          have hiff : (a ∈ addrs rest ∧ a ∉ g.addr :: o.heap)
              ↔ (a ∈ addrs ((k, g) :: rest) ∧ a ∉ o.heap) := by
            simp [addrs, hag]
          simp only [hga, if_false, Nat.add_zero, hiff]
      · intro b
        rw [ih2 b, hheap]
        simp only [addrs, List.map_cons, List.mem_cons]
        tauto
    · have hin : g.addr ∈ o.heap := not_not.mp hu
      have hheap : (CPUDeviceManager.addFunction module o k g).heap = o.heap := by
        simp [CPUDeviceManager.addFunction, hin]
      have htrace : (CPUDeviceManager.addFunction module o k g).trace = o.trace := by
        simp [CPUDeviceManager.addFunction, hin]
      refine ⟨?_, ?_⟩
      · rw [htrace, hheap]
        by_cases hga : a = g.addr
        · subst hga
          simp [hin]
        · have hiff : (a ∈ addrs rest ∧ a ∉ o.heap)
              ↔ (a ∈ addrs ((k, g) :: rest) ∧ a ∉ o.heap) := by
            simp [addrs, hga]
          simp only [hiff]
      · intro b
        rw [ih2 b, hheap]
        simp only [addrs, List.map_cons, List.mem_cons]
        constructor
        · rintro (h | h)
          · exact Or.inl h
          · exact Or.inr (Or.inr h)
        · rintro (h | h | h)
          · exact Or.inl h
          · exact Or.inl (by rw [h]; exact hin)
          · exact Or.inr h

/-- The calls of `collectConstants` made by `addNetworkImpl` and the heap it
leaves. -/
theorem interpreter_addNetworkImpl_collectCalls (dm : InterpreterDeviceManager)
    (heap : ConstantsHeap) (module : Nat) (fs : FunctionMapTy) (a : Nat) :
    collectCalls (InterpreterDeviceManager.addNetworkImpl dm heap module fs).trace a
        = (if Effect.readyCB module Error.success
              ∈ (InterpreterDeviceManager.addNetworkImpl dm heap module fs).trace
            ∧ a ∈ addrs fs ∧ a ∉ heap then 1 else 0) ∧
    (a ∈ (InterpreterDeviceManager.addNetworkImpl dm heap module fs).heap ↔
      a ∈ heap ∨ (Effect.readyCB module Error.success
          ∈ (InterpreterDeviceManager.addNetworkImpl dm heap module fs).trace ∧ a ∈ addrs fs)) := by
  unfold InterpreterDeviceManager.addNetworkImpl
  cases hc : InterpreterDeviceManager.checkFunctions dm fs 0 with
  | error err => simp [collectCalls, Effect.isCollectConstantsOn, Error.success]
  | ok all =>
    by_cases hgt : add64 dm.usedMemoryBytes_ all > dm.maxMemoryBytes_
    · simp [hgt, collectCalls, Effect.isCollectConstantsOn, Error.success]
    · obtain ⟨h1, h2⟩ := interpreter_addFunctions_collect module fs ⟨dm, heap, []⟩ a
      simp only [hgt, if_false]
      rw [collectCalls_append, h1, h2 a]
      simp [collectCalls, Effect.isCollectConstantsOn]

/-- The calls of `collectConstants` made by `addNetworkImpl` and the heap it
leaves. -/
theorem cpu_addNetworkImpl_collectCalls (dm : CPUDeviceManager)
    (heap : ConstantsHeap) (module : Nat) (fs : FunctionMapTy) (a : Nat) :
    collectCalls (CPUDeviceManager.addNetworkImpl dm heap module fs).trace a
        = (if Effect.readyCB module Error.success
              ∈ (CPUDeviceManager.addNetworkImpl dm heap module fs).trace
            ∧ a ∈ addrs fs ∧ a ∉ heap then 1 else 0) ∧
    (a ∈ (CPUDeviceManager.addNetworkImpl dm heap module fs).heap ↔
      a ∈ heap ∨ (Effect.readyCB module Error.success
          ∈ (CPUDeviceManager.addNetworkImpl dm heap module fs).trace ∧ a ∈ addrs fs)) := by
  unfold CPUDeviceManager.addNetworkImpl
  cases hc : CPUDeviceManager.checkFunctions dm fs with
  | some err => simp [collectCalls, Effect.isCollectConstantsOn, Error.success]
  | none =>
    by_cases hgt : add64 dm.usedMemoryBytes_ dm.functionCost_ > dm.maxMemoryBytes_
    · simp [hgt, collectCalls, Effect.isCollectConstantsOn, Error.success]
    · obtain ⟨h1, h2⟩ := cpu_addFunctions_collect module fs ⟨dm, heap, []⟩ a
      simp only [hgt, if_false]
      rw [collectCalls_append, h1, h2 a]
      simp [collectCalls, Effect.isCollectConstantsOn]

theorem interpreter_run_heap_mono (execute : CompiledFunction → Nat → Error)
    (cmds : List InterpreterDeviceManager.Command) (o : Outcome InterpreterDeviceManager)
    (a : Nat) (h : a ∈ o.heap) : a ∈ (InterpreterDeviceManager.run execute o cmds).heap := by
  induction cmds generalizing o with
  | nil => exact h
  | cons c cs ih =>
    refine ih (InterpreterDeviceManager.step execute o c) ?_
    cases c with
    | addNetwork module fs =>
      exact ((interpreter_addNetworkImpl_collectCalls o.dm o.heap module fs a).2).mpr (Or.inl h)
    | evictNetwork name =>
      simp only [InterpreterDeviceManager.step, InterpreterDeviceManager.evictNetworkImpl]
      cases find o.dm.functions_ name <;> exact h
    | runFunction id function context =>
      simp only [InterpreterDeviceManager.step]
      rw [(interpreter_runFunctionImpl_dm execute o.dm o.heap id function context).2]
      exact h

theorem cpu_run_heap_mono (cmds : List CPUDeviceManager.Command) (o : Outcome CPUDeviceManager)
    (a : Nat) (h : a ∈ o.heap) : a ∈ (CPUDeviceManager.run o cmds).heap := by
  induction cmds generalizing o with
  | nil => exact h
  | cons c cs ih =>
    refine ih (CPUDeviceManager.step o c) ?_
    cases c with
    | addNetwork module fs =>
      exact ((cpu_addNetworkImpl_collectCalls o.dm o.heap module fs a).2).mpr (Or.inl h)
    | evictNetwork name evictCB => exact h
    | runFunction id function context =>
      simp only [CPUDeviceManager.step, CPUDeviceManager.runFunctionImpl]
      cases find o.dm.functions_ function <;> exact h

/-- C16: on both managers, with `collectConstants` leaving the runtime bundle of
its function with constants, a successful `addNetworkImpl` calls
`collectConstants` exactly once on each function of the map whose runtime bundle
has no constants and not at all on any other function, always with the module it
was given; afterwards every function of the map has constants, so that, whatever
commands are processed in between, a later `addNetworkImpl` calls
`collectConstants` on none of them. -/
theorem C16_constants_resolved_once (heap : ConstantsHeap) (module : Nat) (fs : FunctionMapTy) :
    (∀ dm : CPUDeviceManager,
      Effect.readyCB module Error.success
        ∈ (CPUDeviceManager.addNetworkImpl dm heap module fs).trace →
      (∀ a, collectCalls (CPUDeviceManager.addNetworkImpl dm heap module fs).trace a
        = if a ∈ addrs fs ∧ a ∉ heap then 1 else 0) ∧
      (∀ e ∈ (CPUDeviceManager.addNetworkImpl dm heap module fs).trace, ∀ g m,
        e = Effect.collectConstants g m → m = module ∧ ∃ k, (k, g) ∈ fs) ∧
      (∀ (cmds : List CPUDeviceManager.Command) (module2 : Nat) (fs2 : FunctionMapTy),
        ∀ a ∈ addrs fs,
        collectCalls (CPUDeviceManager.addNetworkImpl
          (CPUDeviceManager.run
            ⟨(CPUDeviceManager.addNetworkImpl dm heap module fs).dm,
             (CPUDeviceManager.addNetworkImpl dm heap module fs).heap, []⟩ cmds).dm
          (CPUDeviceManager.run
            ⟨(CPUDeviceManager.addNetworkImpl dm heap module fs).dm,
             (CPUDeviceManager.addNetworkImpl dm heap module fs).heap, []⟩ cmds).heap
          module2 fs2).trace a = 0)) ∧
    (∀ dm : InterpreterDeviceManager,
      Effect.readyCB module Error.success
        ∈ (InterpreterDeviceManager.addNetworkImpl dm heap module fs).trace →
      (∀ a, collectCalls (InterpreterDeviceManager.addNetworkImpl dm heap module fs).trace a
        = if a ∈ addrs fs ∧ a ∉ heap then 1 else 0) ∧
      (∀ e ∈ (InterpreterDeviceManager.addNetworkImpl dm heap module fs).trace, ∀ g m,
        e = Effect.collectConstants g m → m = module ∧ ∃ k, (k, g) ∈ fs) ∧
      (∀ (execute : CompiledFunction → Nat → Error)
        (cmds : List InterpreterDeviceManager.Command) (module2 : Nat) (fs2 : FunctionMapTy),
        ∀ a ∈ addrs fs,
        collectCalls (InterpreterDeviceManager.addNetworkImpl
          (InterpreterDeviceManager.run execute
            ⟨(InterpreterDeviceManager.addNetworkImpl dm heap module fs).dm,
             (InterpreterDeviceManager.addNetworkImpl dm heap module fs).heap, []⟩ cmds).dm
          (InterpreterDeviceManager.run execute
            ⟨(InterpreterDeviceManager.addNetworkImpl dm heap module fs).dm,
             (InterpreterDeviceManager.addNetworkImpl dm heap module fs).heap, []⟩ cmds).heap
          module2 fs2).trace a = 0)) := by
  constructor
  · intro dm hs
    refine ⟨?_, ?_, ?_⟩
    · intro a
      rw [(cpu_addNetworkImpl_collectCalls dm heap module fs a).1]
      simp [hs]
    · intro e he g m heq
      rcases CPUDeviceManager.cpu_addNetworkImpl_fail_or_ok dm heap module fs with
        ⟨err, h1, _⟩ | ⟨tr, _, _, _, h2, h3⟩
      · rw [h1, heq] at he
        simp at he
      · rw [h3, heq] at he
        rcases List.mem_append.mp he with h4 | h4
        · obtain ⟨f, hf, h5⟩ := h2 _ h4
          cases h5
          exact ⟨rfl, hf⟩
        · simp at h4
    · intro cmds module2 fs2 a ha
      have h1 : a ∈ (CPUDeviceManager.addNetworkImpl dm heap module fs).heap :=
        ((cpu_addNetworkImpl_collectCalls dm heap module fs a).2).mpr (Or.inr ⟨hs, ha⟩)
      have h2 := cpu_run_heap_mono cmds
        ⟨(CPUDeviceManager.addNetworkImpl dm heap module fs).dm,
         (CPUDeviceManager.addNetworkImpl dm heap module fs).heap, []⟩ a h1
      rw [(cpu_addNetworkImpl_collectCalls _ _ module2 fs2 a).1]
      simp [h2]
  · intro dm hs
    refine ⟨?_, ?_, ?_⟩
    · intro a
      rw [(interpreter_addNetworkImpl_collectCalls dm heap module fs a).1]
      simp [hs]
    · intro e he g m heq
      rcases InterpreterDeviceManager.addNetworkImpl_fail_or_ok dm heap module fs with
        ⟨err, h1, _⟩ | ⟨all, tr, _, _, _, h2, h3⟩
      · rw [h1, heq] at he
        simp at he
      · rw [h3, heq] at he
        rcases List.mem_append.mp he with h4 | h4
        · obtain ⟨f, hf, h5⟩ := h2 _ h4
          cases h5
          exact ⟨rfl, hf⟩
        · simp at h4
    · intro execute cmds module2 fs2 a ha
      have h1 : a ∈ (InterpreterDeviceManager.addNetworkImpl dm heap module fs).heap :=
        ((interpreter_addNetworkImpl_collectCalls dm heap module fs a).2).mpr (Or.inr ⟨hs, ha⟩)
      have h2 := interpreter_run_heap_mono execute cmds
        ⟨(InterpreterDeviceManager.addNetworkImpl dm heap module fs).dm,
         (InterpreterDeviceManager.addNetworkImpl dm heap module fs).heap, []⟩ a h1
      rw [(interpreter_addNetworkImpl_collectCalls _ _ module2 fs2 a).1]
      simp [h2]

/-- Witness of C16: a map whose names `a` and `c` share the function at address
1, without constants, and whose `b` is the function at address 2, with
constants. -/
theorem C16_constants_resolved_once_witness :
    (collectCalls (CPUDeviceManager.addNetworkImpl (CPUDeviceManager.empty 1000 1) [2] 0
        [("a", ⟨1, BackendKind.CPU, "CPU", 0⟩), ("b", ⟨2, BackendKind.CPU, "CPU", 0⟩),
         ("c", ⟨1, BackendKind.CPU, "CPU", 0⟩)]).trace 1 = 1 ∧
      collectCalls (CPUDeviceManager.addNetworkImpl (CPUDeviceManager.empty 1000 1) [2] 0
        [("a", ⟨1, BackendKind.CPU, "CPU", 0⟩), ("b", ⟨2, BackendKind.CPU, "CPU", 0⟩),
         ("c", ⟨1, BackendKind.CPU, "CPU", 0⟩)]).trace 2 = 0) ∧
    (∀ a, collectCalls (CPUDeviceManager.addNetworkImpl (CPUDeviceManager.empty 1000 1) [2] 0
        [("a", ⟨1, BackendKind.CPU, "CPU", 0⟩), ("b", ⟨2, BackendKind.CPU, "CPU", 0⟩),
         ("c", ⟨1, BackendKind.CPU, "CPU", 0⟩)]).trace a
      = if a ∈ addrs [("a", CompiledFunction.mk 1 BackendKind.CPU "CPU" 0),
                      ("b", ⟨2, BackendKind.CPU, "CPU", 0⟩),
                      ("c", ⟨1, BackendKind.CPU, "CPU", 0⟩)] ∧ a ∉ [2] then 1 else 0) ∧
    (∀ a, collectCalls (InterpreterDeviceManager.addNetworkImpl
        (InterpreterDeviceManager.empty 1000) [2] 0
        [("a", ⟨1, BackendKind.Interpreter, "Interpreter", 10⟩),
         ("b", ⟨2, BackendKind.Interpreter, "Interpreter", 20⟩)]).trace a
      = if a ∈ addrs [("a", CompiledFunction.mk 1 BackendKind.Interpreter "Interpreter" 10),
                      ("b", ⟨2, BackendKind.Interpreter, "Interpreter", 20⟩)] ∧ a ∉ [2]
        then 1 else 0) :=
  ⟨by decide,
   ((C16_constants_resolved_once [2] 0
      [("a", ⟨1, BackendKind.CPU, "CPU", 0⟩), ("b", ⟨2, BackendKind.CPU, "CPU", 0⟩),
       ("c", ⟨1, BackendKind.CPU, "CPU", 0⟩)]).1 (CPUDeviceManager.empty 1000 1)
      (by decide)).1,
   ((C16_constants_resolved_once [2] 0
      [("a", ⟨1, BackendKind.Interpreter, "Interpreter", 10⟩),
       ("b", ⟨2, BackendKind.Interpreter, "Interpreter", 20⟩)]).2
      (InterpreterDeviceManager.empty 1000) (by decide)).1⟩

theorem exportCalls_of_collects (module : Nat) (fs : FunctionMapTy) (tr : List Effect)
    (h : ∀ e ∈ tr, ∃ f, (∃ k, (k, f) ∈ fs) ∧ e = Effect.collectConstants f module) :
    exportCalls tr = 0 := by
  unfold exportCalls
  rw [List.length_eq_zero, List.filter_eq_nil_iff]
  intro e he
  obtain ⟨f, _, h2⟩ := h e he
  rw [h2]
  simp [Effect.isExport]

/-- C17, as stated, fails: on the Interpreter manager, evicting the unregistered
`ghost` and adding a map that does not fit deliver their error without any call
of `exportMemoryCounters`. -/
theorem C17_counterexample_no_export_on_failure :
    (InterpreterDeviceManager.evictNetworkImpl (InterpreterDeviceManager.empty 1000) []
        "ghost").trace
      = [Effect.evictCB "ghost" (some (InterpreterDeviceManager.errNotFound "ghost"))] ∧
    exportCalls (InterpreterDeviceManager.evictNetworkImpl (InterpreterDeviceManager.empty 1000)
        [] "ghost").trace = 0 ∧
    (InterpreterDeviceManager.addNetworkImpl (InterpreterDeviceManager.empty 500) [] 0
        [("a", ⟨1, BackendKind.Interpreter, "Interpreter", 300⟩),
         ("b", ⟨2, BackendKind.Interpreter, "Interpreter", 300⟩)]).trace
      = [Effect.readyCB 0 (some errNotEnoughMemory)] ∧
    exportCalls (InterpreterDeviceManager.addNetworkImpl (InterpreterDeviceManager.empty 500) [] 0
        [("a", ⟨1, BackendKind.Interpreter, "Interpreter", 300⟩),
         ("b", ⟨2, BackendKind.Interpreter, "Interpreter", 300⟩)]).trace = 0 := by
  decide

/-- C17, amended: on the Interpreter manager, every `addNetworkImpl` and every
`evictNetworkImpl` that succeeds calls `exportMemoryCounters` exactly once, when
`usedMemoryBytes_` has its final value for the command and right before the
callback fires; one that fails does not call it and leaves the manager as it
was. -/
theorem C17_interpreter_export_on_success (dm : InterpreterDeviceManager)
    (heap : ConstantsHeap) :
    (∀ (module : Nat) (fs : FunctionMapTy),
      (Effect.readyCB module Error.success
          ∈ (InterpreterDeviceManager.addNetworkImpl dm heap module fs).trace →
        exportCalls (InterpreterDeviceManager.addNetworkImpl dm heap module fs).trace = 1 ∧
        ∃ pre, (InterpreterDeviceManager.addNetworkImpl dm heap module fs).trace
            = pre ++ [Effect.exportMemoryCounters
                (InterpreterDeviceManager.addNetworkImpl dm heap module fs).dm.usedMemoryBytes_,
              Effect.readyCB module Error.success] ∧
          exportCalls pre = 0) ∧
      (Effect.readyCB module Error.success
          ∉ (InterpreterDeviceManager.addNetworkImpl dm heap module fs).trace →
        exportCalls (InterpreterDeviceManager.addNetworkImpl dm heap module fs).trace = 0 ∧
        (InterpreterDeviceManager.addNetworkImpl dm heap module fs).dm = dm)) ∧
    (∀ name : String,
      (name ∈ keys dm.functions_ →
        (InterpreterDeviceManager.evictNetworkImpl dm heap name).trace
          = [Effect.exportMemoryCounters
              (InterpreterDeviceManager.evictNetworkImpl dm heap name).dm.usedMemoryBytes_,
             Effect.evictCB name Error.success]) ∧
      (name ∉ keys dm.functions_ →
        exportCalls (InterpreterDeviceManager.evictNetworkImpl dm heap name).trace = 0 ∧
        (InterpreterDeviceManager.evictNetworkImpl dm heap name).dm = dm)) := by
  constructor
  · intro module fs
    rcases InterpreterDeviceManager.addNetworkImpl_fail_or_ok dm heap module fs with
      ⟨err, h1, _⟩ | ⟨all, tr, _, _, h2, h3, h4⟩
    · rw [h1]
      refine ⟨fun h => ?_, fun _ => ⟨by simp [exportCalls, Effect.isExport], rfl⟩⟩
      simp [Error.success] at h
    · refine ⟨fun _ => ⟨?_, tr ++ [Effect.assertion true], ?_, ?_⟩, fun h => ?_⟩
      · have h5 := exportCalls_of_collects module fs tr h3
        unfold exportCalls at h5 ⊢
        rw [h4, List.filter_append, List.length_append, h5]
        simp [Effect.isExport]
      · rw [h4, h2]; simp
      · have h5 := exportCalls_of_collects module fs tr h3
        unfold exportCalls at h5 ⊢
        rw [List.filter_append, List.length_append, h5]
        simp [Effect.isExport]
      · exfalso; apply h; rw [h4]; simp
  · intro name
    constructor
    · intro hmem
      cases hf : find dm.functions_ name with
      | none => exact absurd hmem ((find_eq_none_iff _ _).mp hf)
      | some f => simp [InterpreterDeviceManager.evictNetworkImpl, hf]
    · intro hn
      simp [InterpreterDeviceManager.evictNetworkImpl, (find_eq_none_iff _ _).mpr hn,
        exportCalls, Effect.isExport]

/-- Witness of C17: `f` added to the empty manager and evicted from it. -/
theorem C17_interpreter_export_on_success_witness :
    exportCalls (InterpreterDeviceManager.addNetworkImpl (InterpreterDeviceManager.empty 1000)
        [] 0 [("f", ⟨1, BackendKind.Interpreter, "Interpreter", 100⟩)]).trace = 1 ∧
    (InterpreterDeviceManager.evictNetworkImpl
        ⟨[("f", ⟨1, BackendKind.Interpreter, "Interpreter", 100⟩)], 1000, 100⟩ [1] "f").trace
      = [Effect.exportMemoryCounters
          (InterpreterDeviceManager.evictNetworkImpl
            ⟨[("f", ⟨1, BackendKind.Interpreter, "Interpreter", 100⟩)], 1000, 100⟩ [1]
            "f").dm.usedMemoryBytes_,
         Effect.evictCB "f" Error.success] :=
  ⟨(((C17_interpreter_export_on_success (InterpreterDeviceManager.empty 1000) []).1 0
      [("f", ⟨1, BackendKind.Interpreter, "Interpreter", 100⟩)]).1 (by decide)).1,
   ((C17_interpreter_export_on_success
      ⟨[("f", ⟨1, BackendKind.Interpreter, "Interpreter", 100⟩)], 1000, 100⟩ [1]).2 "f").1
      (by decide)⟩

/-- C18, as stated, fails on both managers: in the state reached by adding `f` of
reservation 50 under capacity 100, `getAvailableMemory()` is 50 and the 64-bit
estimate `2^64 - 10` is larger, yet `isMemoryAvailable` returns true, because
`50 + (2^64 - 10)` wraps to 40. -/
theorem C18_counterexample_estimate_wraps :
    (InterpreterDeviceManager.isMemoryAvailable
        (InterpreterDeviceManager.reached InterpreterDeviceManager.executeOk 100
          [.addNetwork 0 [("f", ⟨1, BackendKind.Interpreter, "Interpreter", 50⟩)]])
        18446744073709551606 = true ∧
      InterpreterDeviceManager.getAvailableMemory
        (InterpreterDeviceManager.reached InterpreterDeviceManager.executeOk 100
          [.addNetwork 0 [("f", ⟨1, BackendKind.Interpreter, "Interpreter", 50⟩)]]) = 50 ∧
      (InterpreterDeviceManager.reached InterpreterDeviceManager.executeOk 100
          [.addNetwork 0 [("f", ⟨1, BackendKind.Interpreter, "Interpreter", 50⟩)]]
        ).usedMemoryBytes_ = 50) ∧
    (CPUDeviceManager.isMemoryAvailable
        (CPUDeviceManager.reached 100 50 [.addNetwork 0 [("f", ⟨1, BackendKind.CPU, "CPU", 0⟩)]])
        18446744073709551606 = true ∧
      CPUDeviceManager.getAvailableMemory
        (CPUDeviceManager.reached 100 50 [.addNetwork 0 [("f", ⟨1, BackendKind.CPU, "CPU", 0⟩)]])
        = 50 ∧
      (CPUDeviceManager.reached 100 50
        [.addNetwork 0 [("f", ⟨1, BackendKind.CPU, "CPU", 0⟩)]]).usedMemoryBytes_ = 50) ∧
    18446744073709551606 < two64 ∧ ¬ 18446744073709551606 ≤ 50 := by
  decide

/-- C18, amended: on both managers, for every state with `used <= capacity`, both
64-bit values, and every 64-bit estimate `n`, `getAvailableMemory()` is
`capacity - used`, and `isMemoryAvailable(n)` returns true exactly when
`n <= getAvailableMemory()` or the 64-bit sum `used + n` wraps to a value that is
at most the capacity; so whenever `used + n` is below `2^64` it returns true
exactly when `n <= getAvailableMemory()`. -/
theorem C18_isMemoryAvailable (n : Nat) (hn : n < two64) :
    (∀ dm : CPUDeviceManager, dm.usedMemoryBytes_ ≤ dm.maxMemoryBytes_ →
      dm.maxMemoryBytes_ < two64 →
      dm.getAvailableMemory = dm.maxMemoryBytes_ - dm.usedMemoryBytes_ ∧
      (dm.isMemoryAvailable n = true ↔
        n ≤ dm.getAvailableMemory ∨
          (two64 ≤ dm.usedMemoryBytes_ + n ∧
            dm.usedMemoryBytes_ + n - two64 ≤ dm.maxMemoryBytes_)) ∧
      (dm.usedMemoryBytes_ + n < two64 →
        (dm.isMemoryAvailable n = true ↔ n ≤ dm.getAvailableMemory))) ∧
    (∀ dm : InterpreterDeviceManager, dm.usedMemoryBytes_ ≤ dm.maxMemoryBytes_ →
      dm.maxMemoryBytes_ < two64 →
      dm.getAvailableMemory = dm.maxMemoryBytes_ - dm.usedMemoryBytes_ ∧
      (dm.isMemoryAvailable n = true ↔
        n ≤ dm.getAvailableMemory ∨
          (two64 ≤ dm.usedMemoryBytes_ + n ∧
            dm.usedMemoryBytes_ + n - two64 ≤ dm.maxMemoryBytes_)) ∧
      (dm.usedMemoryBytes_ + n < two64 →
        (dm.isMemoryAvailable n = true ↔ n ≤ dm.getAvailableMemory))) := by
  constructor
  · intro dm hu hmax
    have ha : dm.getAvailableMemory = dm.maxMemoryBytes_ - dm.usedMemoryBytes_ := by
      simp only [CPUDeviceManager.getAvailableMemory, sub64, two64] at hmax ⊢
      omega
    refine ⟨ha, ?_, ?_⟩
    · rw [ha]
      simp only [CPUDeviceManager.isMemoryAvailable, decide_eq_true_eq, add64, two64,
        ge_iff_le] at hn hmax ⊢
      omega
    · intro hfit
      rw [ha]
      simp only [CPUDeviceManager.isMemoryAvailable, decide_eq_true_eq, add64, two64,
        ge_iff_le] at hn hmax hfit ⊢
      omega
  · intro dm hu hmax
    have ha : dm.getAvailableMemory = dm.maxMemoryBytes_ - dm.usedMemoryBytes_ := by
      simp only [InterpreterDeviceManager.getAvailableMemory, sub64, two64] at hmax ⊢
      omega
    refine ⟨ha, ?_, ?_⟩
    · rw [ha]
      simp only [InterpreterDeviceManager.isMemoryAvailable, decide_eq_true_eq, add64, two64,
        ge_iff_le] at hn hmax ⊢
      omega
    · intro hfit
      rw [ha]
      simp only [InterpreterDeviceManager.isMemoryAvailable, decide_eq_true_eq, add64, two64,
        ge_iff_le] at hn hmax hfit ⊢
      omega

/-- Witness of C18: the estimate 50 against 50 bytes used of 100, on both
managers. -/
theorem C18_isMemoryAvailable_witness :
    ((CPUDeviceManager.mk [] 100 50 50).isMemoryAvailable 50 = true ↔
      50 ≤ (CPUDeviceManager.mk [] 100 50 50).getAvailableMemory) ∧
    ((InterpreterDeviceManager.mk [] 100 50).isMemoryAvailable 50 = true ↔
      50 ≤ (InterpreterDeviceManager.mk [] 100 50).getAvailableMemory) :=
  ⟨((C18_isMemoryAvailable 50 (by decide)).1 ⟨[], 100, 50, 50⟩ (by decide) (by decide)).2.2
      (by decide),
   ((C18_isMemoryAvailable 50 (by decide)).2 ⟨[], 100, 50⟩ (by decide) (by decide)).2.2
      (by decide)⟩

/-- C19, as stated, fails: the Interpreter manager of capacity `2^63` that holds
`g` of weight `2^63` uses `2^63 <= capacity`; adding `f` of weight `2^63`
succeeds, because `2^63 + 2^63` wraps to 0, although the exact sum `2^64` exceeds
the capacity. -/
theorem C19_counterexample_sum_wraps :
    (InterpreterDeviceManager.reached InterpreterDeviceManager.executeOk 9223372036854775808
        [.addNetwork 0 [("g", ⟨1, BackendKind.Interpreter, "Interpreter",
          9223372036854775808⟩)]]).usedMemoryBytes_ = 9223372036854775808 ∧
    Effect.readyCB 0 Error.success
      ∈ (InterpreterDeviceManager.addNetworkImpl
          (InterpreterDeviceManager.reached InterpreterDeviceManager.executeOk
            9223372036854775808
            [.addNetwork 0 [("g", ⟨1, BackendKind.Interpreter, "Interpreter",
              9223372036854775808⟩)]])
          [1] 0
          [("f", ⟨2, BackendKind.Interpreter, "Interpreter", 9223372036854775808⟩)]).trace ∧
    ¬ (9223372036854775808
        + InterpreterDeviceManager.weightSum
            [("f", ⟨2, BackendKind.Interpreter, "Interpreter", 9223372036854775808⟩)]
        ≤ 9223372036854775808) := by
  decide

/-- C19, amended: on the Interpreter manager, if `addNetworkImpl` succeeds then
`used + sum of the weight sizes`, taken modulo `2^64` as the code accumulates it,
is at most the capacity; so the exact value is at most the capacity whenever it
is below `2^64`. -/
theorem C19_interpreter_addNetwork_sound_without_wrap (dm : InterpreterDeviceManager)
    (heap : ConstantsHeap) (module : Nat) (fs : FunctionMapTy)
    (hs : Effect.readyCB module Error.success
      ∈ (InterpreterDeviceManager.addNetworkImpl dm heap module fs).trace) :
    (dm.usedMemoryBytes_ + InterpreterDeviceManager.weightSum fs) % two64
        ≤ dm.maxMemoryBytes_ ∧
    (dm.usedMemoryBytes_ + InterpreterDeviceManager.weightSum fs < two64 →
      dm.usedMemoryBytes_ + InterpreterDeviceManager.weightSum fs ≤ dm.maxMemoryBytes_) := by
  rcases InterpreterDeviceManager.addNetworkImpl_fail_or_ok dm heap module fs with
    ⟨err, h1, _⟩ | ⟨all, tr, h1, h2, _, _, _⟩
  · rw [h1] at hs
    simp [Error.success] at hs
  · obtain ⟨_, hall⟩ := InterpreterDeviceManager.checkFunctions_ok dm fs 0 all
      (by unfold two64; omega) h1
    rw [hall] at h2
    simp only [add64, two64] at h2 ⊢
    constructor
    · omega
    · intro hfit
      omega

/-- Witness of C19: two functions of weights 300 and 200 added to a manager that
uses 400 of 1000. -/
theorem C19_interpreter_addNetwork_sound_without_wrap_witness :
    (InterpreterDeviceManager.mk [] 1000 400).usedMemoryBytes_
        + InterpreterDeviceManager.weightSum
            [("a", ⟨1, BackendKind.Interpreter, "Interpreter", 300⟩),
             ("b", ⟨2, BackendKind.Interpreter, "Interpreter", 200⟩)]
      ≤ (InterpreterDeviceManager.mk [] 1000 400).maxMemoryBytes_ :=
  (C19_interpreter_addNetwork_sound_without_wrap ⟨[], 1000, 400⟩ [] 0
      [("a", ⟨1, BackendKind.Interpreter, "Interpreter", 300⟩),
       ("b", ⟨2, BackendKind.Interpreter, "Interpreter", 200⟩)] (by decide)).2 (by decide)

/-- C20: on the CPU manager, for every state, id, name and context,
`runFunctionImpl` leaves the manager and the heap as they were and its result
callback receives the same id and context; when the name is registered it calls
`execute` exactly once, on the function registered under the name and with the
context, and the callback receives `Executed`; when it is not, `execute` is not
called and the callback receives `Failed`; so `Executed` is delivered exactly
when the name is registered and `Failed` exactly when it is not. -/
theorem C20_cpu_runFunction (dm : CPUDeviceManager) (heap : ConstantsHeap) (id : Nat)
    (name : String) (context : Nat) :
    (∀ f, find dm.functions_ name = some f →
      CPUDeviceManager.runFunctionImpl dm heap id name context
        = ⟨dm, heap, [Effect.execute f context,
                      Effect.resultCodeCB id ResultCode.Executed context]⟩ ∧
      executeCalls (CPUDeviceManager.runFunctionImpl dm heap id name context).trace
        = [Effect.execute f context]) ∧
    (name ∉ keys dm.functions_ →
      CPUDeviceManager.runFunctionImpl dm heap id name context
        = ⟨dm, heap,
            [Effect.errs ("Failed to run function: name " ++ name ++ " not found.\n"),
             Effect.resultCodeCB id ResultCode.Failed context]⟩ ∧
      executeCalls (CPUDeviceManager.runFunctionImpl dm heap id name context).trace = []) ∧
    (Effect.resultCodeCB id ResultCode.Executed context
        ∈ (CPUDeviceManager.runFunctionImpl dm heap id name context).trace ↔
      name ∈ keys dm.functions_) ∧
    (Effect.resultCodeCB id ResultCode.Failed context
        ∈ (CPUDeviceManager.runFunctionImpl dm heap id name context).trace ↔
      name ∉ keys dm.functions_) ∧
    (CPUDeviceManager.runFunctionImpl dm heap id name context).dm = dm := by
  cases hf : find dm.functions_ name with
  | none =>
    have hn : name ∉ keys dm.functions_ := (find_eq_none_iff _ _).mp hf
    simp [CPUDeviceManager.runFunctionImpl, hf, hn, executeCalls, Effect.isExecute]
  | some g =>
    have hm : name ∈ keys dm.functions_ := mem_keys_of_find _ _ _ hf
    simp [CPUDeviceManager.runFunctionImpl, hf, hm, executeCalls, Effect.isExecute]

/-- Witness of C20: a run of the registered `f` and a run of the unregistered
`ghost` on a manager that holds `f`. -/
theorem C20_cpu_runFunction_witness :
    CPUDeviceManager.runFunctionImpl ⟨[("f", ⟨1, BackendKind.CPU, "CPU", 0⟩)], 1000, 1, 1⟩ [1]
        5 "f" 9
      = ⟨⟨[("f", ⟨1, BackendKind.CPU, "CPU", 0⟩)], 1000, 1, 1⟩, [1],
          [Effect.execute ⟨1, BackendKind.CPU, "CPU", 0⟩ 9,
           Effect.resultCodeCB 5 ResultCode.Executed 9]⟩ ∧
    CPUDeviceManager.runFunctionImpl ⟨[("f", ⟨1, BackendKind.CPU, "CPU", 0⟩)], 1000, 1, 1⟩ [1]
        6 "ghost" 9
      = ⟨⟨[("f", ⟨1, BackendKind.CPU, "CPU", 0⟩)], 1000, 1, 1⟩, [1],
          [Effect.errs ("Failed to run function: name " ++ "ghost" ++ " not found.\n"),
           Effect.resultCodeCB 6 ResultCode.Failed 9]⟩ :=
  ⟨((C20_cpu_runFunction ⟨[("f", ⟨1, BackendKind.CPU, "CPU", 0⟩)], 1000, 1, 1⟩ [1] 5 "f" 9).1
      ⟨1, BackendKind.CPU, "CPU", 0⟩ (by decide)).1,
   ((C20_cpu_runFunction ⟨[("f", ⟨1, BackendKind.CPU, "CPU", 0⟩)], 1000, 1, 1⟩ [1] 6 "ghost"
      9).2.1 (by decide)).1⟩

end glow
